import Mathlib

/-!
AppleALC `kern_alc.cpp`: a shallow embedding.

The definitions below follow `src/AppleALC/kern_alc.cpp` (the build with
`HAVE_ANALOG_AUDIO` defined).  Conventions of the embedding:

* machine integers are `Nat`; a pointer/count pair (`revisions`/`revisionNum`,
  `patches`/`patchNum`, ...) is a `List` whose length is the count;
* a pointer into a table (`&ADDPR(controllerMod)[mod]`) is the index `mod`;
  a nullable pointer is an `Option`;
* declarations that live in headers which are not part of the sources
  (`kern_alc.hpp`, `kern_resources.hpp`, Lilu) are taken as parameters, see
  `Params`; the primitives of Lilu and IOKit (`getOSDataValue`, `setProperty`,
  `renameDevice`, `compatibleKernel`, the patcher) follow their documented behaviour;
* device nodes are held by value: two nodes of a `DeviceInfo` snapshot are two registry
  entries, and every entry of the controller fact table owns its patch array;
* allocations (`ControllerInfo::create`, `CodecInfo::create`, `push_back`,
  `setProperty`) succeed;
* a loop whose bound is not the length of a list takes a `fuel` argument; the lemmas
  `validateCodecsLoop_eq`, `nextFreeNvidiaId_none_end` and `nextFreeNvidiaId_fuel` show
  that the fuel given by the callers is enough.
-/

namespace AppleALC

/-! ## Fact tables (`kern_resources.hpp`, fields as used by `kern_alc.cpp`) -/

/-- Lilu `KernelPatcher::KextInfo`: the two fields read here, `loadIndex` and `user[0]`. -/
structure KextInfo where
  loadIndex : Nat
  user0 : Nat
  deriving DecidableEq, Repr

/-- Lilu `KernelPatcher::LookupPatch`; `kext` is the pointee of the `kext` pointer,
`find`/`replace` are the byte strings pointed to. -/
structure LookupPatch where
  kext : KextInfo
  find : List Nat
  replace : List Nat
  size : Nat
  count : Nat
  deriving DecidableEq, Repr

/-- A `KextPatch`: a lookup patch with its kernel version range. -/
structure KextPatch where
  patch : LookupPatch
  minKernel : Nat
  maxKernel : Nat
  deriving DecidableEq, Repr

/-- A `ControllerModInfo` fact-table entry. -/
structure ControllerModInfo where
  name : String
  vendor : Nat
  device : Nat
  revisions : List Nat
  platform : Nat
  computerModel : Nat
  patches : List KextPatch
  deriving DecidableEq, Repr

/-- A `ControllerInfo` instance of the controller registry; `info` is the pointer
into the controller fact table (an index), `detect` the anchor node (a handle). -/
structure ControllerInfo where
  vendor : Nat
  device : Nat
  revision : Nat
  platform : Nat
  layout : Nat
  detect : Option Nat
  nopatch : Bool
  info : Option Nat
  deriving DecidableEq, Repr

/-- Constants declared in headers that are not part of the sources. -/
structure Params where
  PlatformAny : Nat
  NvidiaSpecialFind : Nat
  nvidiaDeviceIdList : List Nat
  MaxConnectorCount : Nat
  bruteMax : Nat
  ControllersLoaded : Nat
  CodecsLoaded : Nat
  CallbacksWantRouting : Nat
  PatchHDAFamily : Nat
  PatchHDAController : Nat
  PatchHDAPlatformDriver : Nat
  KextIdAppleHDAController : Nat
  KextIdAppleHDA : Nat
  KextIdAppleGFXHDA : Nat
  KextIdIOHDAFamily : Nat
  KextIdAppleHDAPlatformDriver : Nat
  kextList : List KextInfo
  symPerformPowerChange : String
  symIOHDACodecDevice_executeVerb : String
  codecIdentity : Nat → Nat → Nat × Nat × Nat

/-! ## `validateControllers` -/

/-- The loop `while (rev < revisionNum && revisions[rev] != revision) rev++`,
run on the not yet visited revisions; returns the final `rev`. -/
def scanRevisions (revision : Nat) : List Nat → Nat → Nat
  | [], rev => rev
  | r :: rs, rev => if r ≠ revision then scanRevisions revision rs (rev + 1) else rev

/-- The inner `for (mod ...)` loop of `validateControllers` for one controller, run on
the not yet visited table entries; `some mod` is the `break` with `info` assigned. -/
def validateController (P : Params) (computerModel : Nat) (c : ControllerInfo) :
    List ControllerModInfo → Nat → Option Nat
  | [], _ => none
  | m :: ms, mod =>
    if c.vendor = m.vendor ∧ c.device = m.device then
      let rev := scanRevisions c.revision m.revisions 0
      if m.platform ≠ P.PlatformAny ∧ m.platform ≠ c.platform then
        validateController P computerModel c ms (mod + 1)
      else if computerModel &&& m.computerModel = 0 then
        validateController P computerModel c ms (mod + 1)
      else if rev ≠ m.revisions.length ∨ m.revisions.length = 0 then
        some mod
      else
        validateController P computerModel c ms (mod + 1)
    else
      validateController P computerModel c ms (mod + 1)

/-- Models `AlcEnabler::validateControllers`: every controller of the registry is compared
with the table; `info` is written only when the inner loop breaks on a match. -/
def validateControllers (P : Params) (controllerMod : List ControllerModInfo)
    (computerModel : Nat) (controllers : List ControllerInfo) : List ControllerInfo :=
  controllers.map fun c =>
    match validateController P computerModel c controllerMod 0 with
    | some mod => { c with info := some mod }
    | none => c

/-- The four-part predicate in the words of the specification. -/
def ControllerEntryMatches (P : Params) (M : Nat) (K : ControllerInfo)
    (e : ControllerModInfo) : Prop :=
  (K.vendor = e.vendor ∧ K.device = e.device) ∧
  (e.revisions = [] ∨ K.revision ∈ e.revisions) ∧
  (e.platform = P.PlatformAny ∨ e.platform = K.platform) ∧
  (e.computerModel &&& M ≠ 0)

instance (P : Params) (M : Nat) (K : ControllerInfo) (e : ControllerModInfo) :
    Decidable (ControllerEntryMatches P M K e) := by
  unfold ControllerEntryMatches; infer_instance

/-! ## Codec fact tables and `validateCodecs` -/

/-- A `CodecModInfo::File`: a resource blob with its layout id and kernel range. -/
structure CodecFile where
  data : List Nat
  dataLength : Nat
  minKernel : Nat
  maxKernel : Nat
  layout : Nat
  deriving DecidableEq, Repr

/-- A `CodecModInfo` fact-table entry; `platforms`/`layouts` are nullable pointers to
file arrays (`platformNum`/`layoutNum` are the lengths, see `platformNum`). -/
structure CodecModInfo where
  name : String
  codec : Nat
  revisions : List Nat
  platforms : Option (List CodecFile)
  layouts : Option (List CodecFile)
  patches : List KextPatch
  deriving DecidableEq, Repr

/-- The count `platformNum` that accompanies the pointer `platforms`. -/
def CodecModInfo.platformNum (m : CodecModInfo) : Nat := (m.platforms.getD []).length

/-- The count `layoutNum` that accompanies the pointer `layouts`. -/
def CodecModInfo.layoutNum (m : CodecModInfo) : Nat := (m.layouts.getD []).length

/-- A `VendorModInfo` fact-table entry. -/
structure VendorModInfo where
  name : String
  vendor : Nat
  codecs : List CodecModInfo
  deriving DecidableEq, Repr

/-- A `CodecInfo` instance of the codec registry; `info` is the pointer
`&ADDPR(vendorMod)[vIdx].codecs[cIdx]`, kept as the pair `(vIdx, cIdx)`. -/
structure CodecInfo where
  controller : Nat
  vendor : Nat
  codec : Nat
  revision : Nat
  info : Option (Nat × Nat)
  deriving DecidableEq, Repr

/-- The loop `while (vIdx < vendorModSize && vendorMod[vIdx].vendor != vendor) vIdx++`. -/
def scanVendors (vendor : Nat) : List VendorModInfo → Nat → Nat
  | [], vIdx => vIdx
  | v :: vs, vIdx => if v.vendor ≠ vendor then scanVendors vendor vs (vIdx + 1) else vIdx

/-- The loop `while (cIdx < codecsNum && codecs[cIdx].codec != codec) cIdx++`. -/
def scanCodecs (codec : Nat) : List CodecModInfo → Nat → Nat
  | [], cIdx => cIdx
  | m :: ms, cIdx => if m.codec ≠ codec then scanCodecs codec ms (cIdx + 1) else cIdx

/-- The body of the `while` loop of `validateCodecs` for one codec: `some (vIdx, cIdx)`
when `suitable` is set (the value written to `info`), `none` otherwise. -/
def validateCodec (vendorMod : List VendorModInfo) (c : CodecInfo) : Option (Nat × Nat) :=
  let vIdx := scanVendors c.vendor vendorMod 0
  if vIdx ≠ vendorMod.length then
    match vendorMod[vIdx]? with
    | none => none
    | some v =>
      let cIdx := scanCodecs c.codec v.codecs 0
      if cIdx ≠ v.codecs.length then
        match v.codecs[cIdx]? with
        | none => none
        | some m =>
          let rIdx := scanRevisions c.revision m.revisions 0
          if rIdx ≠ m.revisions.length ∨ m.revisions.length = 0 then some (vIdx, cIdx)
          else none
      else none
  else none

/-- The loop `while (i < codecs.size())` of `validateCodecs`: a suitable codec gets its
`info` and `i` advances, an unsuitable one is erased at `i`.  Every iteration lowers
`codecs.size() - i`, which bounds the fuel. -/
def validateCodecsLoop (vendorMod : List VendorModInfo) :
    Nat → Nat → List CodecInfo → List CodecInfo
  | 0, _, codecs => codecs
  | fuel + 1, i, codecs =>
    match codecs[i]? with
    | none => codecs
    | some c =>
      match validateCodec vendorMod c with
      | some ref =>
        validateCodecsLoop vendorMod fuel (i + 1) (codecs.set i { c with info := some ref })
      | none => validateCodecsLoop vendorMod fuel i (codecs.eraseIdx i)

/-- Models `AlcEnabler::validateCodecs`: the registry after the loop and the returned
`codecs.size() > 0`. -/
def validateCodecs (vendorMod : List VendorModInfo) (codecs : List CodecInfo) :
    List CodecInfo × Bool :=
  let codecs' := validateCodecsLoop vendorMod codecs.length 0 codecs
  (codecs', decide (codecs'.length > 0))

/-- The codec lookup as the code performs it, in words: `v` is the first vendor entry
with the codec's vendor id, `k` the first codec entry of that vendor entry with the
codec's codec id, and that entry's revision set is empty or holds the revision. -/
def CodecEntryChosen (vendorMod : List VendorModInfo) (c : CodecInfo) (v k : Nat) : Prop :=
  ∃ ve m, vendorMod[v]? = some ve ∧ ve.vendor = c.vendor ∧
    (∀ j ve', j < v → vendorMod[j]? = some ve' → ve'.vendor ≠ c.vendor) ∧
    ve.codecs[k]? = some m ∧ m.codec = c.codec ∧
    (∀ j m', j < k → ve.codecs[j]? = some m' → m'.codec ≠ c.codec) ∧
    (m.revisions = [] ∨ c.revision ∈ m.revisions)

/-- The codec predicate in the words of the specification: some codec entry under a
vendor entry with the vendor id has the codec id and a fitting revision set. -/
def CodecEntryMatches (c : CodecInfo) (ve : VendorModInfo) (m : CodecModInfo) : Prop :=
  ve.vendor = c.vendor ∧ m.codec = c.codec ∧ (m.revisions = [] ∨ c.revision ∈ m.revisions)

instance (c : CodecInfo) (ve : VendorModInfo) (m : CodecModInfo) :
    Decidable (CodecEntryMatches c ve m) := by
  unfold CodecEntryMatches; infer_instance

/-- A vendor table in which one codec id is listed twice: first with a revision set,
then for any revision. -/
def dupCodecTable : List VendorModInfo :=
  [{ name := "Realtek", vendor := 0x10EC,
     codecs := [{ name := "ALC269 rev 0x100", codec := 0x269, revisions := [0x100],
                  platforms := none, layouts := none, patches := [] },
                { name := "ALC269", codec := 0x269, revisions := [],
                  platforms := none, layouts := none, patches := [] }] }]

/-- A codec instance of that codec id whose revision is not in the first entry's set. -/
def dupCodecInstance : CodecInfo :=
  { controller := 0, vendor := 0x10EC, codec := 0x269, revision := 0x200, info := none }

/-! ## Resource substitution: `updateResource` and the load callbacks -/

/-- The request type `Resource`. -/
inductive Resource where
  | Platform
  | Layout
  deriving DecidableEq, Repr

/-- The three reference parameters of `updateResource`: `result`, `resourceData`
(a nullable pointer, kept as the bytes it points to) and `resourceDataLength`. -/
structure ResourceReply where
  result : Int
  resourceData : Option (List Nat)
  resourceDataLength : Nat
  deriving DecidableEq, Repr

/-- The value `kOSReturnSuccess`. -/
def kOSReturnSuccess : Int := 0

/-- Dereference of a codec's `info` pointer. -/
def codecModInfoAt (vendorMod : List VendorModInfo) (ref : Nat × Nat) : Option CodecModInfo :=
  match vendorMod[ref.1]? with
  | none => none
  | some ve => ve.codecs[ref.2]?

/-- The file array `type == Resource::Platform ? info->platforms : info->layouts`. -/
def resourceFiles (type : Resource) (info : CodecModInfo) : Option (List CodecFile) :=
  match type with
  | Resource.Platform => info.platforms
  | Resource.Layout => info.layouts

/-- The loop `for (f = 0; f < num; f++)` of `updateResource` for one codec whose
controller has layout id `layout`, run on the not yet visited files.  `compatibleKernel`
is `KernelPatcher::compatibleKernel`, `decompress` is `Compression::decompress` applied
to the buffer length `0x7A000` (both are Lilu's). -/
def selectResourceFile (compatibleKernel : Nat → Nat → Bool)
    (decompress : Nat → List Nat → Nat → Option (List Nat × Nat)) (isAppleHDAZlib : Bool)
    (layout : Nat) : List CodecFile → ResourceReply → ResourceReply
  | [], r => r
  | fi :: fs, r =>
    if layout = fi.layout ∧ compatibleKernel fi.minKernel fi.maxKernel = true then
      if ¬ (isAppleHDAZlib = true) then
        match decompress 0x7A000 fi.data fi.dataLength with
        | none => r
        | some (buffer, bufferLength) =>
          { result := kOSReturnSuccess, resourceData := some buffer,
            resourceDataLength := bufferLength }
      else
        { result := kOSReturnSuccess, resourceData := some fi.data,
          resourceDataLength := fi.dataLength }
    else
      selectResourceFile compatibleKernel decompress isAppleHDAZlib layout fs r

/-- One iteration of the loop over the codecs in `updateResource`.  The result is `none`
when the iteration reads through a dangling `info` pointer or indexes `controllers`
out of bounds (undefined behaviour in the source). -/
def updateResourceCodec (vendorMod : List VendorModInfo)
    (compatibleKernel : Nat → Nat → Bool)
    (decompress : Nat → List Nat → Nat → Option (List Nat × Nat)) (isAppleHDAZlib : Bool)
    (controllers : List ControllerInfo) (type : Resource) (c : CodecInfo)
    (r : ResourceReply) : Option ResourceReply :=
  match c.info with
  | none => some r
  | some ref =>
    match codecModInfoAt vendorMod ref with
    | none => none
    | some info =>
      match resourceFiles type info with
      | none => some r
      | some [] => some r
      | some (fi :: fs) =>
        match controllers[c.controller]? with
        | none => none
        | some ctl =>
          some (selectResourceFile compatibleKernel decompress isAppleHDAZlib ctl.layout
            (fi :: fs) r)

/-- Models `AlcEnabler::updateResource`: the loop over all codecs of the registry, run on the
not yet visited codecs. -/
def updateResource (vendorMod : List VendorModInfo) (compatibleKernel : Nat → Nat → Bool)
    (decompress : Nat → List Nat → Nat → Option (List Nat × Nat)) (isAppleHDAZlib : Bool)
    (controllers : List ControllerInfo) (type : Resource) :
    List CodecInfo → ResourceReply → Option ResourceReply
  | [], r => some r
  | c :: cs, r =>
    match updateResourceCodec vendorMod compatibleKernel decompress isAppleHDAZlib
        controllers type c r with
    | none => none
    | some r' =>
      updateResource vendorMod compatibleKernel decompress isAppleHDAZlib controllers type cs r'

/-- Models `AlcEnabler::layoutLoadCallback`: the arguments `(requestTag, result, resourceData,
resourceDataLength, context)` with which the original callback is called. -/
def layoutLoadCallback (vendorMod : List VendorModInfo) (compatibleKernel : Nat → Nat → Bool)
    (decompress : Nat → List Nat → Nat → Option (List Nat × Nat)) (isAppleHDAZlib : Bool)
    (controllers : List ControllerInfo) (codecs : List CodecInfo)
    (requestTag : Nat) (r : ResourceReply) (context : Nat) :
    Option (Nat × ResourceReply × Nat) :=
  (updateResource vendorMod compatibleKernel decompress isAppleHDAZlib controllers
    Resource.Layout codecs r).map fun r' => (requestTag, r', context)

/-- Models `AlcEnabler::platformLoadCallback`: as `layoutLoadCallback`, for platform requests. -/
def platformLoadCallback (vendorMod : List VendorModInfo) (compatibleKernel : Nat → Nat → Bool)
    (decompress : Nat → List Nat → Nat → Option (List Nat × Nat)) (isAppleHDAZlib : Bool)
    (controllers : List ControllerInfo) (codecs : List CodecInfo)
    (requestTag : Nat) (r : ResourceReply) (context : Nat) :
    Option (Nat × ResourceReply × Nat) :=
  (updateResource vendorMod compatibleKernel decompress isAppleHDAZlib controllers
    Resource.Platform codecs r).map fun r' => (requestTag, r', context)

/-- Well-formed registries: every codec's `info` is null or points to a table entry, and
every codec's controller index is inside the controller registry. -/
def RegistryWF (vendorMod : List VendorModInfo) (controllers : List ControllerInfo)
    (codecs : List CodecInfo) : Prop :=
  ∀ c ∈ codecs, c.controller < controllers.length ∧
    ∀ ref, c.info = some ref → (codecModInfoAt vendorMod ref).isSome = true

/-- File `fi` of codec `c` answers a request of type `type`: `c` has a fact-table entry
whose file array of that type holds `fi`, the layout id of `fi` equals the layout id of
the codec's controller, and the kernel range of `fi` is compatible. -/
def ResourceFileMatches (vendorMod : List VendorModInfo) (compatibleKernel : Nat → Nat → Bool)
    (controllers : List ControllerInfo) (type : Resource) (c : CodecInfo) (fi : CodecFile) :
    Prop :=
  ∃ ref info files ctl, c.info = some ref ∧ codecModInfoAt vendorMod ref = some info ∧
    resourceFiles type info = some files ∧ fi ∈ files ∧
    controllers[c.controller]? = some ctl ∧ ctl.layout = fi.layout ∧
    compatibleKernel fi.minKernel fi.maxKernel = true

/-- A codec table with two codecs that both carry a layout file for layout id 3. -/
def twoCodecTable : List VendorModInfo :=
  [{ name := "Realtek", vendor := 0x10EC,
     codecs := [{ name := "ALC269", codec := 0x269, revisions := [],
                  platforms := none,
                  layouts := some [{ data := [1], dataLength := 1, minKernel := 0,
                                     maxKernel := 0, layout := 3 }],
                  patches := [] },
                { name := "ALC892", codec := 0x892, revisions := [],
                  platforms := none,
                  layouts := some [{ data := [2], dataLength := 1, minKernel := 0,
                                     maxKernel := 0, layout := 3 }],
                  patches := [] }] }]

/-- A controller registry with one analog controller of layout id 3. -/
def oneControllerRegistry : List ControllerInfo :=
  [{ vendor := 0x8086, device := 0x293E, revision := 3, platform := 0, layout := 3,
     detect := some 0, nopatch := false, info := none }]

/-- A validated codec registry with two codecs on that controller. -/
def twoCodecRegistry : List CodecInfo :=
  [{ controller := 0, vendor := 0x10EC, codec := 0x269, revision := 0, info := some (0, 0) },
   { controller := 0, vendor := 0x10EC, codec := 0x892, revision := 0, info := some (0, 1) }]

/-- An incoming reply of the original resource loader. -/
def failedReply : ResourceReply :=
  { result := 5, resourceData := none, resourceDataLength := 0 }

/-! ## Device nodes and property injection -/

/-- The objects a property can hold, as far as this file tells them apart. -/
inductive OSObject where
  | data (bytes : List Nat)
  | boolean (b : Bool)
  | number (n : Nat)
  | other
  deriving DecidableEq, Repr

/-- An `IORegistryEntry`: its registry id (the identity of the object), its name
(`getName()` may be null) and its property table. -/
structure IORegistryEntry where
  id : Nat
  name : Option String
  props : String → Option OSObject

/-- The method `getProperty(key)`. -/
def IORegistryEntry.getProperty (e : IORegistryEntry) (key : String) : Option OSObject :=
  e.props key

/-- The method `setProperty(key, object)`. -/
def IORegistryEntry.setObject (e : IORegistryEntry) (key : String) (v : OSObject) :
    IORegistryEntry :=
  { e with props := fun k => if k = key then some v else e.props k }

/-- The method `setProperty(key, bytes, length)`: stores an `OSData` with these bytes. -/
def IORegistryEntry.setProperty (e : IORegistryEntry) (key : String) (bytes : List Nat) :
    IORegistryEntry :=
  e.setObject key (OSObject.data bytes)

/-- The four bytes of a `uint32_t` in memory (little endian). -/
def u32Bytes (v : Nat) : List Nat :=
  [v % 256, v / 256 % 256, v / 65536 % 256, v / 16777216 % 256]

/-- The `uint32_t` stored in four bytes of memory, `reinterpret_cast<const uint32_t *>`. -/
def readU32 : List Nat → Option Nat
  | a :: b :: c :: d :: _ => some (a % 256 + 256 * (b % 256) + 65536 * (c % 256) +
      16777216 * (d % 256))
  | _ => none

/-- Lilu's `WIOKit::getOSDataValue<uint32_t>`: succeeds on an `OSData` property of
exactly four bytes. -/
def getOSDataValue (e : IORegistryEntry) (key : String) : Option Nat :=
  match e.getProperty key with
  | some (OSObject.data bytes) => if bytes.length = 4 then readU32 bytes else none
  | _ => none

/-- The bytes of a C string with its terminating NUL, `(s, strlen(s) + 1)`. -/
def cString (s : String) : List Nat := s.toList.map Char.toNat ++ [0]

/-- Lilu's `WIOKit::renameDevice(entry, name)`: sets the name and may extend the
`compatible` property (`compat` is that update); nothing else is touched. -/
def renameDevice (compat : Option OSObject → String → Option OSObject)
    (e : IORegistryEntry) (name : String) : IORegistryEntry :=
  { e with
    name := some name
    props := fun k => if k = "compatible" then compat (e.props "compatible") name
      else e.props k }

/-- Lilu's `DeviceInfo::FirmwareVendor`; only `Apple` is compared against. -/
inductive FirmwareVendor where
  | Unknown
  | Apple
  | Other
  deriving DecidableEq, Repr

/-- What the functions of this file read from outside `AlcEnabler`: boot arguments
(`lilu_get_boot_args`, a 32-bit value when the argument is present), the running kernel
version, `ADDPR(debugEnabled)` and the `compatible` update of `renameDevice`. -/
structure Host where
  bootArg : String → Option Nat
  kernelVersion : Nat
  debugEnabled : Bool
  compat : Option OSObject → String → Option OSObject

/-- The members `layoutIdIsOverridden` and `layoutIdOverride` of `AlcEnabler`. -/
structure LayoutOverride where
  layoutIdIsOverridden : Bool
  layoutIdOverride : Nat
  deriving DecidableEq, Repr

/-- The first block of `updateDeviceProperties`: AppleHDAController only recognises HDEF
and HDAU, the node is renamed when its plane name is null or differs. -/
def fixPlaneName (host : Host) (hdaService : IORegistryEntry) (isAnalog : Bool) :
    IORegistryEntry :=
  let hdaPlaneName := hdaService.name
  if isAnalog = true ∧ hdaPlaneName ≠ some "HDEF" then
    renameDevice host.compat hdaService "HDEF"
  else if ¬ (isAnalog = true) ∧ hdaPlaneName ≠ some "HDAU" then
    renameDevice host.compat hdaService "HDAU"
  else hdaService

/-- The block of `updateDeviceProperties` that refreshes `alc-layout-id`: `alcid=X`
overrides; on Apple firmware a readable `alc-layout-id` is kept; otherwise, on non-Apple
firmware or with `use-layout-id`, a readable `layout-id` is copied. -/
def refreshAlcLayoutId (host : Host) (firmwareVendor : FirmwareVendor)
    (hdaService : IORegistryEntry) : IORegistryEntry :=
  match host.bootArg "alcid" with
  | some layout => hdaService.setProperty "alc-layout-id" (u32Bytes layout)
  | none =>
    if firmwareVendor = FirmwareVendor.Apple ∧
        (getOSDataValue hdaService "alc-layout-id").isSome = true then hdaService
    else if firmwareVendor ≠ FirmwareVendor.Apple ∨
        (hdaService.getProperty "use-layout-id").isSome = true then
      match getOSDataValue hdaService "layout-id" with
      | some alcId => hdaService.setProperty "alc-layout-id" (u32Bytes alcId)
      | none => hdaService
    else hdaService

/-- The idiom `if (!e->getProperty(key)) e->setProperty(key, bytes, sizeof(bytes))`. -/
def ensureProperty (e : IORegistryEntry) (key : String) (bytes : List Nat) :
    IORegistryEntry :=
  if (e.getProperty key).isSome = true then e else e.setProperty key bytes

/-- The block of `updateDeviceProperties` that sets `layout-id` itself, with the two
override members it assigns. -/
def setReportedLayoutId (firmwareVendor : FirmwareVendor) (reportedLayoutId : Nat)
    (ov : LayoutOverride) (hdaService : IORegistryEntry) : IORegistryEntry × LayoutOverride :=
  if firmwareVendor ≠ FirmwareVendor.Apple ∨
      (hdaService.getProperty "use-apple-layout-id").isSome = true then
    (hdaService.setProperty "layout-id" (u32Bytes reportedLayoutId),
      { layoutIdIsOverridden := true, layoutIdOverride := reportedLayoutId })
  else (hdaService, ov)

/-- The block `if (hdaGfx) hdaService->setProperty("hda-gfx", hdaGfx, strlen(hdaGfx)+1)`. -/
def passHdaGfx (hdaService : IORegistryEntry) (hdaGfx : Option String) : IORegistryEntry :=
  match hdaGfx with
  | some g => hdaService.setProperty "hda-gfx" (cString g)
  | none => hdaService

/-- The block `if (isAnalog) { ... }` of `updateDeviceProperties`: `alc-layout-id`, then
`MaximumBootBeepVolume`, `MaximumBootBeepVolumeAlt` and `PinConfigurations` when absent. -/
def analogProperties (host : Host) (firmwareVendor : FirmwareVendor)
    (hdaService : IORegistryEntry) : IORegistryEntry :=
  ensureProperty
    (ensureProperty
      (ensureProperty (refreshAlcLayoutId host firmwareVendor hdaService)
        "MaximumBootBeepVolume" [0x7F])
      "MaximumBootBeepVolumeAlt" [0x7F])
    "PinConfigurations" [0x00]

/-- Models `AlcEnabler::updateDeviceProperties(hdaService, info, hdaGfx, isAnalog)`; of `info`
the function reads `firmwareVendor` and `reportedLayoutId`.  Returns the node and the
two override members.  The blocks run in the order of the source. -/
def updateDeviceProperties (host : Host) (firmwareVendor : FirmwareVendor)
    (reportedLayoutId : Nat) (ov : LayoutOverride) (hdaService : IORegistryEntry)
    (hdaGfx : Option String) (isAnalog : Bool) : IORegistryEntry × LayoutOverride :=
  let n1 := fixPlaneName host hdaService isAnalog
  let n2 := if isAnalog = true then analogProperties host firmwareVendor n1 else n1
  let n3 := setReportedLayoutId firmwareVendor reportedLayoutId ov n2
  let n4 := passHdaGfx n3.1 hdaGfx
  (ensureProperty n4 "built-in" [0x00], n3.2)

/-- Running `updateDeviceProperties` again on the node it returned, same arguments. -/
def updateDevicePropertiesTwice (host : Host) (firmwareVendor : FirmwareVendor)
    (reportedLayoutId : Nat) (ov : LayoutOverride) (hdaService : IORegistryEntry)
    (hdaGfx : Option String) (isAnalog : Bool) : IORegistryEntry × LayoutOverride :=
  let once := updateDeviceProperties host firmwareVendor reportedLayoutId ov hdaService
    hdaGfx isAnalog
  updateDeviceProperties host firmwareVendor reportedLayoutId once.2 once.1 hdaGfx isAnalog

/-- A host without boot arguments. -/
def plainHost : Host :=
  { bootArg := fun _ => none, kernelVersion := 20, debugEnabled := false,
    compat := fun old _ => old }

/-- An analog audio node `HDEF` without any property. -/
def bareHdef : IORegistryEntry :=
  { id := 1, name := some "HDEF", props := fun _ => none }

/-- When the legacy fallback of `refreshAlcLayoutId` cannot change its own outcome on a
second run: the node is not analog, or `alcid` is given, or (Apple firmware) the node has
a readable `alc-layout-id`, no `use-layout-id`, a readable `layout-id` or no
`use-apple-layout-id`, or (other firmware) the node's `layout-id` already is the reported
layout id, or is unreadable while `alc-layout-id` already is the reported layout id. -/
def LegacyFallbackSettled (host : Host) (firmwareVendor : FirmwareVendor)
    (reportedLayoutId : Nat) (hdaService : IORegistryEntry) (isAnalog : Bool) : Prop :=
  isAnalog = false ∨ (host.bootArg "alcid").isSome = true ∨
  (firmwareVendor = FirmwareVendor.Apple ∧
    ((getOSDataValue hdaService "alc-layout-id").isSome = true ∨
      hdaService.getProperty "use-layout-id" = none ∨
      (getOSDataValue hdaService "layout-id").isSome = true ∨
      hdaService.getProperty "use-apple-layout-id" = none)) ∨
  (firmwareVendor ≠ FirmwareVendor.Apple ∧
    ((∃ v, getOSDataValue hdaService "layout-id" = some v ∧
        u32Bytes v = u32Bytes reportedLayoutId) ∨
      (getOSDataValue hdaService "layout-id" = none ∧
        hdaService.getProperty "alc-layout-id" =
          some (OSObject.data (u32Bytes reportedLayoutId)))))

/-! ## The `AlcEnabler` state, device discovery and `updateProperties` -/

/-- Lilu's `WIOKit::VendorID::Intel`. -/
def VendorIDIntel : Nat := 0x8086

/-- Lilu's `WIOKit::VendorID::NVIDIA`. -/
def VendorIDNVIDIA : Nat := 0x10de

/-- Lilu's `KernelVersion::Tiger` (Darwin major version). -/
def KernelVersionTiger : Nat := 8

/-- Lilu's `KernelVersion::SnowLeopard`. -/
def KernelVersionSnowLeopard : Nat := 10

/-- Lilu's `KernelVersion::Mavericks`. -/
def KernelVersionMavericks : Nat := 13

/-- Lilu's `KernelPatcher::compatibleKernel(min, max)` for the running kernel version
`kernelVersion`; `KernelAny` is 0. -/
def compatibleKernel (kernelVersion min max : Nat) : Bool :=
  (min = 0 ∨ min ≤ kernelVersion) ∧ (max = 0 ∨ max ≥ kernelVersion)

/-- Lilu's `DeviceInfo::ExternalVideo`: the video function, its audio function (may be
null) and the vendor id. -/
structure ExternalVideo where
  video : IORegistryEntry
  audio : Option IORegistryEntry
  vendor : Nat

/-- Lilu's `DeviceInfo` snapshot, the members read by `kern_alc.cpp`.  The nodes are held
by value: distinct members stand for distinct registry entries. -/
structure DeviceInfo where
  audioBuiltinAnalog : Option IORegistryEntry
  audioBuiltinDigital : Option IORegistryEntry
  videoBuiltin : Option IORegistryEntry
  videoExternal : List ExternalVideo
  firmwareVendor : FirmwareVendor
  reportedLayoutId : Nat
  reportedFramebufferId : Nat
  reportedFramebufferIsConnectorLess : Bool

/-- One substitution of a sentinel pattern, as logged by `processKext` ("assigned ... at
i curr ..."): the controller, the patch of its entry and the pool index. -/
structure NvidiaAssignment where
  controller : Nat
  patch : Nat
  poolIndex : Nat
  deriving DecidableEq, Repr

/-- The mutable state of `AlcEnabler` together with the mutable globals it writes:
`controllerMod` is `ADDPR(controllerMod)` (the `find` pointers of its patches are
rewritten in place), `switchedOff` lists the `ADDPR(kextList)` entries on which
`switchOff()` was called, `nvidiaAssigned` is the log of substitutions. -/
structure AlcEnabler where
  progressState : Nat
  controllers : List ControllerInfo
  codecs : List CodecInfo
  computerModel : Nat
  controllerMod : List ControllerModInfo
  nvidiaDeviceIdUsage : List Bool
  currentFreeNvidiaDeviceId : Nat
  currentController : Nat
  isAppleHDAZlib : Bool
  layout : LayoutOverride
  switchedOff : List Nat
  nvidiaAssigned : List NvidiaAssignment
  deriving Repr

/-- The constant `MaxNvidiaDeviceIds`, the declared size of `nvidiaDeviceIdList` and of
`nvidiaDeviceIdUsage`. -/
def Params.MaxNvidiaDeviceIds (P : Params) : Nat := P.nvidiaDeviceIdList.length

/-- Modelled from the spec: `insertController` and `ControllerInfo::create` are declared
in `kern_alc.hpp`, which is not part of the sources.  The spec: "construct a
ControllerInstance; append to the registry", with a null `matchedInfo`.  The parameters
are `(ven, dev, rev, nopatch, platform, lid, detect)`, the order of the three calls in
`updateProperties` (the `no-controller-patch` flag fourth, the framebuffer id fifth). -/
def insertController (s : AlcEnabler) (ven dev rev : Nat) (nopatch : Bool)
    (platform lid : Nat) (detect : Option Nat) : AlcEnabler :=
  { s with controllers := s.controllers ++
      [{ vendor := ven, device := dev, revision := rev, platform := platform, layout := lid,
         detect := detect, nopatch := nopatch, info := none }] }

/-- Models `AlcEnabler::validateInjection`: false when `no-controller-inject` is set. -/
def validateInjection (hdaService : IORegistryEntry) : Bool :=
  (hdaService.getProperty "no-controller-inject").isNone

/-- Effects of `updateProperties` on the host that no function of this file reads back. -/
inductive HostEffect where
  | terminateBuiltinDigital
  | updateTcsel
  deriving DecidableEq, Repr

/-- The value of `hasBuiltinDigitalAudio` in `updateProperties`. -/
def hasBuiltinDigitalAudio (d : DeviceInfo) : Bool :=
  let has := !d.reportedFramebufferIsConnectorLess && d.videoBuiltin.isSome
  match d.audioBuiltinAnalog with
  | some analog => if has = true ∧ (analog.getProperty "No-hda-gfx").isSome = true then false else has
  | none => has

/-- "Firstly": the built-in digital audio function (HDAU) of `updateProperties`. -/
def updateBuiltinDigital (host : Host) (has : Bool) (s : AlcEnabler) (d : DeviceInfo) :
    AlcEnabler × DeviceInfo × List HostEffect :=
  match d.audioBuiltinDigital with
  | none => (s, d, [])
  | some digital =>
    if validateInjection digital = true then
      if has = true then
        let r := updateDeviceProperties host d.firmwareVendor d.reportedLayoutId s.layout digital
          (some "onboard-1") false
        let s1 := { s with layout := r.2 }
        let s2 :=
          match getOSDataValue r.1 "device-id", getOSDataValue r.1 "revision-id" with
          | some dev, some rev =>
            insertController s1 VendorIDIntel dev rev
              (r.1.getProperty "no-controller-patch").isSome d.reportedFramebufferId 0 none
          | _, _ => s1
        (s2, { d with audioBuiltinDigital := some r.1 }, [])
      else (s, d, [HostEffect.terminateBuiltinDigital])
    else (s, d, [])

/-- "Secondly": the analog audio function (HDEF) of `updateProperties`. -/
def updateBuiltinAnalog (host : Host) (has : Bool) (s : AlcEnabler) (d : DeviceInfo) :
    AlcEnabler × DeviceInfo × List HostEffect :=
  match d.audioBuiltinAnalog with
  | none => (s, d, [])
  | some analog =>
    if validateInjection analog = true then
      let updateTcsel :=
        match host.bootArg "alctcsel" with
        | some v => v
        | none => (getOSDataValue analog "alctcsel").getD 0
      let effects :=
        if getOSDataValue analog "vendor-id" = some VendorIDIntel ∧ updateTcsel ≠ 0 then
          [HostEffect.updateTcsel]
        else []
      let hdaGfx := if has = true ∧ d.audioBuiltinDigital.isNone = true then some "onboard-1"
        else none
      let r := updateDeviceProperties host d.firmwareVendor d.reportedLayoutId s.layout analog
        hdaGfx true
      ({ s with layout := r.2 }, { d with audioBuiltinAnalog := some r.1 }, effects)
    else (s, d, [])

/-- "Thirdly": the built-in graphics function (IGPU) of `updateProperties`. -/
def updateBuiltinVideo (has : Bool) (s : AlcEnabler) (d : DeviceInfo) :
    AlcEnabler × DeviceInfo :=
  match d.videoBuiltin with
  | none => (s, d)
  | some igpu =>
    if has = true ∧ validateInjection igpu = true then
      let igpu' := igpu.setProperty "hda-gfx" (cString "onboard-1")
      let s1 :=
        if d.audioBuiltinDigital.isNone = true then
          match getOSDataValue igpu' "device-id", getOSDataValue igpu' "revision-id" with
          | some dev, some rev =>
            insertController s VendorIDIntel dev rev
              (igpu'.getProperty "no-controller-patch").isSome d.reportedFramebufferId 0 none
          | _, _ => s
        else s
      (s1, { d with videoBuiltin := some igpu' })
    else (s, d)

/-- The loop `for (i = 0; i < MaxNvidiaDeviceIds; i++) if (nvidiaDeviceIdList[i] == device)
nvidiaDeviceIdUsage[i] = true`, run on the not yet visited list entries. -/
def markNvidiaDeviceId (device : Nat) : List Nat → Nat → List Bool → List Bool
  | [], _, usage => usage
  | id :: ids, i, usage =>
    markNvidiaDeviceId device ids (i + 1) (if id = device then usage.set i true else usage)

/-- The property name built by `connector_type[1] = '0' + i` in `"@0,connector-type"`. -/
def connectorTypeKey (i : Nat) : String :=
  "@" ++ String.singleton (Char.ofNat ((48 + i) % 256)) ++ ",connector-type"

/-- The loop over `i < MaxConnectorCount` that refreshes the connector types of an NVIDIA
GPU, run for the `remaining` indices from `i` on; it stops at the first existing one. -/
def fixConnectorTypes (gpuService : IORegistryEntry) : Nat → Nat → IORegistryEntry
  | 0, _ => gpuService
  | remaining + 1, i =>
    if (gpuService.getProperty (connectorTypeKey i)).isNone = true then
      fixConnectorTypes (gpuService.setProperty (connectorTypeKey i) [0x00, 0x08, 0x00, 0x00])
        remaining (i + 1)
    else gpuService

/-- The text written by `snprintf(hdaGfx, sizeof(hdaGfx), "onboard-%u", counter)` into
the 16-byte buffer. -/
def onboardName (counter : Nat) : String :=
  ("onboard-" ++ toString (counter % 4294967296)).take 15

/-- The four locals `enableHdaVerbs`, `checkVerbs`, `enableAlcDelay`, `checkDelay`. -/
structure VerbCheck where
  enableHdaVerbs : Nat
  checkVerbs : Bool
  enableAlcDelay : Nat
  checkDelay : Bool
  deriving DecidableEq, Repr

/-- The two `if`s that look for `alc-verbs` and `alc-delay` on one audio node. -/
def probeVerbs (node : IORegistryEntry) (v : VerbCheck) : VerbCheck :=
  let v1 :=
    if v.checkVerbs = true ∧ (node.getProperty "alc-verbs").isSome = true then
      { v with enableHdaVerbs := 1, checkVerbs := false }
    else v
  if v1.checkDelay = true ∧ (node.getProperty "alc-delay").isSome = true then
    { v1 with enableAlcDelay := 1, checkDelay := false }
  else v1

/-- The block "Check that we allow sending verbs" (it is inside the loop over the
external GPUs): the resulting `enableHdaVerbs` and `enableAlcDelay`. -/
def checkVerbsAndDelay (host : Host) (analog : Option IORegistryEntry)
    (gpus : List ExternalVideo) : VerbCheck :=
  let v0 : VerbCheck :=
    { enableHdaVerbs := (host.bootArg "alcverbs").getD 0,
      checkVerbs := (host.bootArg "alcverbs").isNone,
      enableAlcDelay := (host.bootArg "alcdelay").getD 0,
      checkDelay := (host.bootArg "alcdelay").isNone }
  if v0.checkVerbs = true ∨ v0.checkDelay = true then
    let v1 :=
      match analog with
      | some a => probeVerbs a v0
      | none => v0
    gpus.foldl (fun v gpu =>
      match gpu.audio with
      | none => v
      | some hdaService => probeVerbs hdaService v) v1
  else v0

/-- The locals of the loop over the external GPUs in `updateProperties`. -/
structure GpuLoop where
  alc : AlcEnabler
  hdaGfxCounter : Nat

/-- One iteration of the loop "Fourthly, update all the GPU devices if any" for the GPU
`ev`; `before` and `after` are the other entries of `videoExternal` in their current
state.  Returns the locals and the updated entry. -/
def updateExternalGpu (P : Params) (host : Host) (d : DeviceInfo)
    (before after : List ExternalVideo) (ev : ExternalVideo) (st : GpuLoop) :
    GpuLoop × ExternalVideo :=
  match ev.audio with
  | none => (st, ev)
  | some hdaService =>
    if validateInjection hdaService = true then
      let ven := ev.vendor
      -- Register the controller, disable the id in the list if any
      let alc1 :=
        match getOSDataValue hdaService "device-id", getOSDataValue hdaService "revision-id" with
        | some dev, some rev =>
          let a := insertController st.alc ven dev rev
            (hdaService.getProperty "no-controller-patch").isSome P.PlatformAny 0 none
          if ven = VendorIDNVIDIA then
            let device := ((dev <<< 16) % 4294967296) ||| VendorIDNVIDIA
            { a with nvidiaDeviceIdUsage :=
                markNvidiaDeviceId device P.nvidiaDeviceIdList 0 a.nvidiaDeviceIdUsage }
          else a
        | _, _ => st.alc
      -- Refresh the main properties including hda-gfx.
      let hdaGfx := onboardName st.hdaGfxCounter
      let counter := (st.hdaGfxCounter + 1) % 4294967296
      let r := updateDeviceProperties host d.firmwareVendor d.reportedLayoutId alc1.layout
        hdaService (some hdaGfx) false
      let alc2 := { alc1 with layout := r.2 }
      let gpu1 := ev.video.setProperty "hda-gfx" (cString hdaGfx)
      -- Refresh connector types on NVIDIA
      let gpu2 :=
        if ven = VendorIDNVIDIA ∧ (gpu1.getProperty "no-audio-fixconn").isNone = true then
          fixConnectorTypes gpu1 P.MaxConnectorCount 0
        else gpu1
      let ev' : ExternalVideo := { video := gpu2, audio := some r.1, vendor := ev.vendor }
      -- Check that we allow sending verbs.
      let v := checkVerbsAndDelay host d.audioBuiltinAnalog (before ++ ev' :: after)
      let alc3 :=
        if v.enableHdaVerbs = 0 then
          { alc2 with switchedOff := alc2.switchedOff ++ [P.KextIdIOHDAFamily] }
        else alc2
      let alc4 :=
        if v.enableAlcDelay ≠ 0 then alc3
        else { alc3 with progressState := alc3.progressState ||| P.PatchHDAController }
      ({ alc := alc4, hdaGfxCounter := counter }, ev')
    else (st, ev)

/-- The loop over `devInfo->videoExternal`: `done` are the entries already visited (in
their updated state), the list argument the entries still to visit. -/
def updateExternalGpus (P : Params) (host : Host) (d : DeviceInfo) :
    List ExternalVideo → List ExternalVideo → GpuLoop → GpuLoop × List ExternalVideo
  | done, [], st => (st, done)
  | done, ev :: rest, st =>
    let r := updateExternalGpu P host d done rest ev st
    updateExternalGpus P host d (done ++ [r.2]) rest r.1

/-- Models `AlcEnabler::updateProperties`, for the snapshot `devInfo` returned by
`DeviceInfo::create()` (null: nothing happens).  Returns the state, the snapshot with its
nodes as updated, and the host effects. -/
def updateProperties (P : Params) (host : Host) (devInfo : Option DeviceInfo)
    (s : AlcEnabler) : AlcEnabler × Option DeviceInfo × List HostEffect :=
  match devInfo with
  | none => (s, none, [])
  | some d0 =>
    let has := hasBuiltinDigitalAudio d0
    let r1 := updateBuiltinDigital host has s d0
    let r2 := updateBuiltinAnalog host has r1.1 r1.2.1
    let r3 := updateBuiltinVideo has r2.1 r2.2.1
    let hdaGfxCounter := if has = true then 2 else 1
    let r4 := updateExternalGpus P host r3.2 [] r3.2.videoExternal
      { alc := r3.1, hdaGfxCounter := hdaGfxCounter }
    (r4.1.alc, some { r3.2 with videoExternal := r4.2 }, r1.2.2 ++ r2.2.2)

/-! ## The patcher, module-load events and `processKext` -/

/-- Lilu's `KernelPatcher` as seen from this file: whether an error is pending
(`getError() != Error::NoError`), and the logs of the symbols passed to `routeMultiple`
and of the patches passed to `applyLookupPatch`. -/
structure KernelPatcher where
  error : Bool
  routed : List String
  applied : List LookupPatch
  deriving DecidableEq, Repr

/-- A module-load event `(index, address, size)` together with what the host answers
while it is processed: `BaseDeviceInfo::get().modelType`, `DeviceInfo::create()`, the
entries `IORegistryIterator` yields below the anchor of controller `c` at attempt `brute`
(`none`: no iterator), the address `solveSymbol` finds (0: none), and whether a route
or a lookup patch fails. -/
structure KextEvent where
  index : Nat
  address : Nat
  size : Nat
  modelType : Nat
  devInfo : Option DeviceInfo
  iterate : Nat → Nat → Option (List IORegistryEntry)
  solveSymbol : String → Nat
  routeFails : String → Bool
  patchFails : LookupPatch → Bool

/-- Models `patcher.routeMultiple(index, requests, ...)` for the requests with these symbols. -/
def KernelPatcher.routeMultiple (p : KernelPatcher) (ev : KextEvent) (symbols : List String) :
    KernelPatcher :=
  { p with routed := p.routed ++ symbols, error := p.error || symbols.any ev.routeFails }

/-- Models `patcher.applyLookupPatch(&patch)`. -/
def KernelPatcher.applyLookupPatch (p : KernelPatcher) (ev : KextEvent) (patch : LookupPatch) :
    KernelPatcher :=
  { p with applied := p.applied ++ [patch], error := p.error || ev.patchFails patch }

/-- Models `patcher.clearError()`. -/
def KernelPatcher.clearError (p : KernelPatcher) : KernelPatcher :=
  { p with error := false }

/-- Models `patcher.solveSymbol(index, symbol)`: the address, and the patcher with an error
pending when the symbol is not found. -/
def KernelPatcher.solveSymbol (p : KernelPatcher) (ev : KextEvent) (symbol : String) :
    Nat × KernelPatcher :=
  (ev.solveSymbol symbol, { p with error := p.error || decide (ev.solveSymbol symbol = 0) })

/-- Models `AlcEnabler::applyPatches(patcher, index, patches, patchNum)`, run on the not yet
visited patches. -/
def applyPatches (host : Host) (ev : KextEvent) (index : Nat) :
    List KextPatch → KernelPatcher → KernelPatcher
  | [], p => p
  | patch :: rest, p =>
    if patch.patch.kext.loadIndex = index then
      if compatibleKernel host.kernelVersion patch.minKernel patch.maxKernel = true then
        -- Do not really care for the errors for now
        applyPatches host ev index rest ((p.applyLookupPatch ev patch.patch).clearError)
      else applyPatches host ev index rest p
    else applyPatches host ev index rest p

/-- The pattern `logAssertFind` of `eraseRedundantLogs`. -/
def logAssertFind : List Nat := [0x53, 0x6F, 0x75, 0x6E, 0x64, 0x20, 0x61, 0x73]

/-- The pattern `nullReplace` of `eraseRedundantLogs`. -/
def nullReplace : List Nat := [0x00, 0x00, 0x00, 0x00, 0x00, 0x00, 0x00, 0x00]

/-- Models `AlcEnabler::eraseRedundantLogs(patcher, index)`. -/
def eraseRedundantLogs (P : Params) (ev : KextEvent) (index : Nat) (p : KernelPatcher) :
    KernelPatcher :=
  if index = P.KextIdAppleHDAController ∨ index = P.KextIdAppleHDA then
    match P.kextList[index]? with
    | none => p
    | some kext =>
      ((p.applyLookupPatch ev
        { kext := kext, find := logAssertFind, replace := nullReplace, size := 8,
          count := if index = P.KextIdAppleHDAController then 3 else 2 }).clearError)
  else p

/-- The loop `while (kextIndex < kextListSize) { if (kextList[kextIndex].loadIndex ==
index) break; kextIndex++; }`, run on the not yet visited entries. -/
def findKextIndex (index : Nat) : List KextInfo → Nat → Nat
  | [], kextIndex => kextIndex
  | k :: ks, kextIndex =>
    if k.loadIndex = index then kextIndex else findKextIndex index ks (kextIndex + 1)

/-- Models `AlcEnabler::grabControllers`.  Its call of `insertController` passes
`PlatformAny` fourth and the `no-controller-patch` flag fifth, the other way round than
the calls in `updateProperties`: the instance gets `nopatch = (PlatformAny != 0)` and the
platform 0 or 1. -/
def grabControllers (P : Params) (ev : KextEvent) (s : AlcEnabler) : AlcEnabler :=
  let s0 := { s with computerModel := ev.modelType }
  let s1 :=
    match ev.devInfo with
    | none => s0
    | some devInfo =>
      match devInfo.audioBuiltinAnalog with
      | none => s0
      | some sect =>
        match getOSDataValue sect "vendor-id", getOSDataValue sect "device-id",
          getOSDataValue sect "revision-id", getOSDataValue sect "alc-layout-id" with
        | some ven, some dev, some rev, some lid =>
          -- `insertController(ven, dev, rev, ControllerModInfo::PlatformAny,
          -- nullptr != sect->getProperty("no-controller-patch"), lid, sect)`: the constant
          -- stands in the place of `nopatch` and the flag in the place of `platform`
          insertController s0 ven dev rev (decide (P.PlatformAny ≠ 0))
            (if (sect.getProperty "no-controller-patch").isSome = true then 1 else 0)
            lid (some sect.id)
        | _, _, _, _ => s0
  if s1.controllers.length > 0 then
    { s1 with controllers :=
        validateControllers P s1.controllerMod s1.computerModel s1.controllers }
  else s1

/-- Modelled from the spec: `CodecInfo::create(controller, vendorId, revisionId)` is
declared in `kern_alc.hpp`, which is not part of the sources.  The spec: a CodecInstance
is `{ownerControllerIndex, vendor, codecId, revision, matchedInfo}`, created with a null
`matchedInfo`; how the two 32-bit numbers split into vendor, codec id and revision is
the parameter `codecIdentity`. -/
def CodecInfo.create (P : Params) (controller vendorId revisionId : Nat) : CodecInfo :=
  { controller := controller, vendor := (P.codecIdentity vendorId revisionId).1,
    codec := (P.codecIdentity vendorId revisionId).2.1,
    revision := (P.codecIdentity vendorId revisionId).2.2, info := none }

/-- Models `AlcEnabler::appendCodec(user, e)` with `alc->currentController = currentController`:
the returned flag and the codec registry. -/
def appendCodec (P : Params) (currentController : Nat) (codecs : List CodecInfo)
    (e : IORegistryEntry) : Bool × List CodecInfo :=
  match e.getProperty "IOHDACodecVendorID", e.getProperty "IOHDACodecRevisionID" with
  | some ven, some rev =>
    match ven, rev with
    | OSObject.number venNum, OSObject.number revNum =>
      (true, codecs ++ [CodecInfo.create P currentController (venNum % 4294967296)
        (revNum % 4294967296)])
    | _, _ => (true, codecs)
  | _, _ => (false, codecs)

/-- One enumeration attempt of `grabCodecs`: the iterator is walked up to the first entry
with `IOHDACodecVendorID`, which is handed to `appendCodec`; the flag is `found`. -/
def enumerateCodecs (P : Params) (ev : KextEvent) (currentController brute : Nat)
    (codecs : List CodecInfo) : Bool × List CodecInfo :=
  match ev.iterate currentController brute with
  | none => (false, codecs)
  | some entries =>
    match entries.find? (fun e => (e.getProperty "IOHDACodecVendorID").isSome) with
    | some codec => appendCodec P currentController codecs codec
    | none => (false, codecs)

/-- The loop `for (brute = 0; !found && brute < WIOKit::bruteMax; brute++)` of
`grabCodecs`, for the `remaining` attempts from `brute` on. -/
def bruteCodecs (P : Params) (ev : KextEvent) (currentController : Nat) :
    Nat → Nat → List CodecInfo → List CodecInfo
  | 0, _, codecs => codecs
  | remaining + 1, brute, codecs =>
    let r := enumerateCodecs P ev currentController brute codecs
    if r.1 = true then r.2
    else bruteCodecs P ev currentController remaining (brute + 1) r.2

/-- The loop over the controllers in `grabCodecs`, run on the not yet visited ones. -/
def grabCodecsLoop (P : Params) (ev : KextEvent) :
    List ControllerInfo → Nat → List CodecInfo → List CodecInfo
  | [], _, codecs => codecs
  | ctlr :: rest, currentController, codecs =>
    match ctlr.detect with
    | none => grabCodecsLoop P ev rest (currentController + 1) codecs
    | some _ =>
      grabCodecsLoop P ev rest (currentController + 1)
        (bruteCodecs P ev currentController P.bruteMax 0 codecs)

/-- Models `AlcEnabler::grabCodecs`: the state and the returned flag. -/
def grabCodecs (P : Params) (vendorMod : List VendorModInfo) (ev : KextEvent)
    (s : AlcEnabler) : AlcEnabler × Bool :=
  let found := grabCodecsLoop P ev s.controllers 0 s.codecs
  let r := validateCodecs vendorMod found
  ({ s with codecs := r.1, currentController := s.controllers.length }, r.2)

/-- The pool of NVIDIA device ids: `nvidiaDeviceIdUsage`, `currentFreeNvidiaDeviceId`
and the log of substitutions. -/
structure NvidiaPool where
  usage : List Bool
  current : Nat
  assigned : List NvidiaAssignment
  deriving DecidableEq, Repr

/-- The loop `while (currentFreeNvidiaDeviceId < MaxNvidiaDeviceIds)`: returns the cursor
after the loop and the index it has chosen, if any.  `fuel` bounds the iterations;
`max - current` is enough. -/
def nextFreeNvidiaId (usage : List Bool) (max : Nat) : Nat → Nat → Nat × Option Nat
  | 0, current => (current, none)
  | fuel + 1, current =>
    if current < max then
      if usage.getD current false = false then (current + 1, some current)
      else nextFreeNvidiaId usage max fuel (current + 1)
    else (current, none)

/-- The test `p.size == sizeof(uint32_t) && *(const uint32_t *)p.find == NvidiaSpecialFind`
(a `find` of `size` 4 holds four bytes). -/
def isNvidiaSentinel (P : Params) (p : LookupPatch) : Bool :=
  decide (p.size = 4 ∧ readU32 p.find = some P.NvidiaSpecialFind)

/-- The loop `for (j = 0; j < info->patchNum; j++)` that chooses a free device id for
every sentinel patch of the entry matched by controller `i`, run on the not yet visited
patches.  Returns the patches (a `find` is rewritten in place) and the pool. -/
def chooseNvidiaIds (P : Params) (i : Nat) :
    List KextPatch → Nat → NvidiaPool → List KextPatch × NvidiaPool
  | [], _, pool => ([], pool)
  | kp :: rest, j, pool =>
    if isNvidiaSentinel P kp.patch = true then
      match nextFreeNvidiaId pool.usage P.MaxNvidiaDeviceIds
          (P.MaxNvidiaDeviceIds - pool.current) pool.current with
      | (current, some idx) =>
        let kp' : KextPatch :=
          { kp with patch := { kp.patch with find := u32Bytes (P.nvidiaDeviceIdList.getD idx 0) } }
        let r := chooseNvidiaIds P i rest (j + 1)
          { usage := pool.usage.set idx true, current := current,
            assigned := pool.assigned ++ [{ controller := i, patch := j, poolIndex := idx }] }
        (kp' :: r.1, r.2)
      | (current, none) =>
        let r := chooseNvidiaIds P i rest (j + 1) { pool with current := current }
        (kp :: r.1, r.2)
    else
      let r := chooseNvidiaIds P i rest (j + 1) pool
      (kp :: r.1, r.2)

/-- What the loop over the controllers in `processKext` changes: the controller fact
table, the pool and the patcher. -/
structure ControllerPatching where
  controllerMod : List ControllerModInfo
  pool : NvidiaPool
  patcher : KernelPatcher

/-- The loop `for (i = 0, num = controllers.size(); i < num; i++)` of `processKext`
("Continue to patch controllers"), run on the not yet visited controllers.  An `info`
that points outside the table cannot arise (`validateControllers` stores indices of the
table) and is passed over like a null one. -/
def patchControllers (P : Params) (host : Host) (ev : KextEvent) :
    List ControllerInfo → Nat → ControllerPatching → ControllerPatching
  | [], _, st => st
  | c :: rest, i, st =>
    match c.info with
    | none => patchControllers P host ev rest (i + 1) st
    | some mod =>
      match st.controllerMod[mod]? with
      | none => patchControllers P host ev rest (i + 1) st
      | some info =>
        -- Choose a free device-id for NVIDIA HDAU to support multigpu setups
        let r :=
          if info.vendor = VendorIDNVIDIA then chooseNvidiaIds P i info.patches 0 st.pool
          else (info.patches, st.pool)
        let controllerMod := st.controllerMod.set mod { info with patches := r.1 }
        if c.nopatch = true then
          patchControllers P host ev rest (i + 1)
            { controllerMod := controllerMod, pool := r.2, patcher := st.patcher }
        else
          patchControllers P host ev rest (i + 1)
            { controllerMod := controllerMod, pool := r.2,
              patcher := applyPatches host ev ev.index r.1 st.patcher }

/-- The loop over the codecs in `processKext`, run on the not yet visited codecs: the
`progressState` and the patcher.  An `info` that points outside the table cannot arise
(`validateCodecs` stores indices of the table) and is passed over like a null one. -/
def patchCodecs (P : Params) (vendorMod : List VendorModInfo) (host : Host) (ev : KextEvent) :
    List CodecInfo → Nat × KernelPatcher → Nat × KernelPatcher
  | [], st => st
  | c :: rest, st =>
    match c.info with
    | none => patchCodecs P vendorMod host ev rest st
    | some ref =>
      match codecModInfoAt vendorMod ref with
      | none => patchCodecs P vendorMod host ev rest st
      | some info =>
        let progressState :=
          if info.platformNum > 0 ∨ info.layoutNum > 0 then st.1 ||| P.CallbacksWantRouting
          else st.1
        patchCodecs P vendorMod host ev rest
          (progressState, applyPatches host ev ev.index info.patches st.2)

/-- The block of `processKext` that discovers controllers, or else codecs. -/
def discover (P : Params) (vendorMod : List VendorModInfo) (ev : KextEvent) (kextIndex : Nat)
    (s : AlcEnabler) : AlcEnabler :=
  if s.progressState &&& P.ControllersLoaded = 0 then
    let s1 := grabControllers P ev s
    { s1 with progressState := s1.progressState ||| P.ControllersLoaded }
  else if s.progressState &&& P.CodecsLoaded = 0 ∧
      (P.kextList[kextIndex]?.map (fun k => k.user0)).getD 0 ≠ 0 then
    let r := grabCodecs P vendorMod ev s
    if r.2 = true then { r.1 with progressState := r.1.progressState ||| P.CodecsLoaded }
    else r.1
  else s

/-- The block `if (progressState & ProcessingState::ControllersLoaded) { ... }`. -/
def controllersBlock (P : Params) (host : Host) (ev : KextEvent) (kextIndex : Nat)
    (st : AlcEnabler × KernelPatcher) : AlcEnabler × KernelPatcher :=
  if st.1.progressState &&& P.ControllersLoaded ≠ 0 then
    let r := patchControllers P host ev st.1.controllers 0
      { controllerMod := st.1.controllerMod,
        pool := { usage := st.1.nvidiaDeviceIdUsage, current := st.1.currentFreeNvidiaDeviceId,
                  assigned := st.1.nvidiaAssigned },
        patcher := st.2 }
    ({ st.1 with controllerMod := r.controllerMod, nvidiaDeviceIdUsage := r.pool.usage,
                 currentFreeNvidiaDeviceId := r.pool.current,
                 nvidiaAssigned := r.pool.assigned },
     -- Only do this if -alcdbg is not passed
     if host.debugEnabled = true then r.patcher else eraseRedundantLogs P ev kextIndex r.patcher)
  else st

/-- The block `if (progressState & ProcessingState::CodecsLoaded) { ... }`. -/
def codecsBlock (P : Params) (vendorMod : List VendorModInfo) (host : Host) (ev : KextEvent)
    (st : AlcEnabler × KernelPatcher) : AlcEnabler × KernelPatcher :=
  if st.1.progressState &&& P.CodecsLoaded ≠ 0 then
    let r := patchCodecs P vendorMod host ev st.1.codecs (st.1.progressState, st.2)
    ({ st.1 with progressState := r.1 }, r.2)
  else st

/-- The block `if ((progressState & CallbacksWantRouting) && kextIndex == KextIdAppleHDA)`. -/
def routeAppleHDA (P : Params) (host : Host) (ev : KextEvent) (kextIndex : Nat)
    (st : AlcEnabler × KernelPatcher) : AlcEnabler × KernelPatcher :=
  if st.1.progressState &&& P.CallbacksWantRouting ≠ 0 ∧ kextIndex = P.KextIdAppleHDA then
    -- AppleHDADriver::performPowerStateChange
    let p1 := st.2.routeMultiple ev [P.symPerformPowerChange]
    let p2 :=
      if host.kernelVersion ≥ KernelVersionSnowLeopard then
        p1.routeMultiple ev
          ["__ZN20AppleHDACodecGeneric38initializePinConfigDefaultFromOverrideEP9IOService"]
      else
        let r := p1.solveSymbol ev
          "__ZN20AppleHDACodecGeneric38initializePinConfigDefaultFromOverrideEP9IOService"
        if r.1 ≠ 0 then
          r.2.routeMultiple ev
            ["__ZN20AppleHDACodecGeneric38initializePinConfigDefaultFromOverrideEP9IOService"]
        else
          r.2.clearError.routeMultiple ev
            ["__ZN20AppleHDACodecGeneric38initializePinConfigDefaultFromOverrideEv"]
    -- layout and platform load callbacks only exist in 10.6.8 and later
    let r3 := p2.solveSymbol ev "__ZN14AppleHDADriver18layoutLoadCallbackEjiPKvjPv"
    let p3 :=
      if r3.1 ≠ 0 then
        r3.2.routeMultiple ev ["__ZN14AppleHDADriver18layoutLoadCallbackEjiPKvjPv",
          "__ZN14AppleHDADriver20platformLoadCallbackEjiPKvjPv"]
      else r3.2.clearError
    -- 10.6.8 to 10.7.5, and early versions of 10.8 do not use zlib compression
    let r4 :=
      if host.kernelVersion ≥ KernelVersionMavericks then (true, p3)
      else
        let r := p3.solveSymbol ev "__Z24AppleHDA_zlib_uncompressPhPmPKhm"
        (decide (r.1 ≠ 0), r.2)
    let p4 := if r4.1 = true then r4.2 else r4.2.clearError
    -- 10.4 contains the platforms and layouts in AppleHDA directly
    let p5 :=
      if host.kernelVersion = KernelVersionTiger then
        p4.routeMultiple ev ["__ZN14AppleHDADriver5startEP9IOService"]
      else p4
    -- patch AppleHDA to remove redundant logs
    let p6 := if host.debugEnabled = true then p5 else eraseRedundantLogs P ev kextIndex p5
    ({ st.1 with isAppleHDAZlib := r4.1 }, p6)
  else st

/-- The three one-time hooks at the end of `processKext`, each guarded by its bit. -/
def routeOnce (P : Params) (ev : KextEvent) (kextIndex : Nat)
    (st : AlcEnabler × KernelPatcher) : AlcEnabler × KernelPatcher :=
  let st1 : AlcEnabler × KernelPatcher :=
    if st.1.progressState &&& P.PatchHDAFamily = 0 ∧ kextIndex = P.KextIdIOHDAFamily then
      ({ st.1 with progressState := st.1.progressState ||| P.PatchHDAFamily },
        st.2.routeMultiple ev [P.symIOHDACodecDevice_executeVerb])
    else st
  let st2 : AlcEnabler × KernelPatcher :=
    if st1.1.progressState &&& P.PatchHDAController = 0 ∧
        kextIndex = P.KextIdAppleHDAController then
      ({ st1.1 with progressState := st1.1.progressState ||| P.PatchHDAController },
        st1.2.routeMultiple ev ["__ZN18AppleHDAController5startEP9IOService"])
    else st1
  if st2.1.progressState &&& P.PatchHDAPlatformDriver = 0 ∧
      kextIndex = P.KextIdAppleHDAPlatformDriver then
    ({ st2.1 with progressState := st2.1.progressState ||| P.PatchHDAPlatformDriver },
      st2.2.routeMultiple ev ["__ZN22AppleHDAPlatformDriver5startEP9IOService"])
  else st2

/-- Models `AlcEnabler::processKext(patcher, index, address, size)`. -/
def processKext (P : Params) (vendorMod : List VendorModInfo) (host : Host) (ev : KextEvent)
    (st : AlcEnabler × KernelPatcher) : AlcEnabler × KernelPatcher :=
  let kextIndex := findKextIndex ev.index P.kextList 0
  if kextIndex = P.kextList.length then st
  else if kextIndex = P.KextIdAppleGFXHDA then
    (st.1, st.2.routeMultiple ev ["__ZN21AppleGFXHDAController5probeEP9IOServicePi"])
  else
    let st1 := (discover P vendorMod ev kextIndex st.1, st.2)
    let st2 := controllersBlock P host ev kextIndex st1
    let st3 := codecsBlock P vendorMod host ev st2
    let st4 := routeAppleHDA P host ev kextIndex st3
    let st5 := routeOnce P ev kextIndex st4
    -- Ignore all the errors for other processors
    (st5.1, st5.2.clearError)

/-- A step of the life of `AlcEnabler`: the `updateProperties` call (with the snapshot
`DeviceInfo::create()` returns) or a module-load event. -/
inductive AlcStep where
  | update (devInfo : Option DeviceInfo)
  | kext (ev : KextEvent)

/-- The state after one step. -/
def alcStep (P : Params) (vendorMod : List VendorModInfo) (host : Host)
    (st : AlcEnabler × KernelPatcher) : AlcStep → AlcEnabler × KernelPatcher
  | AlcStep.update devInfo => ((updateProperties P host devInfo st.1).1, st.2)
  | AlcStep.kext ev => processKext P vendorMod host ev st

/-- The state after a sequence of steps. -/
def alcRun (P : Params) (vendorMod : List VendorModInfo) (host : Host)
    (steps : List AlcStep) (st : AlcEnabler × KernelPatcher) : AlcEnabler × KernelPatcher :=
  steps.foldl (alcStep P vendorMod host) st

/-- The state after a sequence of module-load events. -/
def processKexts (P : Params) (vendorMod : List VendorModInfo) (host : Host)
    (events : List KextEvent) (st : AlcEnabler × KernelPatcher) : AlcEnabler × KernelPatcher :=
  events.foldl (fun st ev => processKext P vendorMod host ev st) st

/-! ## Predicates used by the statements about the state machine -/

/-- Every bit that is set in `a` is set in `b`. -/
def BitsKept (a b : Nat) : Prop := ∀ i, a.testBit i = true → b.testBit i = true

/-! ## Example configuration -/

/-- Example values for the constants of the missing headers: an id pool of three
entries, one bit per `ProcessingState` flag, five tracked modules. -/
def demoParams : Params :=
  { PlatformAny := 0xFFFFFFFF
    NvidiaSpecialFind := 0xFFFF10DE
    nvidiaDeviceIdList := [0x0E0A10DE, 0x0E0B10DE, 0x0E0C10DE]
    MaxConnectorCount := 6
    bruteMax := 4
    ControllersLoaded := 1
    CodecsLoaded := 2
    CallbacksWantRouting := 4
    PatchHDAFamily := 8
    PatchHDAController := 16
    PatchHDAPlatformDriver := 32
    KextIdAppleHDAController := 0
    KextIdAppleHDA := 1
    KextIdAppleGFXHDA := 2
    KextIdIOHDAFamily := 3
    KextIdAppleHDAPlatformDriver := 4
    kextList := [⟨10, 0⟩, ⟨11, 1⟩, ⟨12, 0⟩, ⟨13, 0⟩, ⟨14, 0⟩]
    symPerformPowerChange := "__ZN14AppleHDADriver23performPowerStateChangeE24_IOAudioDevicePowerStateS0_Pj"
    symIOHDACodecDevice_executeVerb := "__ZN16IOHDACodecDevice11executeVerbEtttPjb"
    codecIdentity := fun ven rev => (ven / 65536, ven % 65536, rev) }

/-- The load event of the module `AppleHDAController` (load index 10) on a host that
reports no devices, finds every symbol and applies every route and patch. -/
def controllerKextEvent : KextEvent :=
  { index := 10, address := 0x1000, size := 0x2000, modelType := 1, devInfo := none,
    iterate := fun _ _ => none, solveSymbol := fun _ => 1, routeFails := fun _ => false,
    patchFails := fun _ => false }

/-- A controller fact table with one NVIDIA entry that carries one sentinel patch for
the module `AppleHDAController`. -/
def nvidiaControllerMod : List ControllerModInfo :=
  [{ name := "NVIDIA GK208 HDMI", vendor := 0x10de, device := 0x0e0f, revisions := [],
     platform := 0xFFFFFFFF, computerModel := 3,
     patches := [{ patch := { kext := ⟨10, 0⟩, find := u32Bytes 0xFFFF10DE,
                              replace := u32Bytes 0x0E0F10DE, size := 4, count := 1 },
                   minKernel := 0, maxKernel := 0 }] }]

/-- A state after controller discovery with two NVIDIA audio controllers of the same
device id, both matched to entry 0 of `nvidiaControllerMod`, and an untouched pool. -/
def twoNvidiaState : AlcEnabler :=
  { progressState := 1
    controllers :=
      [{ vendor := 0x10de, device := 0x0e0f, revision := 0xa1, platform := 0xFFFFFFFF,
         layout := 0, detect := none, nopatch := false, info := some 0 },
       { vendor := 0x10de, device := 0x0e0f, revision := 0xa1, platform := 0xFFFFFFFF,
         layout := 0, detect := none, nopatch := false, info := some 0 }]
    codecs := []
    computerModel := 1
    controllerMod := nvidiaControllerMod
    nvidiaDeviceIdUsage := [false, false, false]
    currentFreeNvidiaDeviceId := 0
    currentController := 0
    isAppleHDAZlib := false
    layout := ⟨false, 0⟩
    switchedOff := []
    nvidiaAssigned := [] }

/-- A patcher without pending error and with empty logs. -/
def freshPatcher : KernelPatcher := { error := false, routed := [], applied := [] }

/-- The pool members of the state. -/
def AlcEnabler.pool (s : AlcEnabler) : NvidiaPool :=
  { usage := s.nvidiaDeviceIdUsage, current := s.currentFreeNvidiaDeviceId,
    assigned := s.nvidiaAssigned }

/-- The pool `p'` comes after the pool `p`: the cursor has not moved back, and the
substitutions logged in between have strictly increasing pool indices, each at or after
the old cursor, before the new cursor and inside the pool of `max` ids. -/
def PoolAdvance (max : Nat) (p p' : NvidiaPool) : Prop :=
  p.current ≤ p'.current ∧
  ∃ new, p'.assigned = p.assigned ++ new ∧
    (new.map fun a => a.poolIndex).Pairwise (fun x y => x < y) ∧
    ∀ a ∈ new, p.current ≤ a.poolIndex ∧ a.poolIndex < p'.current ∧ a.poolIndex < max

/-- The external GPU is counted by `updateProperties`: its audio function is present and
injectable (`!hdaService || !validateInjection(hdaService)` is false). -/
def ExternalVideo.eligible (ev : ExternalVideo) : Bool :=
  match ev.audio with
  | some hdaService => validateInjection hdaService
  | none => false

/-- The number of counted external GPUs before position `g` of the enumeration. -/
def eligibleBefore (gpus : List ExternalVideo) (g : Nat) : Nat :=
  ((gpus.take g).filter fun ev => ev.eligible).length

/-- An NVIDIA audio function of an external GPU. -/
def nvidiaHdau (id : Nat) : IORegistryEntry :=
  { id := id, name := some "HDAU",
    props := fun k =>
      if k = "device-id" then some (OSObject.data (u32Bytes 0x0e0f))
      else if k = "revision-id" then some (OSObject.data (u32Bytes 0xa1))
      else none }

/-- An NVIDIA video function of an external GPU. -/
def nvidiaGfx (id : Nat) : IORegistryEntry :=
  { id := id, name := some "GFX0", props := fun _ => none }

/-- A snapshot without built-in audio or video and with two external NVIDIA GPUs. -/
def twoExternalGpus : DeviceInfo :=
  { audioBuiltinAnalog := none, audioBuiltinDigital := none, videoBuiltin := none,
    videoExternal := [{ video := nvidiaGfx 10, audio := some (nvidiaHdau 11), vendor := 0x10de },
                      { video := nvidiaGfx 20, audio := some (nvidiaHdau 21), vendor := 0x10de }],
    firmwareVendor := FirmwareVendor.Unknown, reportedLayoutId := 7,
    reportedFramebufferId := 0, reportedFramebufferIsConnectorLess := false }

/-- The `AlcEnabler` state before anything has happened, for a pool of `n` ids. -/
def initialAlcEnabler (controllerMod : List ControllerModInfo) (n : Nat) : AlcEnabler :=
  { progressState := 0, controllers := [], codecs := [], computerModel := 0,
    controllerMod := controllerMod, nvidiaDeviceIdUsage := List.replicate n false,
    currentFreeNvidiaDeviceId := 0, currentController := 0, isAppleHDAZlib := false,
    layout := ⟨false, 0⟩, switchedOff := [], nvidiaAssigned := [] }

/-- The `hda-gfx` property of the audio function of the external GPU at position `g`. -/
def audioHdaGfx (d : Option DeviceInfo) (g : Nat) : Option OSObject :=
  match d with
  | none => none
  | some d =>
    match d.videoExternal[g]? with
    | none => none
    | some ev =>
      match ev.audio with
      | none => none
      | some a => a.getProperty "hda-gfx"

/-- The `hda-gfx` property of the video function of the external GPU at position `g`. -/
def videoHdaGfx (d : Option DeviceInfo) (g : Nat) : Option OSObject :=
  match d with
  | none => none
  | some d =>
    match d.videoExternal[g]? with
    | none => none
    | some ev => ev.video.getProperty "hda-gfx"

/-- A controller fact table with one Intel entry for any revision. -/
def intelControllerMod : List ControllerModInfo :=
  [{ name := "Intel ICH9", vendor := 0x8086, device := 0x293E, revisions := [],
     platform := 0xFFFFFFFF, computerModel := 3, patches := [] }]

/-- An analog controller instance 8086:293E revision 3, not yet validated. -/
def ich9Controller : ControllerInfo :=
  { vendor := 0x8086, device := 0x293E, revision := 0x03, platform := 0xFFFFFFFF,
    layout := 3, detect := some 1, nopatch := false, info := none }

/-- A copy of `twoNvidiaState` with an exhausted pool: the cursor stands at
`MaxNvidiaDeviceIds`. -/
def exhaustedNvidiaState : AlcEnabler :=
  { twoNvidiaState with currentFreeNvidiaDeviceId := 3 }

/-- What `AppleHDAController_start` leaves behind: the provider node, the argument of
`IOSleep` when it is called, and the returned value. -/
structure ControllerStart where
  provider : IORegistryEntry
  slept : Option Nat
  result : Bool

/-- The local `delay` of `AppleHDAController_start` before the range check, and the
provider node: the `alcdelay` boot argument (then also stored in `alc-delay`), else the
`alc-delay` property, else 0. -/
def startDelay (host : Host) (provider : IORegistryEntry) : Nat × IORegistryEntry :=
  match host.bootArg "alcdelay" with
  | some delay => (delay, provider.setProperty "alc-delay" (u32Bytes delay))
  | none => ((getOSDataValue provider "alc-delay").getD 0, provider)

/-- Models `AlcEnabler::AppleHDAController_start(service, provider)`; `orgStart` is the
original routine behind `orgAppleHDAController_start`. -/
def AppleHDAController_start (host : Host)
    (orgStart : IORegistryEntry → IORegistryEntry → Bool)
    (service provider : IORegistryEntry) : ControllerStart :=
  let r := startDelay host provider
  let delay := if r.1 > 3000 then 0 else r.1
  { provider := r.2
    slept := if delay ≠ 0 then some delay else none
    result := orgStart service r.2 }

/-- The load event of the module `AppleGFXHDA` (load index 12 in `demoParams`). -/
def gfxKextEvent : KextEvent := { controllerKextEvent with index := 12 }

/-- An analog audio node `HDEF` of an Intel controller with the four properties
`grabControllers` reads. -/
def intelHdef : IORegistryEntry :=
  { id := 7, name := some "HDEF",
    props := fun k =>
      if k = "vendor-id" then some (OSObject.data (u32Bytes 0x8086))
      else if k = "device-id" then some (OSObject.data (u32Bytes 0x3a3e))
      else if k = "revision-id" then some (OSObject.data (u32Bytes 0))
      else if k = "alc-layout-id" then some (OSObject.data (u32Bytes 3))
      else none }

/-- A codec node that reports the Realtek ALC269. -/
def alc269Node : IORegistryEntry :=
  { id := 20, name := some "IOHDACodecDevice",
    props := fun k =>
      if k = "IOHDACodecVendorID" then some (OSObject.number 0x10EC0269)
      else if k = "IOHDACodecRevisionID" then some (OSObject.number 0x100100)
      else none }

/-- The load event of the codec-bearing module `AppleHDA` (load index 11, `user[0] = 1`)
on a host with the analog controller `intelHdef`, whose first controller has the codec
node `alc269Node` below it. -/
def codecKextEvent : KextEvent :=
  { controllerKextEvent with
    index := 11
    devInfo := some
      { audioBuiltinAnalog := some intelHdef, audioBuiltinDigital := none,
        videoBuiltin := none, videoExternal := [], firmwareVendor := FirmwareVendor.Other,
        reportedLayoutId := 0, reportedFramebufferId := 0,
        reportedFramebufferIsConnectorLess := false }
    iterate := fun c _ => if c = 0 then some [alc269Node] else none }

/-- The target symbols of the route requests of `processKext`, in source order. -/
def routeTargets (P : Params) : List String :=
  ["__ZN21AppleGFXHDAController5probeEP9IOServicePi",
   P.symPerformPowerChange,
   "__ZN20AppleHDACodecGeneric38initializePinConfigDefaultFromOverrideEP9IOService",
   "__ZN20AppleHDACodecGeneric38initializePinConfigDefaultFromOverrideEv",
   "__ZN14AppleHDADriver18layoutLoadCallbackEjiPKvjPv",
   "__ZN14AppleHDADriver20platformLoadCallbackEjiPKvjPv",
   "__ZN14AppleHDADriver5startEP9IOService",
   P.symIOHDACodecDevice_executeVerb,
   "__ZN18AppleHDAController5startEP9IOService",
   "__ZN22AppleHDAPlatformDriver5startEP9IOService"]

/-- How often `sym` has been passed to `routeMultiple`, plus one while the bit `flag` is
unset. -/
def hookMeasure (sym : String) (flag : Nat) (st : AlcEnabler × KernelPatcher) : Nat :=
  st.2.routed.count sym + (if st.1.progressState &&& flag = 0 then 1 else 0)

/-- The hook `(sym, flag)` is one of the three bit-guarded hooks of `processKext`, and no
other route request of `processKext` has its symbol. -/
def GuardedHook (P : Params) (sym : String) (flag : Nat) : Prop :=
  ∀ (j : Nat) (hj : j < (routeTargets P).length), (routeTargets P)[j] = sym →
    (j = 7 ∧ P.PatchHDAFamily = flag ∧ flag ≠ 0) ∨
    (j = 8 ∧ P.PatchHDAController = flag ∧ flag ≠ 0) ∨
    (j = 9 ∧ P.PatchHDAPlatformDriver = flag ∧ flag ≠ 0)

/-- The load event of `AppleGFXHDA` on a host where the route request fails. -/
def gfxFailingEvent : KextEvent := { gfxKextEvent with routeFails := fun _ => true }

/-- The pointee of a controller's `info` in the controller fact table `T`. -/
def matchedEntry (T : List ControllerModInfo) (c : ControllerInfo) : Option ControllerModInfo :=
  c.info.bind fun mod => T[mod]?

/-- An entry for the Intel controller 8086:293E, revision 1 only. -/
def entryRev1 : ControllerModInfo :=
  { name := "rev 1", vendor := 0x8086, device := 0x293e, revisions := [1],
    platform := 0xFFFFFFFF, computerModel := 3, patches := [] }

/-- An entry for the Intel controller 8086:293E, any revision. -/
def entryAnyRev : ControllerModInfo :=
  { name := "any revision", vendor := 0x8086, device := 0x293e, revisions := [],
    platform := 0xFFFFFFFF, computerModel := 3, patches := [] }

/-- An entry for the Intel controller 8086:293E, revision 2 only. -/
def entryRev2 : ControllerModInfo :=
  { name := "rev 2", vendor := 0x8086, device := 0x293e, revisions := [2],
    platform := 0xFFFFFFFF, computerModel := 3, patches := [] }

/-- A table of the three entries. -/
def revisionEntries : List ControllerModInfo := [entryRev1, entryAnyRev, entryRev2]

/-- The table `revisionEntries` with its first and its last entry swapped. -/
def revisionEntriesSwapped : List ControllerModInfo := [entryRev2, entryAnyRev, entryRev1]

/-- The controller 8086:293E revision 2, not yet validated. -/
def ich9Rev2 : ControllerInfo :=
  { vendor := 0x8086, device := 0x293e, revision := 2, platform := 0xFFFFFFFF, layout := 3,
    detect := some 7, nopatch := false, info := none }

/-- An analog audio node `HDEF` whose only property is the legacy `layout-id` 7. -/
def legacyHdef : IORegistryEntry :=
  { id := 1, name := some "HDEF",
    props := fun k => if k = "layout-id" then some (OSObject.data (u32Bytes 7)) else none }

/-- The invariant on the codec registry: when the `CodecsLoaded` bit is set, the registry
is non-empty and every codec in it has a non-null `info`. -/
def CodecsValidated (P : Params) (s : AlcEnabler) : Prop :=
  s.progressState &&& P.CodecsLoaded ≠ 0 → s.codecs ≠ [] ∧ ∀ c ∈ s.codecs, c.info ≠ none

/-- The flag `CodecsLoaded` shares no bit with the other flags `processKext` sets. -/
def CodecsLoadedOwnBit (P : Params) : Prop :=
  P.ControllersLoaded &&& P.CodecsLoaded = 0 ∧ P.PatchHDAFamily &&& P.CodecsLoaded = 0 ∧
    P.PatchHDAController &&& P.CodecsLoaded = 0 ∧ P.PatchHDAPlatformDriver &&& P.CodecsLoaded = 0

instance (P : Params) : Decidable (CodecsLoadedOwnBit P) := by
  unfold CodecsLoadedOwnBit; infer_instance

/-! ## The controller patch policy -/

/-- A patch without its `find` pattern, the member the NVIDIA id substitution rewrites. -/
def KextPatch.shape (kp : KextPatch) : KextPatch :=
  { kp with patch := { kp.patch with find := [] } }

/-- The patch sets of a controller fact table, without the `find` patterns. -/
def patchShapes (T : List ControllerModInfo) : List (List KextPatch) :=
  T.map fun e => e.patches.map KextPatch.shape

/-- The calls `applyPatches(patcher, index, info->patches, info->patchNum)` that the loop
`patchControllers` makes, in order: the index of the controller and the patch set passed. -/
def controllerPatchCalls (P : Params) (host : Host) (ev : KextEvent) :
    List ControllerInfo → Nat → ControllerPatching → List (Nat × List KextPatch)
  | [], _, _ => []
  | c :: rest, i, st =>
    match c.info with
    | none => controllerPatchCalls P host ev rest (i + 1) st
    | some mod =>
      match st.controllerMod[mod]? with
      | none => controllerPatchCalls P host ev rest (i + 1) st
      | some info =>
        let r :=
          if info.vendor = VendorIDNVIDIA then chooseNvidiaIds P i info.patches 0 st.pool
          else (info.patches, st.pool)
        let controllerMod := st.controllerMod.set mod { info with patches := r.1 }
        if c.nopatch = true then
          controllerPatchCalls P host ev rest (i + 1)
            { controllerMod := controllerMod, pool := r.2, patcher := st.patcher }
        else
          (i, r.1) :: controllerPatchCalls P host ev rest (i + 1)
            { controllerMod := controllerMod, pool := r.2,
              patcher := applyPatches host ev ev.index r.1 st.patcher }

/-- The patch policy in the words of the specification: for every controller instance
with a non-null `info` and no `nopatch` flag, in registry order, one call with the patch
set of its entry (`S` holds the patch sets of the table). -/
def policyCalls (S : List (List KextPatch)) (cs : List ControllerInfo) (i : Nat) :
    List (Nat × List KextPatch) :=
  (cs.enumFrom i).filterMap fun jc =>
    if jc.2.nopatch = true then none
    else jc.2.info.bind fun mod => S[mod]?.map fun ps => (jc.1, ps)

/-- The state in which `processKext` reaches the block that patches the controllers. -/
def controllersEntry (P : Params) (vendorMod : List VendorModInfo) (ev : KextEvent)
    (st : AlcEnabler × KernelPatcher) : AlcEnabler :=
  discover P vendorMod ev (findKextIndex ev.index P.kextList 0) st.1

/-- The `applyPatches` calls of the controller loop during the event `ev`. -/
def controllerCalls (P : Params) (vendorMod : List VendorModInfo) (host : Host)
    (ev : KextEvent) (st : AlcEnabler × KernelPatcher) : List (Nat × List KextPatch) :=
  controllerPatchCalls P host ev (controllersEntry P vendorMod ev st).controllers 0
    { controllerMod := (controllersEntry P vendorMod ev st).controllerMod
      pool := (controllersEntry P vendorMod ev st).pool
      patcher := st.2 }

/-- A state after controller discovery with one matched Intel controller whose entry has
a patch for the module `AppleGFXHDA` (load index 12). -/
def gfxPatchState : AlcEnabler :=
  { initialAlcEnabler
      [{ name := "Intel ICH9", vendor := 0x8086, device := 0x293E, revisions := [],
         platform := 0xFFFFFFFF, computerModel := 3,
         patches := [{ patch := { kext := ⟨12, 0⟩, find := [1, 2], replace := [3, 4],
                                  size := 2, count := 1 },
                       minKernel := 0, maxKernel := 0 }] }] 3 with
    progressState := 1
    controllers := [{ ich9Controller with info := some 0 }] }

/-! ## Predicates about the order in which pool ids are taken -/

/-- The pool invariant: the usage array has its declared size, the cursor is at most
`MaxNvidiaDeviceIds`, and every index below the cursor is marked used. -/
def PoolOrdered (P : Params) (p : NvidiaPool) : Prop :=
  p.usage.length = P.MaxNvidiaDeviceIds ∧ p.current ≤ P.MaxNvidiaDeviceIds ∧
    ∀ i, i < p.current → p.usage.getD i false = true

/-- The pool `p'` results from the pool `p` by substitutions that take the first unused
index each time: the cursor has not moved back (nor beyond `max`), the array keeps its
size, the indices marked used in `p'` are those marked in `p` and those the cursor has
passed, and the indices logged in between are exactly the indices from the old cursor up
to the new one that were unused in `p`, in increasing order. -/
def FirstUnusedWins (max : Nat) (p p' : NvidiaPool) : Prop :=
  p.current ≤ p'.current ∧ (p.current ≤ max → p'.current ≤ max) ∧
  p'.usage.length = p.usage.length ∧
  (∀ i, p'.usage.getD i false =
    (p.usage.getD i false || decide (p.current ≤ i ∧ i < p'.current))) ∧
  ∃ new, p'.assigned = p.assigned ++ new ∧
    (new.map fun a => a.poolIndex) =
      (List.range' p.current (p'.current - p.current)).filter
        fun i => !p.usage.getD i false

/-- The usage marks `u'` come after the marks `u`: same array size, and every index
marked in `u` is marked in `u'`. -/
def MarksKept (u u' : List Bool) : Prop :=
  u'.length = u.length ∧ ∀ i, u.getD i false = true → u'.getD i false = true

/-- What an `updateProperties` call may change of the registries and the pool: it adds
controllers and usage marks, and leaves the cursor, the log and the codecs alone. -/
def DiscoveryStep (s s' : AlcEnabler) : Prop :=
  s'.currentFreeNvidiaDeviceId = s.currentFreeNvidiaDeviceId ∧
  s'.nvidiaAssigned = s.nvidiaAssigned ∧ s'.codecs = s.codecs ∧
  s.controllers.length ≤ s'.controllers.length ∧
  MarksKept s.nvidiaDeviceIdUsage s'.nvidiaDeviceIdUsage

/-! ## The retry loop of `grabCodecs` -/

/-- The values of `brute` for which the loop `bruteCodecs` makes an enumeration attempt,
in order. -/
def bruteAttempts (P : Params) (ev : KextEvent) (currentController : Nat) :
    Nat → Nat → List CodecInfo → List Nat
  | 0, _, _ => []
  | remaining + 1, brute, codecs =>
    let r := enumerateCodecs P ev currentController brute codecs
    if r.1 = true then [brute]
    else brute :: bruteAttempts P ev currentController remaining (brute + 1) r.2

/-- A load event of `AppleHDA` during which the codec node of controller 0 turns up only
at the fourth enumeration attempt. -/
def lateCodecEvent : KextEvent :=
  { codecKextEvent with
    iterate := fun c brute => if c = 0 ∧ brute = 3 then some [alc269Node] else none }

/-- An NVIDIA video function whose only property is a connector type for connector 2. -/
def gappedNvidiaGfx : IORegistryEntry :=
  { id := 10, name := some "GFX0",
    props := fun k =>
      if k = "@2,connector-type" then some (OSObject.data [0x00, 0x04, 0x00, 0x00]) else none }

/-- The external NVIDIA GPU with the video function `gappedNvidiaGfx`. -/
def gappedGpu : ExternalVideo :=
  { video := gappedNvidiaGfx, audio := some (nvidiaHdau 11), vendor := 0x10de }

/-- A snapshot without built-in audio or video and with the external GPU `gappedGpu`. -/
def gappedGpuInfo : DeviceInfo := { twoExternalGpus with videoExternal := [gappedGpu] }

/-- The property `key` of the video function of the external GPU at position `g`. -/
def videoProperty (d : Option DeviceInfo) (g : Nat) (key : String) : Option OSObject :=
  match d with
  | none => none
  | some d =>
    match d.videoExternal[g]? with
    | none => none
    | some ev => ev.video.getProperty key

/-! ## `performPowerChange` -/

/-- The power states `ALCAudioDeviceSleep`, `ALCAudioDeviceIdle` and
`ALCAudioDeviceActive`, declared in a header that is not part of the sources. -/
structure PowerStates where
  ALCAudioDeviceSleep : Nat
  ALCAudioDeviceIdle : Nat
  ALCAudioDeviceActive : Nat

/-- The value of `OSDynamicCast(OSBoolean, e->getProperty(key))`, null when the property
is missing or not an `OSBoolean`. -/
def getOSBoolean (e : IORegistryEntry) (key : String) : Option Bool :=
  match e.getProperty key with
  | some (OSObject.boolean b) => some b
  | _ => none

/-- What `performPowerChange` leaves behind: the codec node (null when none was
obtained), whether the pin configuration was initialised again ("forcing wake verbs", the
call of `orgInitializePinConfig`), and the returned value. -/
structure PowerChange where
  hdaCodec : Option IORegistryEntry
  reinitialised : Bool
  ret : Nat

/-- Models `AlcEnabler::performPowerChange(hdaDriver, from, to, timer)`.
`orgPerformPowerChange` is the original routine, `parentService` the lookup
`OSDynamicCast(IOService, hdaDriver->getParentEntry(gIOServicePlane))`; the original
routines do not touch the two status properties. -/
def performPowerChange (S : PowerStates)
    (orgPerformPowerChange : Option IORegistryEntry → Nat → Nat → Nat → Nat)
    (parentService : IORegistryEntry → Option IORegistryEntry)
    (hdaDriver : Option IORegistryEntry) (fromState toState timer : Nat) : PowerChange :=
  let ret := orgPerformPowerChange hdaDriver fromState toState timer
  match hdaDriver.bind parentService with
  | none => { hdaCodec := none, reinitialised := false, ret := ret }
  | some hdaCodec =>
    match getOSBoolean hdaCodec "alc-pinconfig-status",
      getOSBoolean hdaCodec "alc-sleep-status" with
    | some pin, some sleep =>
      if pin = true then
        if toState = S.ALCAudioDeviceSleep then
          { hdaCodec := some (hdaCodec.setObject "alc-sleep-status" (OSObject.boolean true))
            reinitialised := false, ret := ret }
        else if sleep = true ∧
            (toState = S.ALCAudioDeviceIdle ∨ toState = S.ALCAudioDeviceActive) then
          { hdaCodec := some (hdaCodec.setObject "alc-sleep-status" (OSObject.boolean false))
            reinitialised := true, ret := ret }
        else { hdaCodec := some hdaCodec, reinitialised := false, ret := ret }
      else { hdaCodec := some hdaCodec, reinitialised := false, ret := ret }
    | _, _ => { hdaCodec := some hdaCodec, reinitialised := false, ret := ret }

/-- Example power states: sleep 0, idle 1, active 2. -/
def demoPowerStates : PowerStates :=
  { ALCAudioDeviceSleep := 0, ALCAudioDeviceIdle := 1, ALCAudioDeviceActive := 2 }

/-- A codec node that has its pin configuration patched and has been put to sleep. -/
def sleepingCodec : IORegistryEntry :=
  { id := 30, name := some "AppleHDACodecGeneric",
    props := fun k =>
      if k = "alc-pinconfig-status" then some (OSObject.boolean true)
      else if k = "alc-sleep-status" then some (OSObject.boolean true)
      else none }

/-- A driver node below `sleepingCodec`. -/
def hdaDriverNode : IORegistryEntry :=
  { id := 31, name := some "AppleHDADriver", props := fun _ => none }

/-- The symbols of the route requests of the block
`if ((progressState & CallbacksWantRouting) && kextIndex == KextIdAppleHDA)` of
`processKext`, in the order of its calls of `routeMultiple`: the power-change hook; the
pin-config hook (the variant with an `IOService` parameter from Snow Leopard on or when
`solveSymbol` finds it, the legacy variant otherwise); the layout and platform load
callbacks when `solveSymbol` finds the first; `AppleHDADriver::start` on Tiger. -/
def appleHDARoutes (P : Params) (host : Host) (ev : KextEvent) : List String :=
  [P.symPerformPowerChange] ++
  (if host.kernelVersion ≥ KernelVersionSnowLeopard ∨ ev.solveSymbol
      "__ZN20AppleHDACodecGeneric38initializePinConfigDefaultFromOverrideEP9IOService" ≠ 0 then
    ["__ZN20AppleHDACodecGeneric38initializePinConfigDefaultFromOverrideEP9IOService"]
  else ["__ZN20AppleHDACodecGeneric38initializePinConfigDefaultFromOverrideEv"]) ++
  (if ev.solveSymbol "__ZN14AppleHDADriver18layoutLoadCallbackEjiPKvjPv" ≠ 0 then
    ["__ZN14AppleHDADriver18layoutLoadCallbackEjiPKvjPv",
     "__ZN14AppleHDADriver20platformLoadCallbackEjiPKvjPv"]
  else []) ++
  (if host.kernelVersion = KernelVersionTiger then ["__ZN14AppleHDADriver5startEP9IOService"]
  else [])

/-! ## Theorems -/

theorem scanRevisions_ge (revision : Nat) (rs : List Nat) (rev : Nat) :
    rev ≤ scanRevisions revision rs rev := by
  induction rs generalizing rev with
  | nil => simp [scanRevisions]
  | cons r rs ih =>
    simp only [scanRevisions]
    split
    · exact Nat.le_trans (Nat.le_succ rev) (ih (rev + 1))
    · exact Nat.le_refl rev

theorem scanRevisions_eq_end (revision : Nat) (rs : List Nat) (rev : Nat) :
    scanRevisions revision rs rev = rev + rs.length ↔ revision ∉ rs ∨ rs = [] := by
  induction rs generalizing rev with
  | nil => simp [scanRevisions]
  | cons r rs ih =>
    simp only [scanRevisions]
    by_cases h : r = revision
    · subst h; simp
    · simp only [ne_eq, h, not_false_eq_true, if_true, List.length_cons, List.mem_cons]
      rw [show rev + (rs.length + 1) = rev + 1 + rs.length by omega, ih]
      constructor
      · rintro (h1 | h1)
        · left; intro h2; rcases h2 with h2 | h2
          · exact h h2.symm
          · exact h1 h2
        · left; subst h1; simp; exact fun h2 => h h2.symm
      · rintro (h1 | h1)
        · left; exact fun h2 => h1 (Or.inr h2)
        · simp at h1

theorem revision_check_iff (revision : Nat) (rs : List Nat) :
    (scanRevisions revision rs 0 ≠ rs.length ∨ rs.length = 0) ↔
      (rs = [] ∨ revision ∈ rs) := by
  have h := scanRevisions_eq_end revision rs 0
  simp only [Nat.zero_add] at h
  constructor
  · rintro (h1 | h1)
    · by_cases hm : revision ∈ rs
      · exact Or.inr hm
      · exact absurd (h.mpr (Or.inl hm)) h1
    · left; exact List.length_eq_zero.mp h1
  · rintro (h1 | h1)
    · right; simp [h1]
    · by_cases he : rs = []
      · right; simp [he]
      · left; intro h2
        rcases h.mp h2 with h3 | h3
        · exact h3 h1
        · exact he h3

theorem validateController_step (P : Params) (M : Nat) (c : ControllerInfo)
    (m : ControllerModInfo) (ms : List ControllerModInfo) (mod : Nat) :
    validateController P M c (m :: ms) mod =
      if ControllerEntryMatches P M c m then some mod
      else validateController P M c ms (mod + 1) := by
  have hrev := revision_check_iff c.revision m.revisions
  have hland : (M &&& m.computerModel = 0) ↔ ¬ (m.computerModel &&& M ≠ 0) := by
    rw [Nat.land_comm]; simp
  unfold ControllerEntryMatches
  simp only [validateController]
  by_cases h1 : c.vendor = m.vendor ∧ c.device = m.device
  · by_cases h2 : m.platform ≠ P.PlatformAny ∧ m.platform ≠ c.platform
    · have : ¬ (m.platform = P.PlatformAny ∨ m.platform = c.platform) := by
        rintro (h | h)
        · exact h2.1 h
        · exact h2.2 h
      simp [h1, h2, this]
    · have h2' : m.platform = P.PlatformAny ∨ m.platform = c.platform := by
        by_contra h; push_neg at h; exact h2 h
      by_cases h3 : M &&& m.computerModel = 0
      · have := hland.mp h3
        simp only [h1, and_self, if_true, h2, if_false, h3]
        rw [if_neg]
        intro hc; exact this hc.2.2.2
      · have h3' : m.computerModel &&& M ≠ 0 := by
          by_contra h; exact h3 (hland.mpr (not_not.mpr h))
        simp only [h1, and_self, if_true, h2, if_false, h3]
        by_cases h4 : scanRevisions c.revision m.revisions 0 ≠ m.revisions.length ∨
            m.revisions.length = 0
        · rw [if_pos h4, if_pos]
          exact ⟨trivial, hrev.mp h4, h2', h3'⟩
        · rw [if_neg h4, if_neg]
          intro hc; exact h4 (hrev.mpr hc.2.1)
  · rw [if_neg h1, if_neg]
    intro hc; exact h1 hc.1

theorem validateController_none (P : Params) (M : Nat) (c : ControllerInfo)
    (T : List ControllerModInfo) (mod : Nat) :
    validateController P M c T mod = none ↔ ∀ e ∈ T, ¬ ControllerEntryMatches P M c e := by
  induction T generalizing mod with
  | nil => simp [validateController]
  | cons m ms ih =>
    rw [validateController_step]
    by_cases h : ControllerEntryMatches P M c m
    · simp [h]
    · simp [h, ih]

theorem validateController_some (P : Params) (M : Nat) (c : ControllerInfo)
    (T : List ControllerModInfo) (base r : Nat) :
    validateController P M c T base = some r ↔
      ∃ k e, r = base + k ∧ T[k]? = some e ∧ ControllerEntryMatches P M c e ∧
        ∀ j e', j < k → T[j]? = some e' → ¬ ControllerEntryMatches P M c e' := by
  induction T generalizing base with
  | nil => simp [validateController]
  | cons m ms ih =>
    rw [validateController_step]
    by_cases h : ControllerEntryMatches P M c m
    · simp only [h, if_true, Option.some.injEq]
      constructor
      · intro hr
        exact ⟨0, m, by omega, by simp, h, fun j e' hj => absurd hj (Nat.not_lt_zero j)⟩
      · rintro ⟨k, e, hr, hk, he, hfirst⟩
        cases k with
        | zero => omega
        | succ k => exact absurd h (hfirst 0 m (Nat.succ_pos k) (by simp))
    · simp only [h, if_false, ih]
      constructor
      · rintro ⟨k, e, hr, hk, he, hfirst⟩
        refine ⟨k + 1, e, by omega, by simpa using hk, he, ?_⟩
        intro j e' hj hj'
        cases j with
        | zero => simp at hj'; subst hj'; exact h
        | succ j => exact hfirst j e' (by omega) (by simpa using hj')
      · rintro ⟨k, e, hr, hk, he, hfirst⟩
        cases k with
        | zero => simp at hk; subst hk; exact absurd he h
        | succ k =>
          refine ⟨k, e, by omega, by simpa using hk, he, ?_⟩
          intro j e' hj hj'
          exact hfirst (j + 1) e' (by omega) (by simpa using hj')

/-- C1: `validateControllers` keeps the registry's length and every instance's key, and
gives the instance at position `i` the first table entry, in table order, that satisfies
the four-part predicate; when no entry satisfies it `info` is left as it was, hence
null for an instance whose `info` was null. -/
theorem validateControllers_first_match (P : Params) (T : List ControllerModInfo) (M : Nat)
    (cs : List ControllerInfo) (i : Nat) (K : ControllerInfo) (hK : cs[i]? = some K) :
    ∃ K', (validateControllers P T M cs)[i]? = some K' ∧
      (K'.vendor = K.vendor ∧ K'.device = K.device ∧ K'.revision = K.revision ∧
        K'.platform = K.platform) ∧
      ((∃ mod e, T[mod]? = some e ∧ ControllerEntryMatches P M K e ∧
          (∀ j e', j < mod → T[j]? = some e' → ¬ ControllerEntryMatches P M K e') ∧
          K'.info = some mod) ∨
       ((∀ e ∈ T, ¬ ControllerEntryMatches P M K e) ∧ K'.info = K.info ∧
          (K.info = none → K'.info = none))) := by
  unfold validateControllers
  rw [List.getElem?_map, hK]
  cases hm : validateController P M K T 0 with
  | none =>
    refine ⟨K, by simp [hm], ⟨rfl, rfl, rfl, rfl⟩, Or.inr ⟨?_, rfl, fun h => h⟩⟩
    exact (validateController_none P M K T 0).mp hm
  | some r =>
    obtain ⟨k, e, hr, hk, he, hfirst⟩ := (validateController_some P M K T 0 r).mp hm
    have hrk : r = k := by omega
    subst hrk
    exact ⟨{ K with info := some r }, by simp [hm], ⟨rfl, rfl, rfl, rfl⟩,
      Or.inl ⟨r, e, hk, he, hfirst, rfl⟩⟩

theorem scanVendors_spec (vendor : Nat) (l : List VendorModInfo) (base : Nat) :
    ∃ k, scanVendors vendor l base = base + k ∧ k ≤ l.length ∧
      (∀ j e, j < k → l[j]? = some e → e.vendor ≠ vendor) ∧
      (∀ e, l[k]? = some e → e.vendor = vendor) := by
  induction l generalizing base with
  | nil => exact ⟨0, by simp [scanVendors]⟩
  | cons v vs ih =>
    by_cases h : v.vendor = vendor
    · exact ⟨0, by simp [scanVendors, h], by simp, fun j e hj => absurd hj (Nat.not_lt_zero j),
        fun e he => by simp at he; subst he; exact h⟩
    · obtain ⟨k, hk, hle, hlt, hat⟩ := ih (base + 1)
      refine ⟨k + 1, ?_, by simpa using hle, ?_, ?_⟩
      · simp only [scanVendors, ne_eq, h, not_false_eq_true, if_true, hk]; omega
      · intro j e hj he
        cases j with
        | zero => simp at he; subst he; exact h
        | succ j => exact hlt j e (by omega) (by simpa using he)
      · intro e he; exact hat e (by simpa using he)

theorem scanCodecs_spec (codec : Nat) (l : List CodecModInfo) (base : Nat) :
    ∃ k, scanCodecs codec l base = base + k ∧ k ≤ l.length ∧
      (∀ j e, j < k → l[j]? = some e → e.codec ≠ codec) ∧
      (∀ e, l[k]? = some e → e.codec = codec) := by
  induction l generalizing base with
  | nil => exact ⟨0, by simp [scanCodecs]⟩
  | cons v vs ih =>
    by_cases h : v.codec = codec
    · exact ⟨0, by simp [scanCodecs, h], by simp, fun j e hj => absurd hj (Nat.not_lt_zero j),
        fun e he => by simp at he; subst he; exact h⟩
    · obtain ⟨k, hk, hle, hlt, hat⟩ := ih (base + 1)
      refine ⟨k + 1, ?_, by simpa using hle, ?_, ?_⟩
      · simp only [scanCodecs, ne_eq, h, not_false_eq_true, if_true, hk]; omega
      · intro j e hj he
        cases j with
        | zero => simp at he; subst he; exact h
        | succ j => exact hlt j e (by omega) (by simpa using he)
      · intro e he; exact hat e (by simpa using he)

/-- A first index is unique: two indices that both hold the first hit coincide. -/
theorem first_index_unique {α : Type} (p : α → Prop) (l : List α) (a b : Nat) (x y : α)
    (ha : l[a]? = some x) (hx : p x) (hlta : ∀ j e, j < a → l[j]? = some e → ¬ p e)
    (hb : l[b]? = some y) (hy : p y) (hltb : ∀ j e, j < b → l[j]? = some e → ¬ p e) :
    a = b := by
  rcases Nat.lt_trichotomy a b with h | h | h
  · exact absurd hx (hltb a x h ha)
  · exact h
  · exact absurd hy (hlta b y h hb)

theorem validateCodec_iff (vendorMod : List VendorModInfo) (c : CodecInfo) (v k : Nat) :
    validateCodec vendorMod c = some (v, k) ↔ CodecEntryChosen vendorMod c v k := by
  obtain ⟨a, ha, hale, halt, haat⟩ := scanVendors_spec c.vendor vendorMod 0
  simp only [Nat.zero_add] at ha
  unfold validateCodec CodecEntryChosen
  simp only [ha]
  by_cases hend : a = vendorMod.length
  · simp only [hend, ne_eq, not_true_eq_false, if_false]
    constructor
    · intro h; cases h
    · rintro ⟨ve, m, hv, hven, -, -⟩
      have hvlt : v < vendorMod.length := by
        by_contra hc
        rw [List.getElem?_eq_none (by omega)] at hv; cases hv
      exact absurd hven (halt v ve (by omega) hv)
  · have halt' : a < vendorMod.length := by omega
    have hget : vendorMod[a]? = some vendorMod[a] := List.getElem?_eq_getElem halt'
    have hvend := haat _ hget
    simp only [ne_eq, hend, not_false_eq_true, if_true, hget]
    obtain ⟨b, hb, hble, hblt, hbat⟩ := scanCodecs_spec c.codec vendorMod[a].codecs 0
    simp only [Nat.zero_add] at hb
    simp only [hb]
    have hrev := fun (m : CodecModInfo) => revision_check_iff c.revision m.revisions
    constructor
    · intro h
      by_cases hcend : b = vendorMod[a].codecs.length
      · simp [hcend] at h
      · have hblt' : b < vendorMod[a].codecs.length := by omega
        have hcget : vendorMod[a].codecs[b]? = some vendorMod[a].codecs[b] :=
          List.getElem?_eq_getElem hblt'
        simp only [hcend, not_false_eq_true, if_true, hcget] at h
        split at h
        · rename_i hr
          simp only [Option.some.injEq, Prod.mk.injEq] at h
          obtain ⟨h1, h2⟩ := h
          subst h1; subst h2
          exact ⟨_, _, hget, hvend, halt, hcget, hbat _ hcget, hblt, (hrev _).mp hr⟩
        · cases h
    · rintro ⟨ve, m, hv, hven, hvfirst, hm, hmc, hmfirst, hmrev⟩
      have hav : a = v :=
        first_index_unique (fun e => e.vendor = c.vendor) vendorMod a v _ _ hget hvend halt
          hv hven hvfirst
      subst hav
      rw [hget] at hv
      simp only [Option.some.injEq] at hv
      subst hv
      have hklt : k < vendorMod[a].codecs.length := by
        by_contra hc
        rw [List.getElem?_eq_none (by omega)] at hm; cases hm
      have hbne : b ≠ vendorMod[a].codecs.length := by
        intro hbe
        exact absurd hmc (hblt k m (by omega) hm)
      have hblt' : b < vendorMod[a].codecs.length := by omega
      have hcget : vendorMod[a].codecs[b]? = some vendorMod[a].codecs[b] :=
        List.getElem?_eq_getElem hblt'
      have hbk : b = k :=
        first_index_unique (fun e => e.codec = c.codec) vendorMod[a].codecs b k _ _ hcget
          (hbat _ hcget) hblt hm hmc hmfirst
      subst hbk
      rw [hcget] at hm
      simp only [Option.some.injEq] at hm
      subst hm
      simp only [hbne, not_false_eq_true, if_true, hcget]
      rw [if_pos ((hrev _).mpr hmrev)]

/-- The codec kept for `c` by `validateCodecs`, if any: `c` with `info` assigned. -/
theorem validateCodecsLoop_eq (vendorMod : List VendorModInfo) (fuel i : Nat)
    (codecs : List CodecInfo) (hfuel : codecs.length ≤ i + fuel) :
    validateCodecsLoop vendorMod fuel i codecs =
      codecs.take i ++ (codecs.drop i).filterMap
        (fun c => (validateCodec vendorMod c).map fun ref => { c with info := some ref }) := by
  induction fuel generalizing i codecs with
  | zero =>
    simp only [validateCodecsLoop]
    rw [List.drop_eq_nil_of_le (by omega), List.take_of_length_le (by omega)]
    simp
  | succ fuel ih =>
    simp only [validateCodecsLoop]
    by_cases hi : i < codecs.length
    · have hget : codecs[i]? = some codecs[i] := List.getElem?_eq_getElem hi
      have hdrop : codecs.drop i = codecs[i] :: codecs.drop (i + 1) := by
        rw [List.drop_eq_getElem_cons hi]
      simp only [hget, hdrop, List.filterMap_cons]
      have hlen : (codecs.take i).length = i := by
        rw [List.length_take]; omega
      cases hv : validateCodec vendorMod codecs[i] with
      | none =>
        simp only [Option.map_none']
        rw [ih i (codecs.eraseIdx i) (by rw [List.length_eraseIdx]; simp only [hi, if_true]; omega)]
        rw [List.eraseIdx_eq_take_drop_succ, List.take_left' hlen, List.drop_left' hlen]
      | some ref =>
        simp only [Option.map_some']
        rw [ih (i + 1) _ (by rw [List.length_set]; omega)]
        rw [List.drop_set_of_lt _ _ (by omega)]
        rw [List.take_succ, List.set_take, List.set_eq_of_length_le (by omega),
          List.getElem?_set_self hi]
        simp
    · have hnone : codecs[i]? = none := List.getElem?_eq_none (by omega)
      simp only [hnone]
      rw [List.drop_eq_nil_of_le (by omega), List.take_of_length_le (by omega)]
      simp

theorem validateCodecs_eq_filterMap (vendorMod : List VendorModInfo) (codecs : List CodecInfo) :
    (validateCodecs vendorMod codecs).1 = codecs.filterMap
      (fun c => (validateCodec vendorMod c).map fun ref => { c with info := some ref }) := by
  unfold validateCodecs
  simp only
  rw [validateCodecsLoop_eq vendorMod codecs.length 0 codecs (by omega)]
  simp

/-- C2: codec validation is a filter: the registry after `validateCodecs` is, element by
element, a sub-list `kept` of the registry before it (same order, nothing added) in which
only `info` was written, and every survivor has a non-null `info`. -/
theorem validateCodecs_is_filter (vendorMod : List VendorModInfo) (codecs : List CodecInfo) :
    ∃ kept, List.Sublist kept codecs ∧
      List.Forall₂ (fun r k => ∃ ref, r = { k with info := some ref })
        (validateCodecs vendorMod codecs).1 kept ∧
      ∀ r ∈ (validateCodecs vendorMod codecs).1, r.info ≠ none := by
  rw [validateCodecs_eq_filterMap]
  induction codecs with
  | nil => exact ⟨[], List.Sublist.slnil, by simp, by simp⟩
  | cons c cs ih =>
    obtain ⟨kept, hsub, hall, hinfo⟩ := ih
    cases hv : validateCodec vendorMod c with
    | none =>
      refine ⟨kept, List.Sublist.cons c hsub, ?_, ?_⟩
      · simpa [List.filterMap_cons, hv] using hall
      · simpa [List.filterMap_cons, hv] using hinfo
    | some ref =>
      refine ⟨c :: kept, List.Sublist.cons₂ c hsub, ?_, ?_⟩
      · simp only [List.filterMap_cons, hv, Option.map_some']
        exact List.Forall₂.cons ⟨ref, rfl⟩ hall
      · simp only [List.filterMap_cons, hv, Option.map_some', List.mem_cons]
        rintro r (hr | hr)
        · subst hr; simp
        · exact hinfo r hr

/-- C3, counterexample: the table holds an entry (the second one) with the instance's
vendor id, codec id and an empty revision set, yet `validateCodecs` removes the instance,
because only the first entry with the codec id is looked at. -/
theorem validateCodecs_removes_despite_later_entry :
    (∃ ve ∈ dupCodecTable, ∃ m ∈ ve.codecs, CodecEntryMatches dupCodecInstance ve m) ∧
      (validateCodecs dupCodecTable [dupCodecInstance]).1 = [] := by
  decide

/-- C3, amended: `validateCodecs` keeps an instance exactly when the first vendor entry
with its vendor id has a first codec entry with its codec id whose revision set is empty
or contains its revision; `info` is then that entry, and the instance is removed exactly
when this lookup fails.  The survivors keep their order. -/
theorem validateCodecs_first_vendor_first_codec (vendorMod : List VendorModInfo)
    (codecs : List CodecInfo) :
    ∃ g : CodecInfo → Option CodecInfo,
      (validateCodecs vendorMod codecs).1 = codecs.filterMap g ∧
      ∀ c r, g c = some r ↔
        ∃ v k, CodecEntryChosen vendorMod c v k ∧ r = { c with info := some (v, k) } := by
  refine ⟨fun c => (validateCodec vendorMod c).map fun ref => { c with info := some ref },
    validateCodecs_eq_filterMap vendorMod codecs, ?_⟩
  intro c r
  constructor
  · intro h
    cases hv : validateCodec vendorMod c with
    | none => simp [hv] at h
    | some ref =>
      obtain ⟨v, k⟩ := ref
      simp only [hv, Option.map_some', Option.some.injEq] at h
      exact ⟨v, k, (validateCodec_iff vendorMod c v k).mp hv, h.symm⟩
  · rintro ⟨v, k, hch, hr⟩
    have hv := (validateCodec_iff vendorMod c v k).mpr hch
    simp [hv, hr]

theorem selectResourceFile_miss (compatibleKernel : Nat → Nat → Bool)
    (decompress : Nat → List Nat → Nat → Option (List Nat × Nat)) (zlib : Bool)
    (layout : Nat) (files : List CodecFile) (r : ResourceReply)
    (hmiss : ∀ f ∈ files,
      ¬ (layout = f.layout ∧ compatibleKernel f.minKernel f.maxKernel = true)) :
    selectResourceFile compatibleKernel decompress zlib layout files r = r := by
  induction files with
  | nil => rfl
  | cons f fs ih =>
    simp only [selectResourceFile]
    rw [if_neg (hmiss f (List.mem_cons_self f fs))]
    exact ih fun g hg => hmiss g (List.mem_cons_of_mem f hg)

theorem updateResourceCodec_miss (vendorMod : List VendorModInfo)
    (compatibleKernel : Nat → Nat → Bool)
    (decompress : Nat → List Nat → Nat → Option (List Nat × Nat)) (zlib : Bool)
    (controllers : List ControllerInfo) (type : Resource) (c : CodecInfo) (r : ResourceReply)
    (hidx : c.controller < controllers.length)
    (hinfo : ∀ ref, c.info = some ref → (codecModInfoAt vendorMod ref).isSome = true)
    (hmiss : ∀ fi, ¬ ResourceFileMatches vendorMod compatibleKernel controllers type c fi) :
    updateResourceCodec vendorMod compatibleKernel decompress zlib controllers type c r =
      some r := by
  unfold updateResourceCodec
  cases hci : c.info with
  | none => rfl
  | some ref =>
    have hsome := hinfo ref hci
    cases hmi : codecModInfoAt vendorMod ref with
    | none => simp [hmi] at hsome
    | some info =>
      cases hf : resourceFiles type info with
      | none => simp only [hmi, hf]
      | some files =>
        cases files with
        | nil => simp only [hmi, hf]
        | cons fi fs =>
          have hget : controllers[c.controller]? = some controllers[c.controller] :=
            List.getElem?_eq_getElem hidx
          simp only [hmi, hf, hget]
          rw [selectResourceFile_miss]
          intro f hfmem hmatch
          exact hmiss f ⟨ref, info, fi :: fs, _, hci, hmi, hf, hfmem, hget, hmatch.1, hmatch.2⟩

theorem updateResourceCodec_wf (vendorMod : List VendorModInfo)
    (compatibleKernel : Nat → Nat → Bool)
    (decompress : Nat → List Nat → Nat → Option (List Nat × Nat)) (zlib : Bool)
    (controllers : List ControllerInfo) (type : Resource) (c : CodecInfo) (r : ResourceReply)
    (hidx : c.controller < controllers.length)
    (hinfo : ∀ ref, c.info = some ref → (codecModInfoAt vendorMod ref).isSome = true) :
    ∃ r', updateResourceCodec vendorMod compatibleKernel decompress zlib controllers type c r =
      some r' := by
  unfold updateResourceCodec
  cases hci : c.info with
  | none => exact ⟨r, rfl⟩
  | some ref =>
    have hsome := hinfo ref hci
    cases hmi : codecModInfoAt vendorMod ref with
    | none => simp [hmi] at hsome
    | some info =>
      cases hf : resourceFiles type info with
      | none => exact ⟨r, by simp only [hmi, hf]⟩
      | some files =>
        cases files with
        | nil => exact ⟨r, by simp only [hmi, hf]⟩
        | cons fi fs =>
          have hget : controllers[c.controller]? = some controllers[c.controller] :=
            List.getElem?_eq_getElem hidx
          simp only [hmi, hf, hget]
          exact ⟨_, rfl⟩

theorem updateResource_wf (vendorMod : List VendorModInfo)
    (compatibleKernel : Nat → Nat → Bool)
    (decompress : Nat → List Nat → Nat → Option (List Nat × Nat)) (zlib : Bool)
    (controllers : List ControllerInfo) (type : Resource) (codecs : List CodecInfo)
    (r : ResourceReply) (hwf : RegistryWF vendorMod controllers codecs) :
    ∃ r', updateResource vendorMod compatibleKernel decompress zlib controllers type codecs r =
      some r' := by
  induction codecs generalizing r with
  | nil => exact ⟨r, rfl⟩
  | cons c cs ih =>
    obtain ⟨r1, hr1⟩ := updateResourceCodec_wf vendorMod compatibleKernel decompress zlib
      controllers type c r (hwf c (List.mem_cons_self c cs)).1 (hwf c (List.mem_cons_self c cs)).2
    simp only [updateResource, hr1]
    exact ih r1 fun d hd => hwf d (List.mem_cons_of_mem c hd)

theorem updateResource_miss (vendorMod : List VendorModInfo)
    (compatibleKernel : Nat → Nat → Bool)
    (decompress : Nat → List Nat → Nat → Option (List Nat × Nat)) (zlib : Bool)
    (controllers : List ControllerInfo) (type : Resource) (codecs : List CodecInfo)
    (r : ResourceReply) (hwf : RegistryWF vendorMod controllers codecs)
    (hmiss : ∀ c ∈ codecs, ∀ fi,
      ¬ ResourceFileMatches vendorMod compatibleKernel controllers type c fi) :
    updateResource vendorMod compatibleKernel decompress zlib controllers type codecs r =
      some r := by
  induction codecs with
  | nil => rfl
  | cons c cs ih =>
    have hc := hwf c (List.mem_cons_self c cs)
    simp only [updateResource]
    rw [updateResourceCodec_miss vendorMod compatibleKernel decompress zlib controllers type c r
      hc.1 hc.2 (hmiss c (List.mem_cons_self c cs))]
    exact ih (fun d hd => hwf d (List.mem_cons_of_mem c hd))
      (fun d hd => hmiss d (List.mem_cons_of_mem c hd))

/-- C8: on a miss `updateResource` leaves `result`, `resourceData` and
`resourceDataLength` unchanged, for both request types, and the load callbacks hand the
original values to the original callback. -/
theorem updateResource_pass_through (vendorMod : List VendorModInfo)
    (compatibleKernel : Nat → Nat → Bool)
    (decompress : Nat → List Nat → Nat → Option (List Nat × Nat)) (zlib : Bool)
    (controllers : List ControllerInfo) (type : Resource) (codecs : List CodecInfo)
    (requestTag context : Nat) (r : ResourceReply)
    (hwf : RegistryWF vendorMod controllers codecs)
    (hmiss : ∀ c ∈ codecs, ∀ fi,
      ¬ ResourceFileMatches vendorMod compatibleKernel controllers type c fi) :
    updateResource vendorMod compatibleKernel decompress zlib controllers type codecs r =
        some r ∧
      (type = Resource.Layout →
        layoutLoadCallback vendorMod compatibleKernel decompress zlib controllers codecs
          requestTag r context = some (requestTag, r, context)) ∧
      (type = Resource.Platform →
        platformLoadCallback vendorMod compatibleKernel decompress zlib controllers codecs
          requestTag r context = some (requestTag, r, context)) := by
  have h := updateResource_miss vendorMod compatibleKernel decompress zlib controllers type
    codecs r hwf hmiss
  refine ⟨h, ?_, ?_⟩
  · intro ht; subst ht
    simp [layoutLoadCallback, h]
  · intro ht; subst ht
    simp [platformLoadCallback, h]

/-- C7, counterexample: on non-Apple firmware, an analog node without `layout-id` and
without `alc-layout-id` has no `alc-layout-id` after the first run (there is nothing to
copy), and `alc-layout-id` 7 after the second run, which copies the `layout-id` that the
first run has set to the reported layout id 7. -/
theorem updateDeviceProperties_not_idempotent :
    (updateDeviceProperties plainHost FirmwareVendor.Unknown 7 ⟨false, 0⟩ bareHdef
        none true).1.getProperty "alc-layout-id" = none ∧
      (updateDevicePropertiesTwice plainHost FirmwareVendor.Unknown 7 ⟨false, 0⟩
        bareHdef none true).1.getProperty "alc-layout-id" =
        some (OSObject.data (u32Bytes 7)) := by
  decide

@[simp] theorem getProperty_setProperty (n : IORegistryEntry) (k : String) (b : List Nat)
    (k' : String) :
    (n.setProperty k b).getProperty k' =
      if k' = k then some (OSObject.data b) else n.getProperty k' := rfl

@[simp] theorem name_setProperty (n : IORegistryEntry) (k : String) (b : List Nat) :
    (n.setProperty k b).name = n.name := rfl

@[simp] theorem id_setProperty (n : IORegistryEntry) (k : String) (b : List Nat) :
    (n.setProperty k b).id = n.id := rfl

theorem setProperty_same (n : IORegistryEntry) (k : String) (b : List Nat)
    (h : n.getProperty k = some (OSObject.data b)) : n.setProperty k b = n := by
  cases n with
  | mk id name props =>
    simp only [IORegistryEntry.setProperty, IORegistryEntry.setObject,
      IORegistryEntry.mk.injEq, true_and]
    funext k'
    by_cases hk : k' = k
    · subst hk; simpa [IORegistryEntry.getProperty] using h.symm
    · simp [hk]

theorem getOSDataValue_congr (n m : IORegistryEntry) (k : String)
    (h : m.getProperty k = n.getProperty k) : getOSDataValue m k = getOSDataValue n k := by
  unfold getOSDataValue; rw [h]

theorem readU32_u32Bytes (v : Nat) : readU32 (u32Bytes v) = some (v % 4294967296) := by
  simp only [u32Bytes, readU32, Option.some.injEq]
  omega

theorem u32Bytes_mod (v : Nat) : u32Bytes (v % 4294967296) = u32Bytes v := by
  simp only [u32Bytes, List.cons.injEq, and_true]
  refine ⟨?_, ?_, ?_, ?_⟩ <;> omega

theorem getOSDataValue_setProperty_u32 (n : IORegistryEntry) (k : String) (v : Nat) :
    getOSDataValue (n.setProperty k (u32Bytes v)) k = some (v % 4294967296) := by
  have hl : (u32Bytes v).length = 4 := rfl
  simp [getOSDataValue, readU32_u32Bytes, hl]

theorem getOSDataValue_of_data (n : IORegistryEntry) (k : String) (v : Nat)
    (h : n.getProperty k = some (OSObject.data (u32Bytes v))) :
    getOSDataValue n k = some (v % 4294967296) := by
  have hl : (u32Bytes v).length = 4 := rfl
  simp [getOSDataValue, h, readU32_u32Bytes, hl]

theorem ensureProperty_stable (n : IORegistryEntry) (k : String) (b : List Nat)
    (h : (n.getProperty k).isSome = true) : ensureProperty n k b = n := by
  simp [ensureProperty, h]

@[simp] theorem name_ensureProperty (n : IORegistryEntry) (k : String) (b : List Nat) :
    (ensureProperty n k b).name = n.name := by
  unfold ensureProperty; split <;> rfl

theorem getProperty_ensureProperty (n : IORegistryEntry) (k : String) (b : List Nat)
    (k' : String) :
    (ensureProperty n k b).getProperty k' =
      if k' = k then some ((n.getProperty k).getD (OSObject.data b)) else n.getProperty k' := by
  unfold ensureProperty
  by_cases h : (n.getProperty k).isSome = true
  · rw [if_pos h]
    by_cases hk : k' = k
    · subst hk
      obtain ⟨v, hv⟩ := Option.isSome_iff_exists.mp h
      simp [hv]
    · simp [hk]
  · rw [if_neg h]
    have hn : n.getProperty k = none := by
      cases hv : n.getProperty k with
      | none => rfl
      | some v => simp [hv] at h
    simp [hn]

theorem getProperty_ensureProperty_of_ne (n : IORegistryEntry) (k : String) (b : List Nat)
    (k' : String) (hk : k' ≠ k) :
    (ensureProperty n k b).getProperty k' = n.getProperty k' := by
  rw [getProperty_ensureProperty, if_neg hk]

theorem isSome_ensureProperty (n : IORegistryEntry) (k : String) (b : List Nat) :
    ((ensureProperty n k b).getProperty k).isSome = true := by
  rw [getProperty_ensureProperty]; simp

theorem name_fixPlaneName (host : Host) (n : IORegistryEntry) (isAnalog : Bool) :
    (fixPlaneName host n isAnalog).name = some (if isAnalog = true then "HDEF" else "HDAU") := by
  unfold fixPlaneName
  cases isAnalog with
  | true =>
    by_cases h : n.name = some "HDEF"
    · simp [h]
    · simp [h, renameDevice]
  | false =>
    by_cases h : n.name = some "HDAU"
    · simp [h]
    · simp [h, renameDevice]

theorem getProperty_fixPlaneName (host : Host) (n : IORegistryEntry) (isAnalog : Bool)
    (k : String) (hk : k ≠ "compatible") :
    (fixPlaneName host n isAnalog).getProperty k = n.getProperty k := by
  unfold fixPlaneName
  simp only
  split
  · simp [renameDevice, IORegistryEntry.getProperty, hk]
  · split
    · simp [renameDevice, IORegistryEntry.getProperty, hk]
    · rfl

theorem fixPlaneName_stable (host : Host) (n : IORegistryEntry) (isAnalog : Bool)
    (h : n.name = some (if isAnalog = true then "HDEF" else "HDAU")) :
    fixPlaneName host n isAnalog = n := by
  unfold fixPlaneName
  cases isAnalog <;> simp_all

@[simp] theorem name_refreshAlcLayoutId (host : Host) (fw : FirmwareVendor)
    (n : IORegistryEntry) : (refreshAlcLayoutId host fw n).name = n.name := by
  unfold refreshAlcLayoutId
  split
  · rfl
  · split
    · rfl
    · split
      · split <;> rfl
      · rfl

theorem getProperty_refreshAlcLayoutId (host : Host) (fw : FirmwareVendor)
    (n : IORegistryEntry) (k : String) (hk : k ≠ "alc-layout-id") :
    (refreshAlcLayoutId host fw n).getProperty k = n.getProperty k := by
  unfold refreshAlcLayoutId
  split
  · simp [hk]
  · split
    · rfl
    · split
      · split
        · simp [hk]
        · rfl
      · rfl

@[simp] theorem name_setReportedLayoutId (fw : FirmwareVendor) (r : Nat) (ov : LayoutOverride)
    (n : IORegistryEntry) : (setReportedLayoutId fw r ov n).1.name = n.name := by
  unfold setReportedLayoutId; split <;> rfl

theorem getProperty_setReportedLayoutId (fw : FirmwareVendor) (r : Nat) (ov : LayoutOverride)
    (n : IORegistryEntry) (k : String) (hk : k ≠ "layout-id") :
    (setReportedLayoutId fw r ov n).1.getProperty k = n.getProperty k := by
  unfold setReportedLayoutId; split
  · simp [hk]
  · rfl

@[simp] theorem name_passHdaGfx (n : IORegistryEntry) (g : Option String) :
    (passHdaGfx n g).name = n.name := by
  unfold passHdaGfx; split <;> rfl

theorem getProperty_passHdaGfx (n : IORegistryEntry) (g : Option String) (k : String)
    (hk : k ≠ "hda-gfx") : (passHdaGfx n g).getProperty k = n.getProperty k := by
  unfold passHdaGfx; split
  · simp [hk]
  · rfl

@[simp] theorem name_analogProperties (host : Host) (fw : FirmwareVendor)
    (n : IORegistryEntry) : (analogProperties host fw n).name = n.name := by
  simp [analogProperties]

theorem getProperty_analogProperties (host : Host) (fw : FirmwareVendor)
    (n : IORegistryEntry) (k : String) (h1 : k ≠ "alc-layout-id")
    (h2 : k ≠ "MaximumBootBeepVolume") (h3 : k ≠ "MaximumBootBeepVolumeAlt")
    (h4 : k ≠ "PinConfigurations") :
    (analogProperties host fw n).getProperty k = n.getProperty k := by
  unfold analogProperties
  rw [getProperty_ensureProperty_of_ne _ _ _ _ h4, getProperty_ensureProperty_of_ne _ _ _ _ h3,
    getProperty_ensureProperty_of_ne _ _ _ _ h2, getProperty_refreshAlcLayoutId _ _ _ _ h1]

theorem alc_analogProperties (host : Host) (fw : FirmwareVendor) (n : IORegistryEntry) :
    (analogProperties host fw n).getProperty "alc-layout-id" =
      (refreshAlcLayoutId host fw n).getProperty "alc-layout-id" := by
  unfold analogProperties
  rw [getProperty_ensureProperty_of_ne _ _ _ _ (by decide),
    getProperty_ensureProperty_of_ne _ _ _ _ (by decide),
    getProperty_ensureProperty_of_ne _ _ _ _ (by decide)]

theorem beep_analogProperties (host : Host) (fw : FirmwareVendor) (n : IORegistryEntry) :
    ((analogProperties host fw n).getProperty "MaximumBootBeepVolume").isSome = true ∧
    ((analogProperties host fw n).getProperty "MaximumBootBeepVolumeAlt").isSome = true ∧
    ((analogProperties host fw n).getProperty "PinConfigurations").isSome = true := by
  unfold analogProperties
  refine ⟨?_, ?_, ?_⟩
  · rw [getProperty_ensureProperty_of_ne _ _ _ _ (by decide),
      getProperty_ensureProperty_of_ne _ _ _ _ (by decide)]
    exact isSome_ensureProperty _ _ _
  · rw [getProperty_ensureProperty_of_ne _ _ _ _ (by decide)]
    exact isSome_ensureProperty _ _ _
  · exact isSome_ensureProperty _ _ _

/-- The tail of `updateDeviceProperties` after the analog block: `layout-id`, `hda-gfx`
and `built-in`; properties other than these three pass through. -/
theorem getProperty_update_tail (fw : FirmwareVendor) (r : Nat) (ov : LayoutOverride)
    (n2 : IORegistryEntry) (g : Option String) (k : String) (h1 : k ≠ "layout-id")
    (h2 : k ≠ "hda-gfx") (h3 : k ≠ "built-in") :
    (ensureProperty (passHdaGfx (setReportedLayoutId fw r ov n2).1 g) "built-in"
      [0x00]).getProperty k = n2.getProperty k := by
  rw [getProperty_ensureProperty_of_ne _ _ _ _ h3, getProperty_passHdaGfx _ _ _ h2,
    getProperty_setReportedLayoutId _ _ _ _ _ h1]

theorem layout_update_tail (fw : FirmwareVendor) (r : Nat) (ov : LayoutOverride)
    (n2 : IORegistryEntry) (g : Option String) :
    (ensureProperty (passHdaGfx (setReportedLayoutId fw r ov n2).1 g) "built-in"
      [0x00]).getProperty "layout-id" =
      if fw ≠ FirmwareVendor.Apple ∨ (n2.getProperty "use-apple-layout-id").isSome = true
      then some (OSObject.data (u32Bytes r)) else n2.getProperty "layout-id" := by
  rw [getProperty_ensureProperty_of_ne _ _ _ _ (by decide),
    getProperty_passHdaGfx _ _ _ (by decide)]
  unfold setReportedLayoutId
  split <;> simp

/-- The tail of `updateDeviceProperties` changes nothing on a node it has produced. -/
theorem update_tail_stable (fw : FirmwareVendor) (r : Nat) (ov : LayoutOverride)
    (n2 : IORegistryEntry) (g : Option String) :
    let m := ensureProperty (passHdaGfx (setReportedLayoutId fw r ov n2).1 g) "built-in" [0x00]
    let ov3 := (setReportedLayoutId fw r ov n2).2
    setReportedLayoutId fw r ov3 m = (m, ov3) ∧ passHdaGfx m g = m ∧
      ensureProperty m "built-in" [0x00] = m := by
  intro m ov3
  have huse : m.getProperty "use-apple-layout-id" = n2.getProperty "use-apple-layout-id" :=
    getProperty_update_tail fw r ov n2 g _ (by decide) (by decide) (by decide)
  have hlay := layout_update_tail fw r ov n2 g
  refine ⟨?_, ?_, ?_⟩
  · by_cases hc : fw ≠ FirmwareVendor.Apple ∨
        (n2.getProperty "use-apple-layout-id").isSome = true
    · have hm : m.getProperty "layout-id" = some (OSObject.data (u32Bytes r)) := by
        show (ensureProperty _ _ _).getProperty _ = _
        rw [hlay, if_pos hc]
      have hov : ov3 = { layoutIdIsOverridden := true, layoutIdOverride := r } := by
        show (setReportedLayoutId fw r ov n2).2 = _
        unfold setReportedLayoutId; rw [if_pos hc]
      unfold setReportedLayoutId
      rw [huse, if_pos hc, setProperty_same m _ _ hm, hov]
    · unfold setReportedLayoutId
      rw [huse, if_neg hc]
  · cases g with
    | none => rfl
    | some s =>
      apply setProperty_same
      show (ensureProperty _ _ _).getProperty _ = _
      rw [getProperty_ensureProperty_of_ne _ _ _ _ (by decide)]
      simp [passHdaGfx]
  · exact ensureProperty_stable _ _ _ (isSome_ensureProperty _ _ _)

theorem isSome_getOSDataValue_setProperty (n : IORegistryEntry) (k : String) (v : Nat) :
    (getOSDataValue (n.setProperty k (u32Bytes v)) k).isSome = true := by
  rw [getOSDataValue_setProperty_u32]; rfl

/-- The second run of `refreshAlcLayoutId`: on a node `m` that still has the
`alc-layout-id` left by the first run (on `n1`) and the `layout-id` left by
`setReportedLayoutId`, nothing changes when the legacy fallback is settled. -/
theorem refreshAlcLayoutId_stable (host : Host) (fw : FirmwareVendor) (r : Nat)
    (n1 m : IORegistryEntry)
    (halc : m.getProperty "alc-layout-id" =
      (refreshAlcLayoutId host fw n1).getProperty "alc-layout-id")
    (huse : m.getProperty "use-layout-id" = n1.getProperty "use-layout-id")
    (hlay : m.getProperty "layout-id" =
      if fw ≠ FirmwareVendor.Apple ∨ (n1.getProperty "use-apple-layout-id").isSome = true
      then some (OSObject.data (u32Bytes r)) else n1.getProperty "layout-id")
    (H : LegacyFallbackSettled host fw r n1 true) :
    refreshAlcLayoutId host fw m = m := by
  cases hboot : host.bootArg "alcid" with
  | some l =>
    have h1 : (refreshAlcLayoutId host fw n1).getProperty "alc-layout-id" =
        some (OSObject.data (u32Bytes l)) := by
      simp [refreshAlcLayoutId, hboot]
    rw [h1] at halc
    simp only [refreshAlcLayoutId, hboot]
    exact setProperty_same m _ _ halc
  | none =>
    have H' : (fw = FirmwareVendor.Apple ∧
        ((getOSDataValue n1 "alc-layout-id").isSome = true ∨
          n1.getProperty "use-layout-id" = none ∨
          (getOSDataValue n1 "layout-id").isSome = true ∨
          n1.getProperty "use-apple-layout-id" = none)) ∨
        (fw ≠ FirmwareVendor.Apple ∧
          ((∃ v, getOSDataValue n1 "layout-id" = some v ∧ u32Bytes v = u32Bytes r) ∨
            (getOSDataValue n1 "layout-id" = none ∧
              n1.getProperty "alc-layout-id" = some (OSObject.data (u32Bytes r))))) := by
      rcases H with h | h | h
      · cases h
      · rw [hboot] at h; cases h
      · exact h
    by_cases hfw : fw = FirmwareVendor.Apple
    · -- Apple firmware
      have Hc : (getOSDataValue n1 "alc-layout-id").isSome = true ∨
          n1.getProperty "use-layout-id" = none ∨
          (getOSDataValue n1 "layout-id").isSome = true ∨
          n1.getProperty "use-apple-layout-id" = none := by
        rcases H' with h | h
        · exact h.2
        · exact absurd hfw h.1
      by_cases ha : (getOSDataValue n1 "alc-layout-id").isSome = true
      · -- the first run keeps the node, the second run sees the same property
        have h1 : refreshAlcLayoutId host fw n1 = n1 := by
          simp [refreshAlcLayoutId, hboot, hfw, ha]
        rw [h1] at halc
        have ha' : (getOSDataValue m "alc-layout-id").isSome = true := by
          rw [getOSDataValue_congr n1 m _ halc]; exact ha
        simp [refreshAlcLayoutId, hboot, hfw, ha']
      · by_cases hu : (n1.getProperty "use-layout-id").isSome = true
        · cases hl : getOSDataValue n1 "layout-id" with
          | some v =>
            have h1 : refreshAlcLayoutId host fw n1 =
                n1.setProperty "alc-layout-id" (u32Bytes v) := by
              simp [refreshAlcLayoutId, hboot, hfw, ha, hu, hl]
            rw [h1] at halc
            have ha' : (getOSDataValue m "alc-layout-id").isSome = true := by
              rw [getOSDataValue_congr _ m _ halc]
              exact isSome_getOSDataValue_setProperty _ _ _
            simp [refreshAlcLayoutId, hboot, hfw, ha']
          | none =>
            have h1 : refreshAlcLayoutId host fw n1 = n1 := by
              simp [refreshAlcLayoutId, hboot, hfw, ha, hu, hl]
            rw [h1] at halc
            have ha' : ¬ (getOSDataValue m "alc-layout-id").isSome = true := by
              rw [getOSDataValue_congr n1 m _ halc]; exact ha
            have hnoapple : n1.getProperty "use-apple-layout-id" = none := by
              rcases Hc with h | h | h | h
              · exact absurd h ha
              · rw [h] at hu; cases hu
              · rw [hl] at h; cases h
              · exact h
            have hlay' : m.getProperty "layout-id" = n1.getProperty "layout-id" := by
              rw [hlay, if_neg]
              simp [hfw, hnoapple]
            have hl' : getOSDataValue m "layout-id" = none := by
              rw [getOSDataValue_congr n1 m _ hlay']; exact hl
            simp [refreshAlcLayoutId, hboot, hfw, ha', hl']
        · have h1 : refreshAlcLayoutId host fw n1 = n1 := by
            simp [refreshAlcLayoutId, hboot, hfw, ha, hu]
          rw [h1] at halc
          have ha' : ¬ (getOSDataValue m "alc-layout-id").isSome = true := by
            rw [getOSDataValue_congr n1 m _ halc]; exact ha
          have hu' : ¬ (m.getProperty "use-layout-id").isSome = true := by
            rw [huse]; exact hu
          simp [refreshAlcLayoutId, hboot, hfw, ha', hu']
    · -- other firmware: the second run copies the reported layout id
      have hlay' : m.getProperty "layout-id" = some (OSObject.data (u32Bytes r)) := by
        rw [hlay, if_pos (Or.inl hfw)]
      have hl' : getOSDataValue m "layout-id" = some (r % 4294967296) :=
        getOSDataValue_of_data m _ r hlay'
      have hgoal : m.getProperty "alc-layout-id" = some (OSObject.data (u32Bytes r)) := by
        rcases H' with h | h
        · exact absurd h.1 hfw
        · rcases h.2 with ⟨v, hv, hvr⟩ | ⟨hn, ha⟩
          · have h1 : refreshAlcLayoutId host fw n1 =
                n1.setProperty "alc-layout-id" (u32Bytes v) := by
              simp [refreshAlcLayoutId, hboot, hfw, hv]
            rw [halc, h1, ← hvr]; simp
          · have h1 : refreshAlcLayoutId host fw n1 = n1 := by
              simp [refreshAlcLayoutId, hboot, hfw, hn]
            rw [halc, h1]; exact ha
      simp only [refreshAlcLayoutId, hboot, hfw, false_and, if_false, ne_eq, not_false_eq_true,
        true_or, if_true, hl', u32Bytes_mod]
      exact setProperty_same m _ _ hgoal

/-- When the legacy fallback is settled, a second run of `updateDeviceProperties` changes
nothing: neither the name, nor a property, nor the override members. -/
theorem updateDeviceProperties_twice_eq_of_settled (host : Host) (fw : FirmwareVendor)
    (r : Nat) (ov : LayoutOverride) (n : IORegistryEntry) (g : Option String)
    (isAnalog : Bool) (H : LegacyFallbackSettled host fw r n isAnalog) :
    updateDevicePropertiesTwice host fw r ov n g isAnalog =
      updateDeviceProperties host fw r ov n g isAnalog := by
  unfold updateDevicePropertiesTwice
  -- the node and override after the first run
  have hone : updateDeviceProperties host fw r ov n g isAnalog =
      (ensureProperty (passHdaGfx (setReportedLayoutId fw r ov
          (if isAnalog = true then analogProperties host fw (fixPlaneName host n isAnalog)
           else fixPlaneName host n isAnalog)).1 g) "built-in" [0x00],
        (setReportedLayoutId fw r ov
          (if isAnalog = true then analogProperties host fw (fixPlaneName host n isAnalog)
           else fixPlaneName host n isAnalog)).2) := rfl
  generalize hn2 : (if isAnalog = true then analogProperties host fw (fixPlaneName host n isAnalog)
      else fixPlaneName host n isAnalog) = n2 at hone
  obtain ⟨ht1, ht2, ht3⟩ := update_tail_stable fw r ov n2 g
  generalize hm : ensureProperty (passHdaGfx (setReportedLayoutId fw r ov n2).1 g) "built-in"
      [0x00] = m at hone ht1 ht2 ht3
  have hname2 : n2.name = some (if isAnalog = true then "HDEF" else "HDAU") := by
    rw [← hn2]; cases isAnalog <;> simp [name_fixPlaneName]
  have hname : m.name = some (if isAnalog = true then "HDEF" else "HDAU") := by
    rw [← hm]; simpa using hname2
  have hfix : fixPlaneName host m isAnalog = m := fixPlaneName_stable host m isAnalog hname
  have hanalog : (if isAnalog = true then analogProperties host fw m else m) = m := by
    cases isAnalog with
    | false => rfl
    | true =>
      simp only [if_true] at hn2 ⊢
      have hthrough : ∀ k, k ≠ "layout-id" → k ≠ "hda-gfx" → k ≠ "built-in" →
          m.getProperty k = n2.getProperty k := by
        intro k h1 h2 h3
        rw [← hm]; exact getProperty_update_tail fw r ov n2 g k h1 h2 h3
      have hsettled : LegacyFallbackSettled host fw r (fixPlaneName host n true) true := by
        have hc : ∀ k, k ≠ "compatible" →
            getOSDataValue (fixPlaneName host n true) k = getOSDataValue n k :=
          fun k hk => getOSDataValue_congr _ _ _ (getProperty_fixPlaneName host n true k hk)
        unfold LegacyFallbackSettled at H ⊢
        rw [hc _ (by decide), hc _ (by decide),
          getProperty_fixPlaneName host n true _ (by decide),
          getProperty_fixPlaneName host n true _ (by decide),
          getProperty_fixPlaneName host n true _ (by decide)]
        exact H
      have halc : m.getProperty "alc-layout-id" =
          (refreshAlcLayoutId host fw (fixPlaneName host n true)).getProperty
            "alc-layout-id" := by
        rw [hthrough _ (by decide) (by decide) (by decide), ← hn2, alc_analogProperties]
      have huse : m.getProperty "use-layout-id" =
          (fixPlaneName host n true).getProperty "use-layout-id" := by
        rw [hthrough _ (by decide) (by decide) (by decide), ← hn2,
          getProperty_analogProperties _ _ _ _ (by decide) (by decide) (by decide) (by decide)]
      have hlay : m.getProperty "layout-id" =
          if fw ≠ FirmwareVendor.Apple ∨
            ((fixPlaneName host n true).getProperty "use-apple-layout-id").isSome = true
          then some (OSObject.data (u32Bytes r))
          else (fixPlaneName host n true).getProperty "layout-id" := by
        rw [← hm, layout_update_tail, ← hn2,
          getProperty_analogProperties _ _ _ _ (by decide) (by decide) (by decide) (by decide),
          getProperty_analogProperties _ _ _ _ (by decide) (by decide) (by decide) (by decide)]
      have hrefresh := refreshAlcLayoutId_stable host fw r _ m halc huse hlay hsettled
      obtain ⟨hb1, hb2, hb3⟩ := beep_analogProperties host fw (fixPlaneName host n true)
      rw [hn2] at hb1 hb2 hb3
      rw [← hthrough _ (by decide) (by decide) (by decide)] at hb1 hb2 hb3
      unfold analogProperties
      rw [hrefresh, ensureProperty_stable _ _ _ hb1, ensureProperty_stable _ _ _ hb2,
        ensureProperty_stable _ _ _ hb3]
  rw [hone]
  show (ensureProperty (passHdaGfx (setReportedLayoutId fw r _
      (if isAnalog = true then analogProperties host fw (fixPlaneName host m isAnalog)
       else fixPlaneName host m isAnalog)).1 g) "built-in" [0x00],
    (setReportedLayoutId fw r _
      (if isAnalog = true then analogProperties host fw (fixPlaneName host m isAnalog)
       else fixPlaneName host m isAnalog)).2) = _
  rw [hfix, hanalog, ht1, ht2, ht3]

theorem bitsKept_refl (a : Nat) : BitsKept a a := fun _ h => h

theorem bitsKept_trans {a b c : Nat} (h1 : BitsKept a b) (h2 : BitsKept b c) : BitsKept a c :=
  fun i h => h2 i (h1 i h)

theorem bitsKept_lor (a c : Nat) : BitsKept a (a ||| c) := by
  intro i h; simp [h]

theorem bitsKept_of_eq {a b : Nat} (h : b = a) : BitsKept a b := by
  subst h; exact bitsKept_refl _

@[simp] theorem progressState_insertController (s : AlcEnabler) (ven dev rev : Nat)
    (np : Bool) (pl lid : Nat) (det : Option Nat) :
    (insertController s ven dev rev np pl lid det).progressState = s.progressState := rfl

theorem progressState_grabControllers (P : Params) (ev : KextEvent) (s : AlcEnabler) :
    (grabControllers P ev s).progressState = s.progressState := by
  unfold grabControllers
  simp only
  split <;> (repeat' split) <;> rfl

theorem progressState_grabCodecs (P : Params) (vendorMod : List VendorModInfo) (ev : KextEvent)
    (s : AlcEnabler) : (grabCodecs P vendorMod ev s).1.progressState = s.progressState := rfl

theorem discover_bitsKept (P : Params) (vendorMod : List VendorModInfo) (ev : KextEvent)
    (kextIndex : Nat) (s : AlcEnabler) :
    BitsKept s.progressState (discover P vendorMod ev kextIndex s).progressState := by
  unfold discover
  split
  · simp only [progressState_grabControllers]
    exact bitsKept_lor _ _
  · split
    · simp only
      split
      · simp only [progressState_grabCodecs]
        exact bitsKept_lor _ _
      · exact bitsKept_of_eq (progressState_grabCodecs P vendorMod ev s)
    · exact bitsKept_refl _

theorem progressState_controllersBlock (P : Params) (host : Host) (ev : KextEvent)
    (kextIndex : Nat) (st : AlcEnabler × KernelPatcher) :
    (controllersBlock P host ev kextIndex st).1.progressState = st.1.progressState := by
  unfold controllersBlock
  split <;> rfl

theorem patchCodecs_bitsKept (P : Params) (vendorMod : List VendorModInfo) (host : Host)
    (ev : KextEvent) (codecs : List CodecInfo) (st : Nat × KernelPatcher) :
    BitsKept st.1 (patchCodecs P vendorMod host ev codecs st).1 := by
  induction codecs generalizing st with
  | nil => exact bitsKept_refl _
  | cons c cs ih =>
    simp only [patchCodecs]
    split
    · exact ih st
    · split
      · exact ih st
      · refine bitsKept_trans ?_ (ih _)
        simp only
        split
        · exact bitsKept_lor _ _
        · exact bitsKept_refl _

theorem codecsBlock_bitsKept (P : Params) (vendorMod : List VendorModInfo) (host : Host)
    (ev : KextEvent) (st : AlcEnabler × KernelPatcher) :
    BitsKept st.1.progressState (codecsBlock P vendorMod host ev st).1.progressState := by
  unfold codecsBlock
  split
  · exact patchCodecs_bitsKept P vendorMod host ev st.1.codecs (st.1.progressState, st.2)
  · exact bitsKept_refl _

theorem progressState_routeAppleHDA (P : Params) (host : Host) (ev : KextEvent)
    (kextIndex : Nat) (st : AlcEnabler × KernelPatcher) :
    (routeAppleHDA P host ev kextIndex st).1.progressState = st.1.progressState := by
  unfold routeAppleHDA
  split <;> rfl

theorem routeOnce_bitsKept (P : Params) (ev : KextEvent) (kextIndex : Nat)
    (st : AlcEnabler × KernelPatcher) :
    BitsKept st.1.progressState (routeOnce P ev kextIndex st).1.progressState := by
  unfold routeOnce
  simp only
  have h1 : BitsKept st.1.progressState
      (if st.1.progressState &&& P.PatchHDAFamily = 0 ∧ kextIndex = P.KextIdIOHDAFamily then
        (({ st.1 with progressState := st.1.progressState ||| P.PatchHDAFamily } : AlcEnabler),
          st.2.routeMultiple ev [P.symIOHDACodecDevice_executeVerb])
       else st).1.progressState := by
    split
    · exact bitsKept_lor _ _
    · exact bitsKept_refl _
  generalize (if st.1.progressState &&& P.PatchHDAFamily = 0 ∧ kextIndex = P.KextIdIOHDAFamily
      then (({ st.1 with progressState := st.1.progressState ||| P.PatchHDAFamily } : AlcEnabler),
          st.2.routeMultiple ev [P.symIOHDACodecDevice_executeVerb])
      else st) = st1 at h1 ⊢
  have h2 : BitsKept st1.1.progressState
      (if st1.1.progressState &&& P.PatchHDAController = 0 ∧
          kextIndex = P.KextIdAppleHDAController then
        (({ st1.1 with progressState := st1.1.progressState ||| P.PatchHDAController } :
            AlcEnabler),
          st1.2.routeMultiple ev ["__ZN18AppleHDAController5startEP9IOService"])
       else st1).1.progressState := by
    split
    · exact bitsKept_lor _ _
    · exact bitsKept_refl _
  generalize (if st1.1.progressState &&& P.PatchHDAController = 0 ∧
          kextIndex = P.KextIdAppleHDAController then
        (({ st1.1 with progressState := st1.1.progressState ||| P.PatchHDAController } :
            AlcEnabler),
          st1.2.routeMultiple ev ["__ZN18AppleHDAController5startEP9IOService"])
       else st1) = st2 at h2 ⊢
  refine bitsKept_trans h1 (bitsKept_trans h2 ?_)
  split
  · exact bitsKept_lor _ _
  · exact bitsKept_refl _

theorem processKext_bitsKept (P : Params) (vendorMod : List VendorModInfo) (host : Host)
    (ev : KextEvent) (st : AlcEnabler × KernelPatcher) :
    BitsKept st.1.progressState (processKext P vendorMod host ev st).1.progressState := by
  unfold processKext
  simp only
  generalize findKextIndex ev.index P.kextList 0 = k
  split
  · exact bitsKept_refl _
  · split
    · exact bitsKept_refl _
    · refine bitsKept_trans (discover_bitsKept P vendorMod ev k st.1) ?_
      refine bitsKept_trans (bitsKept_of_eq (progressState_controllersBlock P host ev k
        (discover P vendorMod ev k st.1, st.2))) ?_
      refine bitsKept_trans (codecsBlock_bitsKept P vendorMod host ev _) ?_
      refine bitsKept_trans (bitsKept_of_eq (progressState_routeAppleHDA P host ev k _)) ?_
      exact routeOnce_bitsKept P ev k _

theorem progressState_updateBuiltinDigital (host : Host) (has : Bool) (s : AlcEnabler)
    (d : DeviceInfo) : (updateBuiltinDigital host has s d).1.progressState = s.progressState := by
  unfold updateBuiltinDigital
  split
  · rfl
  · split
    · split
      · simp only
        split <;> rfl
      · rfl
    · rfl

theorem progressState_updateBuiltinAnalog (host : Host) (has : Bool) (s : AlcEnabler)
    (d : DeviceInfo) : (updateBuiltinAnalog host has s d).1.progressState = s.progressState := by
  unfold updateBuiltinAnalog
  split
  · rfl
  · split <;> rfl

theorem progressState_updateBuiltinVideo (has : Bool) (s : AlcEnabler) (d : DeviceInfo) :
    (updateBuiltinVideo has s d).1.progressState = s.progressState := by
  unfold updateBuiltinVideo
  split
  · rfl
  · split
    · simp only
      split
      · split <;> rfl
      · rfl
    · rfl

theorem updateExternalGpu_bitsKept (P : Params) (host : Host) (d : DeviceInfo)
    (before after : List ExternalVideo) (ev : ExternalVideo) (st : GpuLoop) :
    BitsKept st.alc.progressState
      (updateExternalGpu P host d before after ev st).1.alc.progressState := by
  unfold updateExternalGpu
  split
  · exact bitsKept_refl _
  · split
    · simp only
      split_ifs <;> (try split) <;>
        first
        | exact bitsKept_refl _
        | exact bitsKept_lor _ _
    · exact bitsKept_refl _

theorem updateExternalGpus_bitsKept (P : Params) (host : Host) (d : DeviceInfo)
    (done todo : List ExternalVideo) (st : GpuLoop) :
    BitsKept st.alc.progressState
      (updateExternalGpus P host d done todo st).1.alc.progressState := by
  induction todo generalizing done st with
  | nil => exact bitsKept_refl _
  | cons ev rest ih =>
    simp only [updateExternalGpus]
    exact bitsKept_trans (updateExternalGpu_bitsKept P host d done rest ev st) (ih _ _)

theorem updateProperties_bitsKept (P : Params) (host : Host) (devInfo : Option DeviceInfo)
    (s : AlcEnabler) :
    BitsKept s.progressState (updateProperties P host devInfo s).1.progressState := by
  unfold updateProperties
  cases devInfo with
  | none => exact bitsKept_refl _
  | some d0 =>
    simp only
    refine bitsKept_trans ?_ (updateExternalGpus_bitsKept P host _ _ _ _)
    apply bitsKept_of_eq
    simp only [progressState_updateBuiltinVideo, progressState_updateBuiltinAnalog,
      progressState_updateBuiltinDigital]

theorem alcRun_bitsKept (P : Params) (vendorMod : List VendorModInfo) (host : Host)
    (steps : List AlcStep) (st : AlcEnabler × KernelPatcher) :
    BitsKept st.1.progressState (alcRun P vendorMod host steps st).1.progressState := by
  induction steps generalizing st with
  | nil => exact bitsKept_refl _
  | cons step rest ih =>
    simp only [alcRun, List.foldl_cons] at ih ⊢
    refine bitsKept_trans ?_ (ih _)
    cases step with
    | update devInfo => exact updateProperties_bitsKept P host devInfo st.1
    | kext ev => exact processKext_bitsKept P vendorMod host ev st

/-- C4: `progressState` is monotonic: over every sequence of `processKext` events and
`updateProperties` calls, a bit that is set before the sequence is set after it. -/
theorem progressState_monotonic (P : Params) (vendorMod : List VendorModInfo) (host : Host)
    (steps : List AlcStep) (st : AlcEnabler × KernelPatcher) (i : Nat)
    (h : st.1.progressState.testBit i = true) :
    (alcRun P vendorMod host steps st).1.progressState.testBit i = true :=
  alcRun_bitsKept P vendorMod host steps st i h

/-- C4, witness: the bit `ControllersLoaded` of `twoNvidiaState` survives an
`updateProperties` call followed by a module-load event. -/
theorem progressState_monotonic_witness :
    twoNvidiaState.progressState.testBit 0 = true ∧
      (alcRun demoParams [] plainHost [AlcStep.update none, AlcStep.kext controllerKextEvent]
        (twoNvidiaState, freshPatcher)).1.progressState.testBit 0 = true :=
  ⟨by decide, progressState_monotonic demoParams [] plainHost
    [AlcStep.update none, AlcStep.kext controllerKextEvent] (twoNvidiaState, freshPatcher) 0
    (by decide)⟩

theorem poolAdvance_refl (max : Nat) (p : NvidiaPool) : PoolAdvance max p p :=
  ⟨Nat.le_refl _, [], by simp, by simp, by simp⟩

theorem poolAdvance_trans {max : Nat} {p q r : NvidiaPool} (h1 : PoolAdvance max p q)
    (h2 : PoolAdvance max q r) : PoolAdvance max p r := by
  obtain ⟨hc1, n1, ha1, hp1, hb1⟩ := h1
  obtain ⟨hc2, n2, ha2, hp2, hb2⟩ := h2
  refine ⟨Nat.le_trans hc1 hc2, n1 ++ n2, by rw [ha2, ha1, List.append_assoc], ?_, ?_⟩
  · rw [List.map_append, List.pairwise_append]
    refine ⟨hp1, hp2, ?_⟩
    intro x hx y hy
    obtain ⟨a, ha, rfl⟩ := List.mem_map.mp hx
    obtain ⟨b, hb, rfl⟩ := List.mem_map.mp hy
    have := (hb1 a ha).2.1
    have := (hb2 b hb).1
    omega
  · intro a ha
    rcases List.mem_append.mp ha with h | h
    · have := hb1 a h
      exact ⟨this.1, by omega, this.2.2⟩
    · have := hb2 a h
      exact ⟨by omega, this.2.1, this.2.2⟩

theorem nextFreeNvidiaId_some (usage : List Bool) (max fuel cur c idx : Nat)
    (h : nextFreeNvidiaId usage max fuel cur = (c, some idx)) :
    cur ≤ idx ∧ idx < max ∧ c = idx + 1 ∧ usage.getD idx false = false := by
  induction fuel generalizing cur with
  | zero => simp [nextFreeNvidiaId] at h
  | succ fuel ih =>
    simp only [nextFreeNvidiaId] at h
    split at h
    · rename_i hlt
      split at h
      · rename_i hfree
        simp only [Prod.mk.injEq, Option.some.injEq] at h
        obtain ⟨h1, h2⟩ := h
        subst h2
        exact ⟨Nat.le_refl _, hlt, h1.symm, hfree⟩
      · have := ih (cur + 1) h
        exact ⟨by omega, this.2.1, this.2.2.1, this.2.2.2⟩
    · simp at h

theorem nextFreeNvidiaId_none (usage : List Bool) (max fuel cur c : Nat)
    (h : nextFreeNvidiaId usage max fuel cur = (c, none)) : cur ≤ c := by
  induction fuel generalizing cur with
  | zero =>
    simp only [nextFreeNvidiaId, Prod.mk.injEq, and_true] at h
    omega
  | succ fuel ih =>
    simp only [nextFreeNvidiaId] at h
    split at h
    · split at h
      · simp at h
      · have := ih (cur + 1) h
        omega
    · simp only [Prod.mk.injEq, and_true] at h
      omega

theorem nextFreeNvidiaId_exhausted (usage : List Bool) (max fuel cur : Nat) (h : max ≤ cur) :
    nextFreeNvidiaId usage max fuel cur = (cur, none) := by
  cases fuel with
  | zero => rfl
  | succ fuel =>
    simp only [nextFreeNvidiaId]
    rw [if_neg (by omega)]

theorem chooseNvidiaIds_advance (P : Params) (i : Nat) (patches : List KextPatch) (j : Nat)
    (pool : NvidiaPool) :
    PoolAdvance P.MaxNvidiaDeviceIds pool (chooseNvidiaIds P i patches j pool).2 := by
  induction patches generalizing j pool with
  | nil => exact poolAdvance_refl _ _
  | cons kp rest ih =>
    simp only [chooseNvidiaIds]
    split
    · split
      · rename_i current idx hnext
        obtain ⟨h1, h2, h3, -⟩ := nextFreeNvidiaId_some _ _ _ _ _ _ hnext
        refine poolAdvance_trans ?_ (ih (j + 1) _)
        refine ⟨by simp only; omega, [{ controller := i, patch := j, poolIndex := idx }], rfl,
          by simp, ?_⟩
        intro a ha
        simp only [List.mem_singleton] at ha
        subst ha
        exact ⟨h1, by simp only; omega, h2⟩
      · rename_i current hnext
        have h1 := nextFreeNvidiaId_none _ _ _ _ _ hnext
        refine poolAdvance_trans ?_ (ih (j + 1) _)
        exact ⟨h1, [], by simp, by simp, by simp⟩
    · exact ih (j + 1) pool

theorem chooseNvidiaIds_exhausted (P : Params) (i : Nat) (patches : List KextPatch) (j : Nat)
    (pool : NvidiaPool) (h : P.MaxNvidiaDeviceIds ≤ pool.current) :
    chooseNvidiaIds P i patches j pool = (patches, pool) := by
  induction patches generalizing j with
  | nil => rfl
  | cons kp rest ih =>
    simp only [chooseNvidiaIds]
    split
    · rw [nextFreeNvidiaId_exhausted _ _ _ _ h]
      simp only
      rw [ih (j + 1)]
    · rw [ih (j + 1)]

theorem set_of_getElem? {α : Type} (l : List α) (n : Nat) (a : α) (h : l[n]? = some a) :
    l.set n a = l := by
  induction l generalizing n with
  | nil => rfl
  | cons x xs ih =>
    cases n with
    | zero => simp at h; subst h; rfl
    | succ n => simp at h; simp [ih n h]

theorem patchControllers_cons_none (P : Params) (host : Host) (ev : KextEvent)
    (c : ControllerInfo) (rest : List ControllerInfo) (i : Nat) (st : ControllerPatching)
    (hci : c.info = none) :
    patchControllers P host ev (c :: rest) i st = patchControllers P host ev rest (i + 1) st := by
  simp only [patchControllers, hci]

theorem patchControllers_cons_dangling (P : Params) (host : Host) (ev : KextEvent)
    (c : ControllerInfo) (rest : List ControllerInfo) (i : Nat) (st : ControllerPatching)
    (mod : Nat) (hci : c.info = some mod) (hm : st.controllerMod[mod]? = none) :
    patchControllers P host ev (c :: rest) i st = patchControllers P host ev rest (i + 1) st := by
  simp only [patchControllers, hci, hm]

theorem patchControllers_cons_some (P : Params) (host : Host) (ev : KextEvent)
    (c : ControllerInfo) (rest : List ControllerInfo) (i : Nat) (st : ControllerPatching)
    (mod : Nat) (info : ControllerModInfo) (hci : c.info = some mod)
    (hm : st.controllerMod[mod]? = some info) :
    patchControllers P host ev (c :: rest) i st =
      patchControllers P host ev rest (i + 1)
        { controllerMod := st.controllerMod.set mod
            { info with patches :=
                (if info.vendor = VendorIDNVIDIA then chooseNvidiaIds P i info.patches 0 st.pool
                 else (info.patches, st.pool)).1 }
          pool := (if info.vendor = VendorIDNVIDIA then chooseNvidiaIds P i info.patches 0 st.pool
                 else (info.patches, st.pool)).2
          patcher := if c.nopatch = true then st.patcher
            else applyPatches host ev ev.index
              (if info.vendor = VendorIDNVIDIA then chooseNvidiaIds P i info.patches 0 st.pool
                 else (info.patches, st.pool)).1 st.patcher } := by
  simp only [patchControllers, hci, hm]
  split <;> rfl

theorem patchControllers_advance (P : Params) (host : Host) (ev : KextEvent)
    (cs : List ControllerInfo) (i : Nat) (st : ControllerPatching) :
    PoolAdvance P.MaxNvidiaDeviceIds st.pool (patchControllers P host ev cs i st).pool := by
  induction cs generalizing i st with
  | nil => exact poolAdvance_refl _ _
  | cons c rest ih =>
    cases hci : c.info with
    | none => rw [patchControllers_cons_none P host ev c rest i st hci]; exact ih (i + 1) st
    | some mod =>
      cases hm : st.controllerMod[mod]? with
      | none =>
        rw [patchControllers_cons_dangling P host ev c rest i st mod hci hm]; exact ih (i + 1) st
      | some info =>
        rw [patchControllers_cons_some P host ev c rest i st mod info hci hm]
        have hstep : PoolAdvance P.MaxNvidiaDeviceIds st.pool
            (if info.vendor = VendorIDNVIDIA then chooseNvidiaIds P i info.patches 0 st.pool
             else (info.patches, st.pool)).2 := by
          split
          · exact chooseNvidiaIds_advance P i info.patches 0 st.pool
          · exact poolAdvance_refl _ _
        exact poolAdvance_trans hstep (ih (i + 1) ⟨_, _, _⟩)

theorem patchControllers_exhausted (P : Params) (host : Host) (ev : KextEvent)
    (cs : List ControllerInfo) (i : Nat) (st : ControllerPatching)
    (h : P.MaxNvidiaDeviceIds ≤ st.pool.current) :
    (patchControllers P host ev cs i st).pool = st.pool ∧
      (patchControllers P host ev cs i st).controllerMod = st.controllerMod := by
  induction cs generalizing i st with
  | nil => exact ⟨rfl, rfl⟩
  | cons c rest ih =>
    cases hci : c.info with
    | none => rw [patchControllers_cons_none P host ev c rest i st hci]; exact ih (i + 1) st h
    | some mod =>
      cases hm : st.controllerMod[mod]? with
      | none =>
        rw [patchControllers_cons_dangling P host ev c rest i st mod hci hm]
        exact ih (i + 1) st h
      | some info =>
        rw [patchControllers_cons_some P host ev c rest i st mod info hci hm]
        have hsame : (if info.vendor = VendorIDNVIDIA then
            chooseNvidiaIds P i info.patches 0 st.pool else (info.patches, st.pool)) =
            (info.patches, st.pool) := by
          split
          · exact chooseNvidiaIds_exhausted P i info.patches 0 st.pool h
          · rfl
        rw [hsame]
        have hset : st.controllerMod.set mod { info with patches := info.patches } =
            st.controllerMod := set_of_getElem? _ _ _ hm
        simp only [hset]
        exact ih (i + 1) ⟨_, _, _⟩ h

theorem grabControllers_frame (P : Params) (ev : KextEvent) (s : AlcEnabler) :
    (grabControllers P ev s).pool = s.pool ∧
      (grabControllers P ev s).controllerMod = s.controllerMod := by
  unfold grabControllers
  simp only
  split <;> (repeat' split) <;> exact ⟨rfl, rfl⟩

theorem discover_frame (P : Params) (vendorMod : List VendorModInfo) (ev : KextEvent)
    (kextIndex : Nat) (s : AlcEnabler) :
    (discover P vendorMod ev kextIndex s).pool = s.pool ∧
      (discover P vendorMod ev kextIndex s).controllerMod = s.controllerMod := by
  unfold discover
  split
  · exact grabControllers_frame P ev s
  · split
    · simp only
      split <;> exact ⟨rfl, rfl⟩
    · exact ⟨rfl, rfl⟩

theorem controllersBlock_pool (P : Params) (host : Host) (ev : KextEvent) (kextIndex : Nat)
    (st : AlcEnabler × KernelPatcher) :
    PoolAdvance P.MaxNvidiaDeviceIds st.1.pool (controllersBlock P host ev kextIndex st).1.pool := by
  unfold controllersBlock
  split
  · exact patchControllers_advance P host ev st.1.controllers 0 ⟨_, _, _⟩
  · exact poolAdvance_refl _ _

theorem controllersBlock_exhausted (P : Params) (host : Host) (ev : KextEvent)
    (kextIndex : Nat) (st : AlcEnabler × KernelPatcher)
    (h : P.MaxNvidiaDeviceIds ≤ st.1.currentFreeNvidiaDeviceId) :
    (controllersBlock P host ev kextIndex st).1.pool = st.1.pool ∧
      (controllersBlock P host ev kextIndex st).1.controllerMod = st.1.controllerMod := by
  unfold controllersBlock
  split
  · obtain ⟨h1, h2⟩ := patchControllers_exhausted P host ev st.1.controllers 0
      ⟨st.1.controllerMod, st.1.pool, st.2⟩ h
    exact ⟨h1, h2⟩
  · exact ⟨rfl, rfl⟩

theorem codecsBlock_frame (P : Params) (vendorMod : List VendorModInfo) (host : Host)
    (ev : KextEvent) (st : AlcEnabler × KernelPatcher) :
    (codecsBlock P vendorMod host ev st).1.pool = st.1.pool ∧
      (codecsBlock P vendorMod host ev st).1.controllerMod = st.1.controllerMod := by
  unfold codecsBlock
  split <;> exact ⟨rfl, rfl⟩

theorem routeAppleHDA_frame (P : Params) (host : Host) (ev : KextEvent) (kextIndex : Nat)
    (st : AlcEnabler × KernelPatcher) :
    (routeAppleHDA P host ev kextIndex st).1.pool = st.1.pool ∧
      (routeAppleHDA P host ev kextIndex st).1.controllerMod = st.1.controllerMod := by
  unfold routeAppleHDA
  split <;> exact ⟨rfl, rfl⟩

theorem routeOnce_frame (P : Params) (ev : KextEvent) (kextIndex : Nat)
    (st : AlcEnabler × KernelPatcher) :
    (routeOnce P ev kextIndex st).1.pool = st.1.pool ∧
      (routeOnce P ev kextIndex st).1.controllerMod = st.1.controllerMod := by
  unfold routeOnce
  simp only
  split_ifs <;> exact ⟨rfl, rfl⟩

/-- After the controllers block, the rest of `processKext` leaves the pool and the
controller fact table alone. -/
theorem processKext_tail_frame (P : Params) (vendorMod : List VendorModInfo) (host : Host)
    (ev : KextEvent) (k : Nat) (st2 : AlcEnabler × KernelPatcher) :
    (routeOnce P ev k (routeAppleHDA P host ev k (codecsBlock P vendorMod host ev st2))).1.pool =
        st2.1.pool ∧
      (routeOnce P ev k (routeAppleHDA P host ev k
        (codecsBlock P vendorMod host ev st2))).1.controllerMod = st2.1.controllerMod := by
  obtain ⟨a1, a2⟩ := codecsBlock_frame P vendorMod host ev st2
  obtain ⟨b1, b2⟩ := routeAppleHDA_frame P host ev k (codecsBlock P vendorMod host ev st2)
  obtain ⟨c1, c2⟩ := routeOnce_frame P ev k
    (routeAppleHDA P host ev k (codecsBlock P vendorMod host ev st2))
  exact ⟨by rw [c1, b1, a1], by rw [c2, b2, a2]⟩

theorem processKext_pool (P : Params) (vendorMod : List VendorModInfo) (host : Host)
    (ev : KextEvent) (st : AlcEnabler × KernelPatcher) :
    PoolAdvance P.MaxNvidiaDeviceIds st.1.pool (processKext P vendorMod host ev st).1.pool := by
  unfold processKext
  simp only
  generalize findKextIndex ev.index P.kextList 0 = k
  split
  · exact poolAdvance_refl _ _
  · split
    · exact poolAdvance_refl _ _
    · rw [(processKext_tail_frame P vendorMod host ev k _).1]
      have h := controllersBlock_pool P host ev k (discover P vendorMod ev k st.1, st.2)
      rw [(discover_frame P vendorMod ev k st.1).1] at h
      exact h

theorem processKext_exhausted (P : Params) (vendorMod : List VendorModInfo) (host : Host)
    (ev : KextEvent) (st : AlcEnabler × KernelPatcher)
    (h : P.MaxNvidiaDeviceIds ≤ st.1.currentFreeNvidiaDeviceId) :
    (processKext P vendorMod host ev st).1.pool = st.1.pool ∧
      (processKext P vendorMod host ev st).1.controllerMod = st.1.controllerMod := by
  unfold processKext
  simp only
  generalize findKextIndex ev.index P.kextList 0 = k
  split
  · exact ⟨rfl, rfl⟩
  · split
    · exact ⟨rfl, rfl⟩
    · obtain ⟨t1, t2⟩ := processKext_tail_frame P vendorMod host ev k
        (controllersBlock P host ev k (discover P vendorMod ev k st.1, st.2))
      obtain ⟨d1, d2⟩ := discover_frame P vendorMod ev k st.1
      have hcur : P.MaxNvidiaDeviceIds ≤
          (discover P vendorMod ev k st.1, st.2).1.currentFreeNvidiaDeviceId := by
        have : (discover P vendorMod ev k st.1).currentFreeNvidiaDeviceId =
            st.1.currentFreeNvidiaDeviceId := congrArg NvidiaPool.current d1
        show P.MaxNvidiaDeviceIds ≤ (discover P vendorMod ev k st.1).currentFreeNvidiaDeviceId
        rw [this]; exact h
      obtain ⟨c1, c2⟩ := controllersBlock_exhausted P host ev k
        (discover P vendorMod ev k st.1, st.2) hcur
      exact ⟨by rw [t1, c1, d1], by rw [t2, c2, d2]⟩

theorem processKexts_pool (P : Params) (vendorMod : List VendorModInfo) (host : Host)
    (events : List KextEvent) (st : AlcEnabler × KernelPatcher) :
    PoolAdvance P.MaxNvidiaDeviceIds st.1.pool
      (processKexts P vendorMod host events st).1.pool := by
  induction events generalizing st with
  | nil => exact poolAdvance_refl _ _
  | cons ev rest ih =>
    simp only [processKexts, List.foldl_cons] at ih ⊢
    exact poolAdvance_trans (processKext_pool P vendorMod host ev st) (ih _)

theorem processKexts_exhausted (P : Params) (vendorMod : List VendorModInfo) (host : Host)
    (events : List KextEvent) (st : AlcEnabler × KernelPatcher)
    (h : P.MaxNvidiaDeviceIds ≤ st.1.currentFreeNvidiaDeviceId) :
    (processKexts P vendorMod host events st).1.pool = st.1.pool ∧
      (processKexts P vendorMod host events st).1.controllerMod = st.1.controllerMod := by
  induction events generalizing st with
  | nil => exact ⟨rfl, rfl⟩
  | cons ev rest ih =>
    simp only [processKexts, List.foldl_cons] at ih ⊢
    obtain ⟨h1, h2⟩ := processKext_exhausted P vendorMod host ev st h
    have hcur : P.MaxNvidiaDeviceIds ≤
        (processKext P vendorMod host ev st).1.currentFreeNvidiaDeviceId := by
      have : (processKext P vendorMod host ev st).1.currentFreeNvidiaDeviceId =
          st.1.currentFreeNvidiaDeviceId := congrArg NvidiaPool.current h1
      rw [this]; exact h
    obtain ⟨i1, i2⟩ := ih _ hcur
    exact ⟨by rw [i1, h1], by rw [i2, h2]⟩

/-- C5: over every sequence of `processKext` events the substitutions made during the
sequence get strictly increasing, hence pairwise distinct, pool indices, all inside the
pool and at or after the cursor the sequence started with; the cursor
`currentFreeNvidiaDeviceId` never moves back; and once it has reached
`MaxNvidiaDeviceIds` no substitution happens: the log, the usage marks, the cursor and
the fact table with its sentinel patterns stay as they are. -/
theorem nvidia_pool_injective (P : Params) (vendorMod : List VendorModInfo) (host : Host)
    (events : List KextEvent) (st : AlcEnabler × KernelPatcher) :
    (∃ new, (processKexts P vendorMod host events st).1.nvidiaAssigned =
        st.1.nvidiaAssigned ++ new ∧
      (new.map fun a => a.poolIndex).Pairwise (fun x y => x < y) ∧
      (new.map fun a => a.poolIndex).Nodup ∧
      ∀ a ∈ new, st.1.currentFreeNvidiaDeviceId ≤ a.poolIndex ∧
        a.poolIndex < (processKexts P vendorMod host events st).1.currentFreeNvidiaDeviceId ∧
        a.poolIndex < P.MaxNvidiaDeviceIds) ∧
    st.1.currentFreeNvidiaDeviceId ≤
      (processKexts P vendorMod host events st).1.currentFreeNvidiaDeviceId ∧
    (P.MaxNvidiaDeviceIds ≤ st.1.currentFreeNvidiaDeviceId →
      (processKexts P vendorMod host events st).1.nvidiaAssigned = st.1.nvidiaAssigned ∧
      (processKexts P vendorMod host events st).1.nvidiaDeviceIdUsage =
        st.1.nvidiaDeviceIdUsage ∧
      (processKexts P vendorMod host events st).1.currentFreeNvidiaDeviceId =
        st.1.currentFreeNvidiaDeviceId ∧
      (processKexts P vendorMod host events st).1.controllerMod = st.1.controllerMod) := by
  obtain ⟨hcur, new, hnew, hpair, hbound⟩ := processKexts_pool P vendorMod host events st
  refine ⟨⟨new, hnew, hpair, ?_, hbound⟩, hcur, ?_⟩
  · exact hpair.imp (fun h => Nat.ne_of_lt h)
  · intro h
    obtain ⟨h1, h2⟩ := processKexts_exhausted P vendorMod host events st h
    have ha := congrArg NvidiaPool.assigned h1
    have hu := congrArg NvidiaPool.usage h1
    have hc := congrArg NvidiaPool.current h1
    exact ⟨ha, hu, hc, h2⟩

theorem land_ne_zero_of_bitsKept {a b c : Nat} (h : BitsKept a b) (ha : a &&& c ≠ 0) :
    b &&& c ≠ 0 := by
  obtain ⟨i, hi⟩ := Nat.ne_zero_implies_bit_true ha
  simp only [Nat.testBit_and, Bool.and_eq_true] at hi
  intro hb
  have : (b &&& c).testBit i = true := by
    simp only [Nat.testBit_and, Bool.and_eq_true]
    exact ⟨h i hi.1, hi.2⟩
  rw [hb] at this
  simp at this

theorem land_self_lor_ne_zero (a c : Nat) (hc : c ≠ 0) : (a ||| c) &&& c ≠ 0 := by
  obtain ⟨i, hi⟩ := Nat.ne_zero_implies_bit_true hc
  intro h
  have : ((a ||| c) &&& c).testBit i = true := by
    simp [Nat.testBit_and, Nat.testBit_or, hi]
  rw [h] at this
  simp at this

theorem discover_sets_controllers (P : Params) (vendorMod : List VendorModInfo)
    (ev : KextEvent) (kextIndex : Nat) (s : AlcEnabler) (hflag : P.ControllersLoaded ≠ 0) :
    (discover P vendorMod ev kextIndex s).progressState &&& P.ControllersLoaded ≠ 0 := by
  by_cases h : s.progressState &&& P.ControllersLoaded = 0
  · unfold discover
    rw [if_pos h]
    exact land_self_lor_ne_zero _ _ hflag
  · exact land_ne_zero_of_bitsKept (discover_bitsKept P vendorMod ev kextIndex s) h

/-- C10, counterexample: without built-in digital audio, two external NVIDIA GPUs get
`hda-gfx` "onboard-1" and "onboard-2" (audio and video function alike), not "onboard-2"
and "onboard-3". -/
theorem external_gpus_start_at_onboard_1 :
    hasBuiltinDigitalAudio twoExternalGpus = false ∧
      audioHdaGfx (updateProperties demoParams plainHost (some twoExternalGpus)
        (initialAlcEnabler [] 3)).2.1 0 = some (OSObject.data (cString "onboard-1")) ∧
      videoHdaGfx (updateProperties demoParams plainHost (some twoExternalGpus)
        (initialAlcEnabler [] 3)).2.1 0 = some (OSObject.data (cString "onboard-1")) ∧
      audioHdaGfx (updateProperties demoParams plainHost (some twoExternalGpus)
        (initialAlcEnabler [] 3)).2.1 1 = some (OSObject.data (cString "onboard-2")) ∧
      videoHdaGfx (updateProperties demoParams plainHost (some twoExternalGpus)
        (initialAlcEnabler [] 3)).2.1 1 = some (OSObject.data (cString "onboard-2")) := by
  decide

theorem hdaGfx_updateDeviceProperties (host : Host) (fw : FirmwareVendor) (r : Nat)
    (ov : LayoutOverride) (n : IORegistryEntry) (g : String) (isAnalog : Bool) :
    (updateDeviceProperties host fw r ov n (some g) isAnalog).1.getProperty "hda-gfx" =
      some (OSObject.data (cString g)) := by
  unfold updateDeviceProperties
  simp only
  rw [getProperty_ensureProperty_of_ne _ _ _ _ (by decide)]
  simp [passHdaGfx]

theorem connectorTypeKey_ne_hdaGfx (i : Nat) : "hda-gfx" ≠ connectorTypeKey i := by
  intro h
  have hd := congrArg String.data h
  simp [connectorTypeKey, String.data_append] at hd

theorem hdaGfx_fixConnectorTypes (gpu : IORegistryEntry) (remaining i : Nat) :
    (fixConnectorTypes gpu remaining i).getProperty "hda-gfx" = gpu.getProperty "hda-gfx" := by
  induction remaining generalizing gpu i with
  | zero => rfl
  | succ remaining ih =>
    simp only [fixConnectorTypes]
    split
    · rw [ih]
      simp [connectorTypeKey_ne_hdaGfx i]
    · rfl

theorem onboardName_congr (a b : Nat) (h : a % 4294967296 = b % 4294967296) :
    onboardName a = onboardName b := by
  unfold onboardName; rw [h]

theorem updateExternalGpu_skip (P : Params) (host : Host) (d : DeviceInfo)
    (before after : List ExternalVideo) (ev : ExternalVideo) (st : GpuLoop)
    (h : ev.eligible = false) : updateExternalGpu P host d before after ev st = (st, ev) := by
  unfold updateExternalGpu
  unfold ExternalVideo.eligible at h
  cases ha : ev.audio with
  | none => rfl
  | some a =>
    simp only [ha] at h
    simp [h]

theorem updateExternalGpu_eligible (P : Params) (host : Host) (d : DeviceInfo)
    (before after : List ExternalVideo) (ev : ExternalVideo) (st : GpuLoop)
    (h : ev.eligible = true) :
    (updateExternalGpu P host d before after ev st).1.hdaGfxCounter =
        (st.hdaGfxCounter + 1) % 4294967296 ∧
      (∃ a', (updateExternalGpu P host d before after ev st).2.audio = some a' ∧
        a'.getProperty "hda-gfx" =
          some (OSObject.data (cString (onboardName st.hdaGfxCounter)))) ∧
      (updateExternalGpu P host d before after ev st).2.video.getProperty "hda-gfx" =
        some (OSObject.data (cString (onboardName st.hdaGfxCounter))) := by
  unfold updateExternalGpu
  unfold ExternalVideo.eligible at h
  cases ha : ev.audio with
  | none => simp [ha] at h
  | some a =>
    simp only [ha] at h
    simp only [h, if_true]
    refine ⟨?_, ⟨_, rfl, hdaGfx_updateDeviceProperties _ _ _ _ _ _ _⟩, ?_⟩
    · trivial
    · split
      · rw [hdaGfx_fixConnectorTypes]; simp
      · simp

theorem updateExternalGpus_done_kept (P : Params) (host : Host) (d : DeviceInfo)
    (done todo : List ExternalVideo) (st : GpuLoop) (i : Nat) (hi : i < done.length) :
    (updateExternalGpus P host d done todo st).2[i]? = done[i]? := by
  induction todo generalizing done st with
  | nil => rfl
  | cons ev rest ih =>
    simp only [updateExternalGpus]
    rw [ih _ _ (by simp; omega), List.getElem?_append_left hi]

theorem eligibleBefore_cons_succ (ev : ExternalVideo) (rest : List ExternalVideo) (g : Nat) :
    eligibleBefore (ev :: rest) (g + 1) =
      (if ev.eligible = true then 1 else 0) + eligibleBefore rest g := by
  unfold eligibleBefore
  simp only [List.take_succ_cons, List.filter_cons]
  split
  · simp; omega
  · simp

theorem updateExternalGpus_names (P : Params) (host : Host) (d : DeviceInfo)
    (done todo : List ExternalVideo) (st : GpuLoop) (g : Nat) (ev : ExternalVideo)
    (hg : todo[g]? = some ev) (he : ev.eligible = true) :
    ∃ ev', (updateExternalGpus P host d done todo st).2[done.length + g]? = some ev' ∧
      (∃ a', ev'.audio = some a' ∧ a'.getProperty "hda-gfx" =
        some (OSObject.data (cString (onboardName (st.hdaGfxCounter + eligibleBefore todo g))))) ∧
      ev'.video.getProperty "hda-gfx" =
        some (OSObject.data (cString (onboardName (st.hdaGfxCounter + eligibleBefore todo g)))) := by
  induction todo generalizing done st g with
  | nil => simp at hg
  | cons e rest ih =>
    simp only [updateExternalGpus]
    cases g with
    | zero =>
      simp only [List.getElem?_cons_zero, Option.some.injEq] at hg
      subst hg
      obtain ⟨-, haud, hvid⟩ := updateExternalGpu_eligible P host d done rest e st he
      refine ⟨(updateExternalGpu P host d done rest e st).2, ?_, ?_, ?_⟩
      · rw [updateExternalGpus_done_kept _ _ _ _ _ _ _ (by simp)]
        simp
      · simpa [eligibleBefore] using haud
      · simpa [eligibleBefore] using hvid
    | succ g =>
      simp only [List.getElem?_cons_succ] at hg
      obtain ⟨ev', h1, h2, h3⟩ := ih (done ++ [(updateExternalGpu P host d done rest e st).2])
        (updateExternalGpu P host d done rest e st).1 g hg
      have hname : onboardName ((updateExternalGpu P host d done rest e st).1.hdaGfxCounter +
          eligibleBefore rest g) =
          onboardName (st.hdaGfxCounter + eligibleBefore (e :: rest) (g + 1)) := by
        apply onboardName_congr
        rw [eligibleBefore_cons_succ]
        by_cases hel : e.eligible = true
        · rw [(updateExternalGpu_eligible P host d done rest e st hel).1, if_pos hel]
          omega
        · have hel' : e.eligible = false := by simpa using hel
          rw [updateExternalGpu_skip P host d done rest e st hel', if_neg hel]
          simp
      rw [hname] at h2 h3
      have hidx : (done ++ [(updateExternalGpu P host d done rest e st).2]).length + g =
          done.length + (g + 1) := by
        rw [List.length_append, List.length_singleton]; omega
      rw [hidx] at h1
      exact ⟨ev', h1, h2, h3⟩

theorem videoExternal_updateBuiltin (host : Host) (has : Bool) (s : AlcEnabler)
    (d : DeviceInfo) :
    (updateBuiltinVideo has
      (updateBuiltinAnalog host has (updateBuiltinDigital host has s d).1
        (updateBuiltinDigital host has s d).2.1).1
      (updateBuiltinAnalog host has (updateBuiltinDigital host has s d).1
        (updateBuiltinDigital host has s d).2.1).2.1).2.videoExternal = d.videoExternal := by
  have h1 : (updateBuiltinDigital host has s d).2.1.videoExternal = d.videoExternal := by
    unfold updateBuiltinDigital
    split
    · rfl
    · split
      · split <;> rfl
      · rfl
  have h2 : ∀ s' d', (updateBuiltinAnalog host has s' d').2.1.videoExternal =
      d'.videoExternal := by
    intro s' d'
    unfold updateBuiltinAnalog
    split
    · rfl
    · split <;> rfl
  have h3 : ∀ s' d', (updateBuiltinVideo has s' d').2.videoExternal = d'.videoExternal := by
    intro s' d'
    unfold updateBuiltinVideo
    split
    · rfl
    · split <;> rfl
  rw [h3, h2, h1]

/-- C10, amended: the external GPU at position `g` of the enumeration, when its audio
function is present and injectable, has the `hda-gfx` of its audio function and of its
video function set to the text `onboardName (c + b)`, that is "onboard-(c+b)", where `b`
is the number of counted GPUs before it and `c` is 1 without built-in digital audio and 2
with it: without built-in digital audio the k-th counted GPU receives "onboard-k". -/
theorem external_gpu_port_names (P : Params) (host : Host) (d0 : DeviceInfo) (s : AlcEnabler)
    (g : Nat) (ev : ExternalVideo) (hg : d0.videoExternal[g]? = some ev)
    (he : ev.eligible = true) :
    audioHdaGfx (updateProperties P host (some d0) s).2.1 g =
        some (OSObject.data (cString (onboardName
          ((if hasBuiltinDigitalAudio d0 = true then 2 else 1) +
            eligibleBefore d0.videoExternal g)))) ∧
      videoHdaGfx (updateProperties P host (some d0) s).2.1 g =
        some (OSObject.data (cString (onboardName
          ((if hasBuiltinDigitalAudio d0 = true then 2 else 1) +
            eligibleBefore d0.videoExternal g)))) := by
  unfold updateProperties
  simp only
  have hve := videoExternal_updateBuiltin host (hasBuiltinDigitalAudio d0) s d0
  rw [hve]
  obtain ⟨ev', h1, ⟨a', ha', hprop⟩, hvid⟩ := updateExternalGpus_names P host
    (updateBuiltinVideo (hasBuiltinDigitalAudio d0)
      (updateBuiltinAnalog host (hasBuiltinDigitalAudio d0)
        (updateBuiltinDigital host (hasBuiltinDigitalAudio d0) s d0).1
        (updateBuiltinDigital host (hasBuiltinDigitalAudio d0) s d0).2.1).1
      (updateBuiltinAnalog host (hasBuiltinDigitalAudio d0)
        (updateBuiltinDigital host (hasBuiltinDigitalAudio d0) s d0).1
        (updateBuiltinDigital host (hasBuiltinDigitalAudio d0) s d0).2.1).2.1).2
    [] d0.videoExternal
    { alc := (updateBuiltinVideo (hasBuiltinDigitalAudio d0)
        (updateBuiltinAnalog host (hasBuiltinDigitalAudio d0)
          (updateBuiltinDigital host (hasBuiltinDigitalAudio d0) s d0).1
          (updateBuiltinDigital host (hasBuiltinDigitalAudio d0) s d0).2.1).1
        (updateBuiltinAnalog host (hasBuiltinDigitalAudio d0)
          (updateBuiltinDigital host (hasBuiltinDigitalAudio d0) s d0).1
          (updateBuiltinDigital host (hasBuiltinDigitalAudio d0) s d0).2.1).2.1).1,
      hdaGfxCounter := if hasBuiltinDigitalAudio d0 = true then 2 else 1 } g ev hg he
  simp only [List.length_nil, Nat.zero_add] at h1
  constructor
  · simp only [audioHdaGfx, h1, ha']
    exact hprop
  · simp only [videoHdaGfx, h1]
    exact hvid

/-- C1, witness: the controller 8086:293E revision 3 against a table whose entry has an
empty revision set. -/
theorem validateControllers_first_match_witness :
    [ich9Controller][0]? = some ich9Controller ∧
    ∃ K', (validateControllers demoParams intelControllerMod 1 [ich9Controller])[0]? = some K' ∧
      (K'.vendor = ich9Controller.vendor ∧ K'.device = ich9Controller.device ∧
        K'.revision = ich9Controller.revision ∧ K'.platform = ich9Controller.platform) ∧
      ((∃ mod e, intelControllerMod[mod]? = some e ∧
          ControllerEntryMatches demoParams 1 ich9Controller e ∧
          (∀ j e', j < mod → intelControllerMod[j]? = some e' →
            ¬ ControllerEntryMatches demoParams 1 ich9Controller e') ∧
          K'.info = some mod) ∨
       ((∀ e ∈ intelControllerMod, ¬ ControllerEntryMatches demoParams 1 ich9Controller e) ∧
          K'.info = ich9Controller.info ∧ (ich9Controller.info = none → K'.info = none))) :=
  ⟨rfl, validateControllers_first_match demoParams intelControllerMod 1 [ich9Controller] 0
    ich9Controller rfl⟩

/-- C5, witness: with the cursor at `MaxNvidiaDeviceIds`, a module-load event makes no
substitution and leaves the fact table as it is. -/
theorem nvidia_pool_injective_witness :
    demoParams.MaxNvidiaDeviceIds ≤ exhaustedNvidiaState.currentFreeNvidiaDeviceId ∧
      (processKexts demoParams [] plainHost [controllerKextEvent]
        (exhaustedNvidiaState, freshPatcher)).1.nvidiaAssigned =
        exhaustedNvidiaState.nvidiaAssigned ∧
      (processKexts demoParams [] plainHost [controllerKextEvent]
        (exhaustedNvidiaState, freshPatcher)).1.controllerMod =
        exhaustedNvidiaState.controllerMod :=
  ⟨by decide,
    ((nvidia_pool_injective demoParams [] plainHost [controllerKextEvent]
      (exhaustedNvidiaState, freshPatcher)).2.2 (by decide)).1,
    ((nvidia_pool_injective demoParams [] plainHost [controllerKextEvent]
      (exhaustedNvidiaState, freshPatcher)).2.2 (by decide)).2.2.2⟩

theorem twoCodecRegistry_wf : RegistryWF twoCodecTable oneControllerRegistry twoCodecRegistry := by
  intro c hc
  simp only [twoCodecRegistry, List.mem_cons, List.mem_singleton, List.not_mem_nil,
    or_false] at hc
  rcases hc with rfl | rfl
  · exact ⟨by decide, fun ref h => by cases h; rfl⟩
  · exact ⟨by decide, fun ref h => by cases h; rfl⟩

theorem twoCodecRegistry_no_platform (c : CodecInfo) (hc : c ∈ twoCodecRegistry)
    (fi : CodecFile) :
    ¬ ResourceFileMatches twoCodecTable (fun _ _ => true) oneControllerRegistry
      Resource.Platform c fi := by
  simp only [twoCodecRegistry, List.mem_cons, List.mem_singleton, List.not_mem_nil,
    or_false] at hc
  rintro ⟨ref, info, files, ctl, hci, hmi, hf, -⟩
  rcases hc with rfl | rfl
  · cases hci
    simp only [codecModInfoAt, twoCodecTable, List.getElem?_cons_zero, Option.some.injEq] at hmi
    subst hmi
    simp [resourceFiles] at hf
  · cases hci
    simp only [codecModInfoAt, twoCodecTable, List.getElem?_cons_zero, List.getElem?_cons_succ,
      Option.some.injEq] at hmi
    subst hmi
    simp [resourceFiles] at hf

/-- C8, witness: a platform request against codecs that only carry layout files. -/
theorem updateResource_pass_through_witness :
    RegistryWF twoCodecTable oneControllerRegistry twoCodecRegistry ∧
      updateResource twoCodecTable (fun _ _ => true) (fun _ _ _ => none) true
        oneControllerRegistry Resource.Platform twoCodecRegistry failedReply = some failedReply ∧
      (Resource.Platform = Resource.Layout →
        layoutLoadCallback twoCodecTable (fun _ _ => true) (fun _ _ _ => none) true
          oneControllerRegistry twoCodecRegistry 1 failedReply 2 = some (1, failedReply, 2)) ∧
      (Resource.Platform = Resource.Platform →
        platformLoadCallback twoCodecTable (fun _ _ => true) (fun _ _ _ => none) true
          oneControllerRegistry twoCodecRegistry 1 failedReply 2 = some (1, failedReply, 2)) :=
  ⟨twoCodecRegistry_wf,
    updateResource_pass_through twoCodecTable (fun _ _ => true) (fun _ _ _ => none) true
      oneControllerRegistry Resource.Platform twoCodecRegistry 1 2 failedReply
      twoCodecRegistry_wf twoCodecRegistry_no_platform⟩

/-- C10, witness: the second of two external NVIDIA GPUs, without built-in digital
audio. -/
theorem external_gpu_port_names_witness :
    twoExternalGpus.videoExternal[1]? =
        some { video := nvidiaGfx 20, audio := some (nvidiaHdau 21), vendor := 0x10de } ∧
      audioHdaGfx (updateProperties demoParams plainHost (some twoExternalGpus)
        (initialAlcEnabler [] 3)).2.1 1 =
        some (OSObject.data (cString (onboardName
          ((if hasBuiltinDigitalAudio twoExternalGpus = true then 2 else 1) +
            eligibleBefore twoExternalGpus.videoExternal 1)))) ∧
      videoHdaGfx (updateProperties demoParams plainHost (some twoExternalGpus)
        (initialAlcEnabler [] 3)).2.1 1 =
        some (OSObject.data (cString (onboardName
          ((if hasBuiltinDigitalAudio twoExternalGpus = true then 2 else 1) +
            eligibleBefore twoExternalGpus.videoExternal 1)))) :=
  ⟨rfl, external_gpu_port_names demoParams plainHost twoExternalGpus (initialAlcEnabler [] 3) 1
    { video := nvidiaGfx 20, audio := some (nvidiaHdau 21), vendor := 0x10de } rfl
    (by decide)⟩

/-- The fuel `max - current` is enough for `nextFreeNvidiaId`: when no index is chosen,
the loop has ended through its condition, with the cursor at or beyond `max`. -/
theorem nextFreeNvidiaId_none_end (usage : List Bool) (max fuel cur c : Nat)
    (hfuel : max - cur ≤ fuel) (h : nextFreeNvidiaId usage max fuel cur = (c, none)) :
    max ≤ c := by
  induction fuel generalizing cur with
  | zero =>
    simp only [nextFreeNvidiaId, Prod.mk.injEq, and_true] at h
    omega
  | succ fuel ih =>
    simp only [nextFreeNvidiaId] at h
    split at h
    · split at h
      · simp at h
      · exact ih (cur + 1) (by omega) h
    · simp only [Prod.mk.injEq, and_true] at h
      omega

/-- More fuel than `max - current` does not change the result of `nextFreeNvidiaId`. -/
theorem nextFreeNvidiaId_fuel (usage : List Bool) (max fuel cur : Nat)
    (hfuel : max - cur ≤ fuel) :
    nextFreeNvidiaId usage max fuel cur = nextFreeNvidiaId usage max (max - cur) cur := by
  induction fuel generalizing cur with
  | zero =>
    have : max - cur = 0 := by omega
    rw [this]
  | succ fuel ih =>
    by_cases hlt : cur < max
    · obtain ⟨n, hn⟩ : ∃ n, max - cur = n + 1 := ⟨max - cur - 1, by omega⟩
      rw [hn]
      simp only [nextFreeNvidiaId, if_pos hlt]
      split
      · rfl
      · rw [ih (cur + 1) (by omega)]
        have : max - (cur + 1) = n := by omega
        rw [this]
    · rw [nextFreeNvidiaId_exhausted usage max _ cur (by omega),
        nextFreeNvidiaId_exhausted usage max _ cur (by omega)]

/-- The second run of `refreshAlcLayoutId` when the legacy fallback is not settled: it
writes an `alc-layout-id` that differs from the one the first run has left. -/
theorem refreshAlcLayoutId_unstable (host : Host) (fw : FirmwareVendor) (r : Nat)
    (n1 m : IORegistryEntry)
    (halc : m.getProperty "alc-layout-id" =
      (refreshAlcLayoutId host fw n1).getProperty "alc-layout-id")
    (huse : m.getProperty "use-layout-id" = n1.getProperty "use-layout-id")
    (hlay : m.getProperty "layout-id" =
      if fw ≠ FirmwareVendor.Apple ∨ (n1.getProperty "use-apple-layout-id").isSome = true
      then some (OSObject.data (u32Bytes r)) else n1.getProperty "layout-id")
    (H : ¬ LegacyFallbackSettled host fw r n1 true) :
    (refreshAlcLayoutId host fw m).getProperty "alc-layout-id" ≠
      m.getProperty "alc-layout-id" := by
  unfold LegacyFallbackSettled at H
  simp only [not_or] at H
  obtain ⟨-, hboot', hA, hO⟩ := H
  have hboot : host.bootArg "alcid" = none := by
    cases hb : host.bootArg "alcid" with
    | none => rfl
    | some l => rw [hb] at hboot'; exact absurd rfl hboot'
  by_cases hfw : fw = FirmwareVendor.Apple
  · have hA' := fun h => hA ⟨hfw, h⟩
    simp only [not_or] at hA'
    have ha : ¬ (getOSDataValue n1 "alc-layout-id").isSome = true := fun h => hA (⟨hfw, Or.inl h⟩)
    have hu : (n1.getProperty "use-layout-id").isSome = true := by
      cases hp : n1.getProperty "use-layout-id" with
      | none => exact absurd (⟨hfw, Or.inr (Or.inl hp)⟩) hA
      | some v => rfl
    have hl : getOSDataValue n1 "layout-id" = none := by
      cases hp : getOSDataValue n1 "layout-id" with
      | none => rfl
      | some v => exact absurd (⟨hfw, Or.inr (Or.inr (Or.inl (by rw [hp]; rfl)))⟩) hA
    have hua : (n1.getProperty "use-apple-layout-id").isSome = true := by
      cases hp : n1.getProperty "use-apple-layout-id" with
      | none => exact absurd (⟨hfw, Or.inr (Or.inr (Or.inr hp))⟩) hA
      | some v => rfl
    have h1 : refreshAlcLayoutId host fw n1 = n1 := by
      simp [refreshAlcLayoutId, hboot, hfw, ha, hu, hl]
    rw [h1] at halc
    have ha' : ¬ (getOSDataValue m "alc-layout-id").isSome = true := by
      rw [getOSDataValue_congr n1 m _ halc]; exact ha
    have hu' : (m.getProperty "use-layout-id").isSome = true := by rw [huse]; exact hu
    have hlay' : m.getProperty "layout-id" = some (OSObject.data (u32Bytes r)) := by
      rw [hlay, if_pos (Or.inr hua)]
    have hl' : getOSDataValue m "layout-id" = some (r % 4294967296) :=
      getOSDataValue_of_data m _ r hlay'
    have h2 : (refreshAlcLayoutId host fw m).getProperty "alc-layout-id" =
        some (OSObject.data (u32Bytes r)) := by
      simp [refreshAlcLayoutId, hboot, hfw, ha', hu', hl', u32Bytes_mod]
    rw [h2]
    intro hc
    apply ha'
    rw [getOSDataValue_of_data m _ r hc.symm]
    rfl
  · have hlay' : m.getProperty "layout-id" = some (OSObject.data (u32Bytes r)) := by
      rw [hlay, if_pos (Or.inl hfw)]
    have hl' : getOSDataValue m "layout-id" = some (r % 4294967296) :=
      getOSDataValue_of_data m _ r hlay'
    have h2 : (refreshAlcLayoutId host fw m).getProperty "alc-layout-id" =
        some (OSObject.data (u32Bytes r)) := by
      simp [refreshAlcLayoutId, hboot, hfw, hl', u32Bytes_mod]
    rw [h2, halc]
    have hO' := fun h => hO ⟨hfw, h⟩
    cases hl : getOSDataValue n1 "layout-id" with
    | some v =>
      have h1 : refreshAlcLayoutId host fw n1 =
          n1.setProperty "alc-layout-id" (u32Bytes v) := by
        simp [refreshAlcLayoutId, hboot, hfw, hl]
      rw [h1]
      simp only [getProperty_setProperty, if_true, ne_eq, Option.some.injEq,
        OSObject.data.injEq]
      intro hc
      exact hO' (Or.inl ⟨v, hl, hc.symm⟩)
    | none =>
      have h1 : refreshAlcLayoutId host fw n1 = n1 := by
        simp [refreshAlcLayoutId, hboot, hfw, hl]
      rw [h1]
      intro hc
      exact hO' (Or.inr ⟨hl, hc.symm⟩)

/-- When the legacy fallback is not settled, a second run of `updateDeviceProperties`
changes `alc-layout-id`. -/
theorem updateDeviceProperties_twice_ne_of_unsettled (host : Host) (fw : FirmwareVendor)
    (r : Nat) (ov : LayoutOverride) (n : IORegistryEntry) (g : Option String)
    (isAnalog : Bool) (H : ¬ LegacyFallbackSettled host fw r n isAnalog) :
    (updateDevicePropertiesTwice host fw r ov n g isAnalog).1.getProperty "alc-layout-id" ≠
      (updateDeviceProperties host fw r ov n g isAnalog).1.getProperty "alc-layout-id" := by
  have hA : isAnalog = true := by
    cases isAnalog with
    | true => rfl
    | false => exact absurd (Or.inl rfl) H
  subst hA
  show (updateDeviceProperties host fw r (updateDeviceProperties host fw r ov n g true).2
    (updateDeviceProperties host fw r ov n g true).1 g true).1.getProperty "alc-layout-id" ≠ _
  have hone : (updateDeviceProperties host fw r ov n g true).1 =
      ensureProperty (passHdaGfx (setReportedLayoutId fw r ov
          (analogProperties host fw (fixPlaneName host n true))).1 g) "built-in" [0x00] := rfl
  generalize hm : (updateDeviceProperties host fw r ov n g true).1 = m at hone
  generalize (updateDeviceProperties host fw r ov n g true).2 = ov1
  have hthrough : ∀ k, k ≠ "layout-id" → k ≠ "hda-gfx" → k ≠ "built-in" →
      m.getProperty k = (analogProperties host fw (fixPlaneName host n true)).getProperty k := by
    intro k h1 h2 h3
    rw [hone]; exact getProperty_update_tail fw r ov _ g k h1 h2 h3
  have hname : m.name = some "HDEF" := by
    rw [hone]; simp [name_fixPlaneName]
  have hfix : fixPlaneName host m true = m := fixPlaneName_stable host m true (by simpa using hname)
  have hsettled : ¬ LegacyFallbackSettled host fw r (fixPlaneName host n true) true := by
    have hc : ∀ k, k ≠ "compatible" →
        getOSDataValue (fixPlaneName host n true) k = getOSDataValue n k :=
      fun k hk => getOSDataValue_congr _ _ _ (getProperty_fixPlaneName host n true k hk)
    unfold LegacyFallbackSettled at H ⊢
    rw [hc _ (by decide), hc _ (by decide),
      getProperty_fixPlaneName host n true _ (by decide),
      getProperty_fixPlaneName host n true _ (by decide),
      getProperty_fixPlaneName host n true _ (by decide)]
    exact H
  have halc : m.getProperty "alc-layout-id" =
      (refreshAlcLayoutId host fw (fixPlaneName host n true)).getProperty "alc-layout-id" := by
    rw [hthrough _ (by decide) (by decide) (by decide), alc_analogProperties]
  have huse : m.getProperty "use-layout-id" =
      (fixPlaneName host n true).getProperty "use-layout-id" := by
    rw [hthrough _ (by decide) (by decide) (by decide),
      getProperty_analogProperties _ _ _ _ (by decide) (by decide) (by decide) (by decide)]
  have hlay : m.getProperty "layout-id" =
      if fw ≠ FirmwareVendor.Apple ∨
        ((fixPlaneName host n true).getProperty "use-apple-layout-id").isSome = true
      then some (OSObject.data (u32Bytes r))
      else (fixPlaneName host n true).getProperty "layout-id" := by
    rw [hone, layout_update_tail,
      getProperty_analogProperties _ _ _ _ (by decide) (by decide) (by decide) (by decide),
      getProperty_analogProperties _ _ _ _ (by decide) (by decide) (by decide) (by decide)]
  have hbad := refreshAlcLayoutId_unstable host fw r _ m halc huse hlay hsettled
  have htwice : (updateDeviceProperties host fw r ov1 m g true).1.getProperty "alc-layout-id" =
      (refreshAlcLayoutId host fw m).getProperty "alc-layout-id" := by
    show (ensureProperty (passHdaGfx (setReportedLayoutId fw r ov1
      (analogProperties host fw (fixPlaneName host m true))).1 g) "built-in"
      [0x00]).getProperty "alc-layout-id" = _
    rw [getProperty_update_tail fw r ov1 _ g _ (by decide) (by decide) (by decide),
      alc_analogProperties, hfix]
  rw [htwice]
  exact hbad

/-- C7, amended: running `updateDeviceProperties` twice with the same arguments leaves
the node (name and every property) and the override members exactly as running it once
if and only if the legacy fallback is settled (`LegacyFallbackSettled`); this is the
case for every non-analog node and whenever an `alcid` boot argument is given. -/
theorem updateDeviceProperties_idempotent_iff_settled (host : Host) (fw : FirmwareVendor)
    (r : Nat) (ov : LayoutOverride) (n : IORegistryEntry) (g : Option String)
    (isAnalog : Bool) :
    updateDevicePropertiesTwice host fw r ov n g isAnalog =
        updateDeviceProperties host fw r ov n g isAnalog ↔
      LegacyFallbackSettled host fw r n isAnalog := by
  constructor
  · intro h
    by_contra hns
    exact updateDeviceProperties_twice_ne_of_unsettled host fw r ov n g isAnalog hns
      (congrArg (fun x => x.1.getProperty "alc-layout-id") h)
  · exact updateDeviceProperties_twice_eq_of_settled host fw r ov n g isAnalog

/-- C7, witness: a digital (non-analog) node. -/
theorem updateDeviceProperties_idempotent_iff_settled_witness :
    LegacyFallbackSettled plainHost FirmwareVendor.Unknown 7 bareHdef false ∧
      updateDevicePropertiesTwice plainHost FirmwareVendor.Unknown 7 ⟨false, 0⟩ bareHdef
        (some "onboard-1") false =
      updateDeviceProperties plainHost FirmwareVendor.Unknown 7 ⟨false, 0⟩ bareHdef
        (some "onboard-1") false :=
  ⟨Or.inl rfl, (updateDeviceProperties_idempotent_iff_settled plainHost FirmwareVendor.Unknown 7
    ⟨false, 0⟩ bareHdef (some "onboard-1") false).mpr (Or.inl rfl)⟩

/-- C11: with `d` the delay obtained from the `alcdelay` boot argument or the `alc-delay`
property, `AppleHDAController_start` sleeps for exactly `d` ms when `0 < d <= 3000` and
does not sleep when `d = 0` or `d > 3000` (so not for `d = 5000`); in every case it returns
what the original start routine returns. -/
theorem AppleHDAController_start_delay (host : Host)
    (orgStart : IORegistryEntry → IORegistryEntry → Bool)
    (service provider : IORegistryEntry) :
    (AppleHDAController_start host orgStart service provider).slept =
        (if 0 < (startDelay host provider).1 ∧ (startDelay host provider).1 ≤ 3000
         then some (startDelay host provider).1 else none) ∧
      ((startDelay host provider).1 = 5000 →
        (AppleHDAController_start host orgStart service provider).slept = none) ∧
      (AppleHDAController_start host orgStart service provider).result =
        orgStart service (AppleHDAController_start host orgStart service provider).provider := by
  have hslept : (AppleHDAController_start host orgStart service provider).slept =
      (if 0 < (startDelay host provider).1 ∧ (startDelay host provider).1 ≤ 3000
       then some (startDelay host provider).1 else none) := by
    unfold AppleHDAController_start
    simp only
    generalize (startDelay host provider).1 = d
    by_cases h : d > 3000
    · rw [if_pos h, if_neg (by simp), if_neg (by omega)]
    · rw [if_neg h]
      by_cases h0 : d = 0
      · rw [if_neg (by simp [h0]), if_neg (by omega)]
      · rw [if_pos h0, if_pos (by omega)]
  refine ⟨hslept, ?_, rfl⟩
  intro h
  rw [hslept, h]
  rfl

/-- C11, witness: the boot argument `alcdelay=5000`. -/
theorem AppleHDAController_start_delay_witness :
    (startDelay { plainHost with bootArg := fun k => if k = "alcdelay" then some 5000 else none }
        bareHdef).1 = 5000 ∧
      (AppleHDAController_start
        { plainHost with bootArg := fun k => if k = "alcdelay" then some 5000 else none }
        (fun _ _ => true) bareHdef bareHdef).slept = none :=
  ⟨by decide,
    (AppleHDAController_start_delay
      { plainHost with bootArg := fun k => if k = "alcdelay" then some 5000 else none }
      (fun _ _ => true) bareHdef bareHdef).2.1 (by decide)⟩

theorem applyPatches_applied (host : Host) (ev : KextEvent) (index : Nat)
    (patches : List KextPatch) (p : KernelPatcher) :
    (applyPatches host ev index patches p).applied =
      p.applied ++ ((patches.filter fun kp =>
        decide (kp.patch.kext.loadIndex = index) &&
          compatibleKernel host.kernelVersion kp.minKernel kp.maxKernel).map fun kp => kp.patch) := by
  induction patches generalizing p with
  | nil => simp [applyPatches]
  | cons kp rest ih =>
    simp only [applyPatches, List.filter_cons]
    by_cases h1 : kp.patch.kext.loadIndex = index
    · by_cases h2 : compatibleKernel host.kernelVersion kp.minKernel kp.maxKernel = true
      · rw [if_pos h1, if_pos h2, ih]
        simp [h1, h2, KernelPatcher.applyLookupPatch, KernelPatcher.clearError]
      · rw [if_pos h1, if_neg h2, ih]
        simp [h1, h2]
    · rw [if_neg h1, ih]
      simp [h1]

theorem applyPatches_error (host : Host) (ev : KextEvent) (index : Nat)
    (patches : List KextPatch) (p : KernelPatcher) :
    (applyPatches host ev index patches p).error =
      (if (patches.filter fun kp =>
        decide (kp.patch.kext.loadIndex = index) &&
          compatibleKernel host.kernelVersion kp.minKernel kp.maxKernel) = [] then p.error
       else false) := by
  induction patches generalizing p with
  | nil => simp [applyPatches]
  | cons kp rest ih =>
    simp only [applyPatches, List.filter_cons]
    by_cases h1 : kp.patch.kext.loadIndex = index
    · by_cases h2 : compatibleKernel host.kernelVersion kp.minKernel kp.maxKernel = true
      · rw [if_pos h1, if_pos h2, ih]
        simp only [h1, h2, decide_True, Bool.and_self, if_true, KernelPatcher.clearError]
        split <;> simp
      · rw [if_pos h1, if_neg h2, ih]
        simp [h1, h2]
    · rw [if_neg h1, ih]
      simp [h1]

theorem applyPatches_routed (host : Host) (ev : KextEvent) (index : Nat)
    (patches : List KextPatch) (p : KernelPatcher) :
    (applyPatches host ev index patches p).routed = p.routed := by
  induction patches generalizing p with
  | nil => rfl
  | cons kp rest ih =>
    simp only [applyPatches]
    split
    · split
      · rw [ih]; rfl
      · exact ih p
    · exact ih p

/-- C16: `applyPatches` passes to `applyLookupPatch` exactly the patches of the list
whose target kext has the load index `index` and whose kernel range is compatible, in
list order, whatever the outcome of each application (`ev.patchFails` is arbitrary); and
the error is cleared after each attempted patch: when at least one patch was attempted
no error is pending afterwards, otherwise the patcher is as it was. -/
theorem applyPatches_applicable (host : Host) (ev : KextEvent) (index : Nat)
    (patches : List KextPatch) (p : KernelPatcher) :
    (applyPatches host ev index patches p).applied =
        p.applied ++ ((patches.filter fun kp =>
          decide (kp.patch.kext.loadIndex = index) &&
            compatibleKernel host.kernelVersion kp.minKernel kp.maxKernel).map
          fun kp => kp.patch) ∧
      (applyPatches host ev index patches p).error =
        (if (patches.filter fun kp =>
          decide (kp.patch.kext.loadIndex = index) &&
            compatibleKernel host.kernelVersion kp.minKernel kp.maxKernel) = [] then p.error
         else false) ∧
      (applyPatches host ev index patches p).routed = p.routed :=
  ⟨applyPatches_applied host ev index patches p, applyPatches_error host ev index patches p,
    applyPatches_routed host ev index patches p⟩

/-- After the discovery step, the rest of `processKext` keeps every progress bit. -/
theorem processKext_tail_bitsKept (P : Params) (vendorMod : List VendorModInfo) (host : Host)
    (ev : KextEvent) (k : Nat) (st1 : AlcEnabler × KernelPatcher) :
    BitsKept st1.1.progressState
      (routeOnce P ev k (routeAppleHDA P host ev k (codecsBlock P vendorMod host ev
        (controllersBlock P host ev k st1)))).1.progressState := by
  refine bitsKept_trans (bitsKept_of_eq (progressState_controllersBlock P host ev k st1)) ?_
  refine bitsKept_trans (codecsBlock_bitsKept P vendorMod host ev _) ?_
  refine bitsKept_trans (bitsKept_of_eq (progressState_routeAppleHDA P host ev k _)) ?_
  exact routeOnce_bitsKept P ev k _

/-- C12, counterexample: the load event of the tracked module `AppleGFXHDA` on a state
with no progress bit returns with `ControllersLoaded` still unset. -/
theorem processKext_gfx_leaves_controllers_unloaded :
    findKextIndex gfxKextEvent.index demoParams.kextList 0 ≠ demoParams.kextList.length ∧
      (processKext demoParams [] plainHost gfxKextEvent
        (initialAlcEnabler [] 3, freshPatcher)).1.progressState &&&
          demoParams.ControllersLoaded = 0 := by
  decide

/-- C12, amended: for every event whose load index resolves to a tracked module slot
other than `AppleGFXHDA`, the `ControllersLoaded` bit is set when `processKext` returns;
on the `AppleGFXHDA` slot the state is returned as it was. -/
theorem processKext_sets_controllersLoaded (P : Params) (vendorMod : List VendorModInfo)
    (host : Host) (ev : KextEvent) (st : AlcEnabler × KernelPatcher)
    (hflag : P.ControllersLoaded ≠ 0)
    (htracked : findKextIndex ev.index P.kextList 0 ≠ P.kextList.length) :
    (findKextIndex ev.index P.kextList 0 ≠ P.KextIdAppleGFXHDA →
        (processKext P vendorMod host ev st).1.progressState &&& P.ControllersLoaded ≠ 0) ∧
      (findKextIndex ev.index P.kextList 0 = P.KextIdAppleGFXHDA →
        (processKext P vendorMod host ev st).1 = st.1) := by
  unfold processKext
  simp only
  generalize findKextIndex ev.index P.kextList 0 = k at htracked
  rw [if_neg htracked]
  constructor
  · intro hg
    rw [if_neg hg]
    exact land_ne_zero_of_bitsKept
      (processKext_tail_bitsKept P vendorMod host ev k (discover P vendorMod ev k st.1, st.2))
      (discover_sets_controllers P vendorMod ev k st.1 hflag)
  · intro hg
    rw [if_pos hg]

/-- C12, witness: the load event of `AppleHDAController` on the initial state. -/
theorem processKext_sets_controllersLoaded_witness :
    (processKext demoParams [] plainHost controllerKextEvent
      (initialAlcEnabler [] 3, freshPatcher)).1.progressState &&&
        demoParams.ControllersLoaded ≠ 0 :=
  (processKext_sets_controllersLoaded demoParams [] plainHost controllerKextEvent
    (initialAlcEnabler [] 3, freshPatcher) (by decide) (by decide)).1 (by decide)

theorem grabControllers_codecs (P : Params) (ev : KextEvent) (s : AlcEnabler) :
    (grabControllers P ev s).codecs = s.codecs ∧
      (grabControllers P ev s).currentController = s.currentController := by
  unfold grabControllers
  simp only
  split <;> (repeat' split) <;> exact ⟨rfl, rfl⟩

/-- After the discovery step, the rest of `processKext` leaves the two registries and
`currentController` alone. -/
theorem processKext_tail_registries (P : Params) (vendorMod : List VendorModInfo) (host : Host)
    (ev : KextEvent) (k : Nat) (st1 : AlcEnabler × KernelPatcher) :
    (routeOnce P ev k (routeAppleHDA P host ev k (codecsBlock P vendorMod host ev
        (controllersBlock P host ev k st1)))).1.codecs = st1.1.codecs ∧
      (routeOnce P ev k (routeAppleHDA P host ev k (codecsBlock P vendorMod host ev
        (controllersBlock P host ev k st1)))).1.controllers = st1.1.controllers ∧
      (routeOnce P ev k (routeAppleHDA P host ev k (codecsBlock P vendorMod host ev
        (controllersBlock P host ev k st1)))).1.currentController =
          st1.1.currentController := by
  have h1 : (controllersBlock P host ev k st1).1.codecs = st1.1.codecs ∧
      (controllersBlock P host ev k st1).1.controllers = st1.1.controllers ∧
      (controllersBlock P host ev k st1).1.currentController = st1.1.currentController := by
    unfold controllersBlock
    split <;> exact ⟨rfl, rfl, rfl⟩
  generalize controllersBlock P host ev k st1 = st2 at h1 ⊢
  have h2 : (codecsBlock P vendorMod host ev st2).1.codecs = st2.1.codecs ∧
      (codecsBlock P vendorMod host ev st2).1.controllers = st2.1.controllers ∧
      (codecsBlock P vendorMod host ev st2).1.currentController = st2.1.currentController := by
    unfold codecsBlock
    split <;> exact ⟨rfl, rfl, rfl⟩
  generalize codecsBlock P vendorMod host ev st2 = st3 at h2 ⊢
  have h3 : (routeAppleHDA P host ev k st3).1.codecs = st3.1.codecs ∧
      (routeAppleHDA P host ev k st3).1.controllers = st3.1.controllers ∧
      (routeAppleHDA P host ev k st3).1.currentController = st3.1.currentController := by
    unfold routeAppleHDA
    split <;> exact ⟨rfl, rfl, rfl⟩
  generalize routeAppleHDA P host ev k st3 = st4 at h3 ⊢
  have h4 : (routeOnce P ev k st4).1.codecs = st4.1.codecs ∧
      (routeOnce P ev k st4).1.controllers = st4.1.controllers ∧
      (routeOnce P ev k st4).1.currentController = st4.1.currentController := by
    unfold routeOnce
    simp only
    split_ifs <;> exact ⟨rfl, rfl, rfl⟩
  exact ⟨by rw [h4.1, h3.1, h2.1, h1.1], by rw [h4.2.1, h3.2.1, h2.2.1, h1.2.1],
    by rw [h4.2.2, h3.2.2, h2.2.2, h1.2.2]⟩

/-- C13, counterexample: the first load event of the codec-bearing module `AppleHDA`
arrives with no progress bit set.  It discovers the controller but leaves the codec
registry empty and `CodecsLoaded` unset, although `grabCodecs` on the resulting state
finds the codec; the next event of the same module does find it. -/
theorem processKext_discovering_event_skips_grabCodecs :
    (demoParams.kextList[findKextIndex codecKextEvent.index demoParams.kextList 0]?.map
        fun k => k.user0) = some 1 ∧
      (processKext demoParams twoCodecTable plainHost codecKextEvent
        (initialAlcEnabler [] 3, freshPatcher)).1.controllers.length = 1 ∧
      (processKext demoParams twoCodecTable plainHost codecKextEvent
        (initialAlcEnabler [] 3, freshPatcher)).1.codecs.length = 0 ∧
      (processKext demoParams twoCodecTable plainHost codecKextEvent
        (initialAlcEnabler [] 3, freshPatcher)).1.progressState &&&
          demoParams.CodecsLoaded = 0 ∧
      (grabCodecs demoParams twoCodecTable codecKextEvent
        (processKext demoParams twoCodecTable plainHost codecKextEvent
          (initialAlcEnabler [] 3, freshPatcher)).1).1.codecs.length = 1 ∧
      (processKexts demoParams twoCodecTable plainHost [codecKextEvent, codecKextEvent]
        (initialAlcEnabler [] 3, freshPatcher)).1.codecs.length = 1 := by
  decide

theorem discover_codecs_of_loaded (P : Params) (vendorMod : List VendorModInfo)
    (ev : KextEvent) (k : Nat) (s : AlcEnabler)
    (hctl : s.progressState &&& P.ControllersLoaded ≠ 0)
    (hcod : s.progressState &&& P.CodecsLoaded = 0)
    (huser : (P.kextList[k]?.map (fun e => e.user0)).getD 0 ≠ 0) :
    (discover P vendorMod ev k s).codecs = (grabCodecs P vendorMod ev s).1.codecs ∧
      (discover P vendorMod ev k s).currentController =
        (grabCodecs P vendorMod ev s).1.currentController := by
  unfold discover
  rw [if_neg hctl, if_pos ⟨hcod, huser⟩]
  simp only
  split <;> exact ⟨rfl, rfl⟩

theorem discover_codecs_of_unloaded (P : Params) (vendorMod : List VendorModInfo)
    (ev : KextEvent) (k : Nat) (s : AlcEnabler)
    (hctl : s.progressState &&& P.ControllersLoaded = 0) :
    (discover P vendorMod ev k s).codecs = s.codecs ∧
      (discover P vendorMod ev k s).currentController = s.currentController := by
  unfold discover
  rw [if_pos hctl]
  exact grabControllers_codecs P ev s

/-- C13, amended: on an event of a codec-bearing tracked module (other than
`AppleGFXHDA`) that arrives while `CodecsLoaded` is unset, `grabCodecs` is run when
`ControllersLoaded` was already set before the event: the event returns with the codec
registry and `currentController` that `grabCodecs` produces on the incoming state.  When
`ControllersLoaded` was unset, the event discovers the controllers instead and returns
with the codec registry and `currentController` untouched. -/
theorem processKext_grabCodecs_after_controllers (P : Params) (vendorMod : List VendorModInfo)
    (host : Host) (ev : KextEvent) (st : AlcEnabler × KernelPatcher)
    (htracked : findKextIndex ev.index P.kextList 0 ≠ P.kextList.length)
    (hgfx : findKextIndex ev.index P.kextList 0 ≠ P.KextIdAppleGFXHDA)
    (huser : (P.kextList[findKextIndex ev.index P.kextList 0]?.map
      (fun e => e.user0)).getD 0 ≠ 0)
    (hcod : st.1.progressState &&& P.CodecsLoaded = 0) :
    (st.1.progressState &&& P.ControllersLoaded ≠ 0 →
        (processKext P vendorMod host ev st).1.codecs =
            (grabCodecs P vendorMod ev st.1).1.codecs ∧
          (processKext P vendorMod host ev st).1.currentController =
            (grabCodecs P vendorMod ev st.1).1.currentController) ∧
      (st.1.progressState &&& P.ControllersLoaded = 0 →
        (processKext P vendorMod host ev st).1.codecs = st.1.codecs ∧
          (processKext P vendorMod host ev st).1.currentController =
            st.1.currentController) := by
  unfold processKext
  simp only
  generalize findKextIndex ev.index P.kextList 0 = k at htracked hgfx huser
  rw [if_neg htracked, if_neg hgfx]
  obtain ⟨t1, -, t3⟩ := processKext_tail_registries P vendorMod host ev k
    (discover P vendorMod ev k st.1, st.2)
  rw [t1, t3]
  exact ⟨fun hctl => discover_codecs_of_loaded P vendorMod ev k st.1 hctl hcod huser,
    fun hctl => discover_codecs_of_unloaded P vendorMod ev k st.1 hctl⟩

/-- C13, witness: the second load event of `AppleHDA` in the example runs `grabCodecs`. -/
theorem processKext_grabCodecs_after_controllers_witness :
    (processKext demoParams twoCodecTable plainHost codecKextEvent
        (processKext demoParams twoCodecTable plainHost codecKextEvent
          (initialAlcEnabler [] 3, freshPatcher))).1.codecs =
      (grabCodecs demoParams twoCodecTable codecKextEvent
        (processKext demoParams twoCodecTable plainHost codecKextEvent
          (initialAlcEnabler [] 3, freshPatcher)).1).1.codecs :=
  ((processKext_grabCodecs_after_controllers demoParams twoCodecTable plainHost codecKextEvent
    (processKext demoParams twoCodecTable plainHost codecKextEvent
      (initialAlcEnabler [] 3, freshPatcher))
    (by decide) (by decide) (by decide) (by decide)).1 (by decide)).1

theorem routed_eraseRedundantLogs (P : Params) (ev : KextEvent) (index : Nat)
    (p : KernelPatcher) : (eraseRedundantLogs P ev index p).routed = p.routed := by
  unfold eraseRedundantLogs
  split
  · split <;> rfl
  · rfl

theorem routed_patchControllers (P : Params) (host : Host) (ev : KextEvent)
    (cs : List ControllerInfo) (i : Nat) (st : ControllerPatching) :
    (patchControllers P host ev cs i st).patcher.routed = st.patcher.routed := by
  induction cs generalizing i st with
  | nil => rfl
  | cons c rest ih =>
    simp only [patchControllers]
    split
    · exact ih _ _
    · split
      · exact ih _ _
      · split
        · rw [ih]
        · rw [ih]
          exact applyPatches_routed host ev ev.index _ _

theorem routed_patchCodecs (P : Params) (vendorMod : List VendorModInfo) (host : Host)
    (ev : KextEvent) (codecs : List CodecInfo) (st : Nat × KernelPatcher) :
    (patchCodecs P vendorMod host ev codecs st).2.routed = st.2.routed := by
  induction codecs generalizing st with
  | nil => rfl
  | cons c cs ih =>
    simp only [patchCodecs]
    split
    · exact ih st
    · split
      · exact ih st
      · rw [ih]
        exact applyPatches_routed host ev ev.index _ _

theorem routed_controllersBlock (P : Params) (host : Host) (ev : KextEvent) (k : Nat)
    (st : AlcEnabler × KernelPatcher) :
    (controllersBlock P host ev k st).2.routed = st.2.routed := by
  unfold controllersBlock
  split
  · simp only
    split
    · exact routed_patchControllers P host ev _ _ _
    · rw [routed_eraseRedundantLogs]
      exact routed_patchControllers P host ev _ _ _
  · rfl

theorem routed_codecsBlock (P : Params) (vendorMod : List VendorModInfo) (host : Host)
    (ev : KextEvent) (st : AlcEnabler × KernelPatcher) :
    (codecsBlock P vendorMod host ev st).2.routed = st.2.routed := by
  unfold codecsBlock
  split
  · exact routed_patchCodecs P vendorMod host ev _ _
  · rfl

theorem count_routeMultiple (p : KernelPatcher) (ev : KextEvent) (sym : String)
    (L : List String) (h : sym ∉ L) :
    (p.routeMultiple ev L).routed.count sym = p.routed.count sym := by
  show (p.routed ++ L).count sym = p.routed.count sym
  rw [List.count_append, List.count_eq_zero_of_not_mem h, Nat.add_zero]

/-- The block for `AppleHDA` routes only its own six symbols. -/
theorem count_routeAppleHDA (P : Params) (host : Host) (ev : KextEvent) (k : Nat)
    (st : AlcEnabler × KernelPatcher) (sym : String)
    (h1 : sym ≠ P.symPerformPowerChange)
    (h2 : sym ≠ "__ZN20AppleHDACodecGeneric38initializePinConfigDefaultFromOverrideEP9IOService")
    (h3 : sym ≠ "__ZN20AppleHDACodecGeneric38initializePinConfigDefaultFromOverrideEv")
    (h4 : sym ≠ "__ZN14AppleHDADriver18layoutLoadCallbackEjiPKvjPv")
    (h5 : sym ≠ "__ZN14AppleHDADriver20platformLoadCallbackEjiPKvjPv")
    (h6 : sym ≠ "__ZN14AppleHDADriver5startEP9IOService") :
    (routeAppleHDA P host ev k st).2.routed.count sym = st.2.routed.count sym := by
  have m1 : sym ∉ [P.symPerformPowerChange] := by
    simp only [List.mem_singleton]; exact h1
  have m2 : sym ∉
      ["__ZN20AppleHDACodecGeneric38initializePinConfigDefaultFromOverrideEP9IOService"] := by
    simp only [List.mem_singleton]; exact h2
  have m3 : sym ∉ ["__ZN20AppleHDACodecGeneric38initializePinConfigDefaultFromOverrideEv"] := by
    simp only [List.mem_singleton]; exact h3
  have m4 : sym ∉ ["__ZN14AppleHDADriver18layoutLoadCallbackEjiPKvjPv",
      "__ZN14AppleHDADriver20platformLoadCallbackEjiPKvjPv"] := by
    simp only [List.mem_cons, List.mem_singleton, List.not_mem_nil, or_false, not_or]
    exact ⟨h4, h5⟩
  have m6 : sym ∉ ["__ZN14AppleHDADriver5startEP9IOService"] := by
    simp only [List.mem_singleton]; exact h6
  have s2 : ∀ p1 : KernelPatcher,
      (if host.kernelVersion ≥ KernelVersionSnowLeopard then
        p1.routeMultiple ev
          ["__ZN20AppleHDACodecGeneric38initializePinConfigDefaultFromOverrideEP9IOService"]
      else
        if (p1.solveSymbol ev
          "__ZN20AppleHDACodecGeneric38initializePinConfigDefaultFromOverrideEP9IOService").1
            ≠ 0 then
          (p1.solveSymbol ev
          "__ZN20AppleHDACodecGeneric38initializePinConfigDefaultFromOverrideEP9IOService").2
            |>.routeMultiple ev
            ["__ZN20AppleHDACodecGeneric38initializePinConfigDefaultFromOverrideEP9IOService"]
        else
          (p1.solveSymbol ev
          "__ZN20AppleHDACodecGeneric38initializePinConfigDefaultFromOverrideEP9IOService").2
            |>.clearError.routeMultiple ev
            ["__ZN20AppleHDACodecGeneric38initializePinConfigDefaultFromOverrideEv"]
        ).routed.count sym = p1.routed.count sym := by
    intro p1
    split_ifs
    · exact count_routeMultiple _ ev sym _ m2
    · exact count_routeMultiple _ ev sym _ m2
    · exact count_routeMultiple _ ev sym _ m3
  have s3 : ∀ p2 : KernelPatcher,
      (if (p2.solveSymbol ev "__ZN14AppleHDADriver18layoutLoadCallbackEjiPKvjPv").1 ≠ 0 then
        (p2.solveSymbol ev "__ZN14AppleHDADriver18layoutLoadCallbackEjiPKvjPv").2.routeMultiple
          ev ["__ZN14AppleHDADriver18layoutLoadCallbackEjiPKvjPv",
          "__ZN14AppleHDADriver20platformLoadCallbackEjiPKvjPv"]
      else (p2.solveSymbol ev
        "__ZN14AppleHDADriver18layoutLoadCallbackEjiPKvjPv").2.clearError).routed.count sym =
        p2.routed.count sym := by
    intro p2
    split_ifs
    · exact count_routeMultiple _ ev sym _ m4
    · rfl
  have s4 : ∀ p3 : KernelPatcher,
      (if host.kernelVersion ≥ KernelVersionMavericks then (true, p3)
      else (decide ((p3.solveSymbol ev "__Z24AppleHDA_zlib_uncompressPhPmPKhm").1 ≠ 0),
        (p3.solveSymbol ev "__Z24AppleHDA_zlib_uncompressPhPmPKhm").2)).2.routed.count sym =
        p3.routed.count sym := by
    intro p3
    split_ifs <;> rfl
  have s4b : ∀ r4 : Bool × KernelPatcher,
      (if r4.1 = true then r4.2 else r4.2.clearError).routed.count sym =
        r4.2.routed.count sym := by
    intro r4
    split_ifs <;> rfl
  have s5 : ∀ p4 : KernelPatcher,
      (if host.kernelVersion = KernelVersionTiger then
        p4.routeMultiple ev ["__ZN14AppleHDADriver5startEP9IOService"]
      else p4).routed.count sym = p4.routed.count sym := by
    intro p4
    split_ifs
    · exact count_routeMultiple _ ev sym _ m6
    · rfl
  have s6 : ∀ p5 : KernelPatcher,
      (if host.debugEnabled = true then p5 else eraseRedundantLogs P ev k p5).routed.count sym =
        p5.routed.count sym := by
    intro p5
    split_ifs
    · rfl
    · rw [routed_eraseRedundantLogs]
  unfold routeAppleHDA
  split
  · exact (s6 _).trans ((s5 _).trans ((s4b _).trans ((s4 _).trans ((s3 _).trans
      ((s2 _).trans (count_routeMultiple _ ev sym _ m1))))))
  · rfl

theorem hookMeasure_le_of (sym : String) (flag : Nat) (st st' : AlcEnabler × KernelPatcher)
    (hc : st'.2.routed.count sym = st.2.routed.count sym)
    (hb : BitsKept st.1.progressState st'.1.progressState) :
    hookMeasure sym flag st' ≤ hookMeasure sym flag st := by
  unfold hookMeasure
  rw [hc]
  by_cases h : st.1.progressState &&& flag = 0
  · rw [if_pos h]
    split <;> omega
  · rw [if_neg h, if_neg (land_ne_zero_of_bitsKept hb h)]

/-- One bit-guarded hook of `processKext`: it does not raise the measure of a hook
`(sym, flag)` when it routes another symbol, or when it is that hook. -/
theorem hookMeasure_guard (ev : KextEvent) (sym s : String) (flag f : Nat) (c : Prop)
    [Decidable c] (st : AlcEnabler × KernelPatcher)
    (h : s ≠ sym ∨ (f = flag ∧ flag ≠ 0)) :
    hookMeasure sym flag
        (if st.1.progressState &&& f = 0 ∧ c then
          (({ st.1 with progressState := st.1.progressState ||| f } : AlcEnabler),
            st.2.routeMultiple ev [s])
         else st) ≤ hookMeasure sym flag st := by
  split
  · rename_i hg
    by_cases hs : s = sym
    · rcases h with h | ⟨hf, hflag⟩
      · exact absurd hs h
      · subst hs
        subst hf
        unfold hookMeasure
        rw [if_pos hg.1, if_neg (land_self_lor_ne_zero _ _ hflag)]
        show (st.2.routed ++ [s]).count s + 0 ≤ st.2.routed.count s + 1
        rw [List.count_append]
        simp
    · refine hookMeasure_le_of sym flag st _ ?_ (bitsKept_lor _ _)
      refine count_routeMultiple _ ev sym _ ?_
      simp only [List.mem_singleton]
      exact fun e => hs e.symm
  · exact le_refl _

theorem hookMeasure_routeOnce (P : Params) (ev : KextEvent) (k : Nat) (sym : String)
    (flag : Nat) (st : AlcEnabler × KernelPatcher)
    (h7 : P.symIOHDACodecDevice_executeVerb ≠ sym ∨ (P.PatchHDAFamily = flag ∧ flag ≠ 0))
    (h8 : "__ZN18AppleHDAController5startEP9IOService" ≠ sym ∨
      (P.PatchHDAController = flag ∧ flag ≠ 0))
    (h9 : "__ZN22AppleHDAPlatformDriver5startEP9IOService" ≠ sym ∨
      (P.PatchHDAPlatformDriver = flag ∧ flag ≠ 0)) :
    hookMeasure sym flag (routeOnce P ev k st) ≤ hookMeasure sym flag st := by
  unfold routeOnce
  exact le_trans (hookMeasure_guard ev sym _ flag _ _ _ h9)
    (le_trans (hookMeasure_guard ev sym _ flag _ _ _ h8)
      (hookMeasure_guard ev sym _ flag _ _ st h7))

theorem guardedHook_ne (P : Params) (sym : String) (flag : Nat) (h : GuardedHook P sym flag)
    (j : Nat) (hj : j < (routeTargets P).length) (h7 : j ≠ 7) (h8 : j ≠ 8) (h9 : j ≠ 9) :
    sym ≠ (routeTargets P)[j] := by
  intro e
  rcases h j hj e.symm with ⟨a, -⟩ | ⟨a, -⟩ | ⟨a, -⟩
  · exact h7 a
  · exact h8 a
  · exact h9 a

theorem hookMeasure_processKext (P : Params) (vendorMod : List VendorModInfo) (host : Host)
    (ev : KextEvent) (st : AlcEnabler × KernelPatcher) (sym : String) (flag : Nat)
    (h : GuardedHook P sym flag) :
    hookMeasure sym flag (processKext P vendorMod host ev st) ≤ hookMeasure sym flag st := by
  have hlen : (routeTargets P).length = 10 := rfl
  have n0 : sym ≠ "__ZN21AppleGFXHDAController5probeEP9IOServicePi" :=
    guardedHook_ne P sym flag h 0 (by rw [hlen]; decide) (by decide) (by decide) (by decide)
  have n1 : sym ≠ P.symPerformPowerChange :=
    guardedHook_ne P sym flag h 1 (by rw [hlen]; decide) (by decide) (by decide) (by decide)
  have n2 : sym ≠
      "__ZN20AppleHDACodecGeneric38initializePinConfigDefaultFromOverrideEP9IOService" :=
    guardedHook_ne P sym flag h 2 (by rw [hlen]; decide) (by decide) (by decide) (by decide)
  have n3 : sym ≠ "__ZN20AppleHDACodecGeneric38initializePinConfigDefaultFromOverrideEv" :=
    guardedHook_ne P sym flag h 3 (by rw [hlen]; decide) (by decide) (by decide) (by decide)
  have n4 : sym ≠ "__ZN14AppleHDADriver18layoutLoadCallbackEjiPKvjPv" :=
    guardedHook_ne P sym flag h 4 (by rw [hlen]; decide) (by decide) (by decide) (by decide)
  have n5 : sym ≠ "__ZN14AppleHDADriver20platformLoadCallbackEjiPKvjPv" :=
    guardedHook_ne P sym flag h 5 (by rw [hlen]; decide) (by decide) (by decide) (by decide)
  have n6 : sym ≠ "__ZN14AppleHDADriver5startEP9IOService" :=
    guardedHook_ne P sym flag h 6 (by rw [hlen]; decide) (by decide) (by decide) (by decide)
  have g7 : P.symIOHDACodecDevice_executeVerb ≠ sym ∨ (P.PatchHDAFamily = flag ∧ flag ≠ 0) := by
    by_cases e : P.symIOHDACodecDevice_executeVerb = sym
    · rcases h 7 (by rw [hlen]; decide) e with ⟨-, a⟩ | ⟨a, -⟩ | ⟨a, -⟩
      · exact Or.inr a
      · exact absurd a (by decide)
      · exact absurd a (by decide)
    · exact Or.inl e
  have g8 : "__ZN18AppleHDAController5startEP9IOService" ≠ sym ∨
      (P.PatchHDAController = flag ∧ flag ≠ 0) := by
    by_cases e : "__ZN18AppleHDAController5startEP9IOService" = sym
    · rcases h 8 (by rw [hlen]; decide) e with ⟨a, -⟩ | ⟨-, a⟩ | ⟨a, -⟩
      · exact absurd a (by decide)
      · exact Or.inr a
      · exact absurd a (by decide)
    · exact Or.inl e
  have g9 : "__ZN22AppleHDAPlatformDriver5startEP9IOService" ≠ sym ∨
      (P.PatchHDAPlatformDriver = flag ∧ flag ≠ 0) := by
    by_cases e : "__ZN22AppleHDAPlatformDriver5startEP9IOService" = sym
    · rcases h 9 (by rw [hlen]; decide) e with ⟨a, -⟩ | ⟨a, -⟩ | ⟨-, a⟩
      · exact absurd a (by decide)
      · exact absurd a (by decide)
      · exact Or.inr a
    · exact Or.inl e
  unfold processKext
  simp only
  generalize findKextIndex ev.index P.kextList 0 = k
  split
  · exact le_refl _
  · split
    · refine hookMeasure_le_of sym flag st _ ?_ (bitsKept_refl _)
      refine count_routeMultiple _ ev sym _ ?_
      simp only [List.mem_singleton]
      exact n0
    · have hd : hookMeasure sym flag (discover P vendorMod ev k st.1, st.2) ≤
          hookMeasure sym flag st :=
        hookMeasure_le_of sym flag st _ rfl (discover_bitsKept P vendorMod ev k st.1)
      generalize (discover P vendorMod ev k st.1, st.2) = st1 at hd ⊢
      have hc : hookMeasure sym flag (controllersBlock P host ev k st1) ≤
          hookMeasure sym flag st1 :=
        hookMeasure_le_of sym flag st1 _ (by rw [routed_controllersBlock])
          (bitsKept_of_eq (progressState_controllersBlock P host ev k st1))
      generalize controllersBlock P host ev k st1 = st2 at hc ⊢
      have hk : hookMeasure sym flag (codecsBlock P vendorMod host ev st2) ≤
          hookMeasure sym flag st2 :=
        hookMeasure_le_of sym flag st2 _ (by rw [routed_codecsBlock])
          (codecsBlock_bitsKept P vendorMod host ev st2)
      generalize codecsBlock P vendorMod host ev st2 = st3 at hk ⊢
      have ha : hookMeasure sym flag (routeAppleHDA P host ev k st3) ≤
          hookMeasure sym flag st3 :=
        hookMeasure_le_of sym flag st3 _
          (count_routeAppleHDA P host ev k st3 sym n1 n2 n3 n4 n5 n6)
          (bitsKept_of_eq (progressState_routeAppleHDA P host ev k st3))
      generalize routeAppleHDA P host ev k st3 = st4 at ha ⊢
      have hr := hookMeasure_routeOnce P ev k sym flag st4 g7 g8 g9
      have hfin : hookMeasure sym flag ((routeOnce P ev k st4).1,
          (routeOnce P ev k st4).2.clearError) = hookMeasure sym flag (routeOnce P ev k st4) :=
        rfl
      rw [hfin]
      omega

theorem hookMeasure_alcRun (P : Params) (vendorMod : List VendorModInfo) (host : Host)
    (steps : List AlcStep) (st : AlcEnabler × KernelPatcher) (sym : String) (flag : Nat)
    (h : GuardedHook P sym flag) :
    hookMeasure sym flag (alcRun P vendorMod host steps st) ≤ hookMeasure sym flag st := by
  induction steps generalizing st with
  | nil => exact le_refl _
  | cons step rest ih =>
    simp only [alcRun, List.foldl_cons] at ih ⊢
    refine le_trans (ih _) ?_
    cases step with
    | update devInfo =>
      exact hookMeasure_le_of sym flag st _ rfl (updateProperties_bitsKept P host devInfo st.1)
    | kext ev => exact hookMeasure_processKext P vendorMod host ev st sym flag h

theorem count_le_of_hookMeasure (sym : String) (flag : Nat) (st st' : AlcEnabler × KernelPatcher)
    (h : hookMeasure sym flag st' ≤ hookMeasure sym flag st) :
    st'.2.routed.count sym ≤ st.2.routed.count sym + 1 := by
  unfold hookMeasure at h
  split at h <;> split at h <;> omega

theorem guardedHook_of_nodup (P : Params) (hnodup : (routeTargets P).Nodup) :
    (P.PatchHDAFamily ≠ 0 →
        GuardedHook P P.symIOHDACodecDevice_executeVerb P.PatchHDAFamily) ∧
      (P.PatchHDAController ≠ 0 →
        GuardedHook P "__ZN18AppleHDAController5startEP9IOService" P.PatchHDAController) ∧
      (P.PatchHDAPlatformDriver ≠ 0 →
        GuardedHook P "__ZN22AppleHDAPlatformDriver5startEP9IOService"
          P.PatchHDAPlatformDriver) := by
  have hlen : (routeTargets P).length = 10 := rfl
  refine ⟨fun hf j hj e => ?_, fun hf j hj e => ?_, fun hf j hj e => ?_⟩
  · have e7 : (routeTargets P)[j] = (routeTargets P)[7] := e
    exact Or.inl ⟨hnodup.getElem_inj_iff.mp e7, rfl, hf⟩
  · have e8 : (routeTargets P)[j] = (routeTargets P)[8] := e
    exact Or.inr (Or.inl ⟨hnodup.getElem_inj_iff.mp e8, rfl, hf⟩)
  · have e9 : (routeTargets P)[j] = (routeTargets P)[9] := e
    exact Or.inr (Or.inr ⟨hnodup.getElem_inj_iff.mp e9, rfl, hf⟩)

theorem count_alcRun_guarded (P : Params) (vendorMod : List VendorModInfo) (host : Host)
    (steps : List AlcStep) (st : AlcEnabler × KernelPatcher) (sym : String) (flag : Nat)
    (h : GuardedHook P sym flag) :
    (alcRun P vendorMod host steps st).2.routed.count sym ≤ st.2.routed.count sym + 1 ∧
      (st.1.progressState &&& flag ≠ 0 →
        (alcRun P vendorMod host steps st).2.routed.count sym ≤ st.2.routed.count sym) := by
  have hm := hookMeasure_alcRun P vendorMod host steps st sym flag h
  refine ⟨count_le_of_hookMeasure sym flag st _ hm, fun hset => ?_⟩
  unfold hookMeasure at hm
  rw [if_neg hset] at hm
  omega

/-- The block for `AppleHDA`, when it runs, passes exactly the symbols of `appleHDARoutes`
to `routeMultiple`. -/
theorem routed_routeAppleHDA (P : Params) (host : Host) (ev : KextEvent) (k : Nat)
    (st : AlcEnabler × KernelPatcher)
    (h : st.1.progressState &&& P.CallbacksWantRouting ≠ 0 ∧ k = P.KextIdAppleHDA) :
    (routeAppleHDA P host ev k st).2.routed = st.2.routed ++ appleHDARoutes P host ev := by
  have s2 : ∀ p1 : KernelPatcher,
      (if host.kernelVersion ≥ KernelVersionSnowLeopard then
        p1.routeMultiple ev
          ["__ZN20AppleHDACodecGeneric38initializePinConfigDefaultFromOverrideEP9IOService"]
      else
        if (p1.solveSymbol ev
          "__ZN20AppleHDACodecGeneric38initializePinConfigDefaultFromOverrideEP9IOService").1
            ≠ 0 then
          (p1.solveSymbol ev
          "__ZN20AppleHDACodecGeneric38initializePinConfigDefaultFromOverrideEP9IOService").2
            |>.routeMultiple ev
            ["__ZN20AppleHDACodecGeneric38initializePinConfigDefaultFromOverrideEP9IOService"]
        else
          (p1.solveSymbol ev
          "__ZN20AppleHDACodecGeneric38initializePinConfigDefaultFromOverrideEP9IOService").2
            |>.clearError.routeMultiple ev
            ["__ZN20AppleHDACodecGeneric38initializePinConfigDefaultFromOverrideEv"]
        ).routed = p1.routed ++
          (if host.kernelVersion ≥ KernelVersionSnowLeopard ∨ ev.solveSymbol
            "__ZN20AppleHDACodecGeneric38initializePinConfigDefaultFromOverrideEP9IOService" ≠ 0
          then
            ["__ZN20AppleHDACodecGeneric38initializePinConfigDefaultFromOverrideEP9IOService"]
          else ["__ZN20AppleHDACodecGeneric38initializePinConfigDefaultFromOverrideEv"]) := by
    intro p1
    by_cases hv : host.kernelVersion ≥ KernelVersionSnowLeopard
    · rw [if_pos hv, if_pos (Or.inl hv)]
      rfl
    · rw [if_neg hv]
      by_cases hsym : ev.solveSymbol
          "__ZN20AppleHDACodecGeneric38initializePinConfigDefaultFromOverrideEP9IOService" ≠ 0
      · rw [if_pos (Or.inr hsym)]
        have : (p1.solveSymbol ev
          "__ZN20AppleHDACodecGeneric38initializePinConfigDefaultFromOverrideEP9IOService").1
            ≠ 0 := hsym
        rw [if_pos this]
        rfl
      · have : ¬ (p1.solveSymbol ev
          "__ZN20AppleHDACodecGeneric38initializePinConfigDefaultFromOverrideEP9IOService").1
            ≠ 0 := hsym
        rw [if_neg this, if_neg (not_or.mpr ⟨hv, hsym⟩)]
        rfl
  have s3 : ∀ p2 : KernelPatcher,
      (if (p2.solveSymbol ev "__ZN14AppleHDADriver18layoutLoadCallbackEjiPKvjPv").1 ≠ 0 then
        (p2.solveSymbol ev "__ZN14AppleHDADriver18layoutLoadCallbackEjiPKvjPv").2.routeMultiple
          ev ["__ZN14AppleHDADriver18layoutLoadCallbackEjiPKvjPv",
          "__ZN14AppleHDADriver20platformLoadCallbackEjiPKvjPv"]
      else (p2.solveSymbol ev
        "__ZN14AppleHDADriver18layoutLoadCallbackEjiPKvjPv").2.clearError).routed =
        p2.routed ++
          (if ev.solveSymbol "__ZN14AppleHDADriver18layoutLoadCallbackEjiPKvjPv" ≠ 0 then
            ["__ZN14AppleHDADriver18layoutLoadCallbackEjiPKvjPv",
             "__ZN14AppleHDADriver20platformLoadCallbackEjiPKvjPv"]
          else []) := by
    intro p2
    by_cases hsym : ev.solveSymbol "__ZN14AppleHDADriver18layoutLoadCallbackEjiPKvjPv" ≠ 0
    · have : (p2.solveSymbol ev "__ZN14AppleHDADriver18layoutLoadCallbackEjiPKvjPv").1 ≠ 0 :=
        hsym
      rw [if_pos this, if_pos hsym]
      rfl
    · have : ¬ (p2.solveSymbol ev "__ZN14AppleHDADriver18layoutLoadCallbackEjiPKvjPv").1 ≠ 0 :=
        hsym
      rw [if_neg this, if_neg hsym, List.append_nil]
      rfl
  have s4 : ∀ p3 : KernelPatcher,
      (if host.kernelVersion ≥ KernelVersionMavericks then (true, p3)
      else (decide ((p3.solveSymbol ev "__Z24AppleHDA_zlib_uncompressPhPmPKhm").1 ≠ 0),
        (p3.solveSymbol ev "__Z24AppleHDA_zlib_uncompressPhPmPKhm").2)).2.routed =
        p3.routed := by
    intro p3
    split_ifs <;> rfl
  have s4b : ∀ r4 : Bool × KernelPatcher,
      (if r4.1 = true then r4.2 else r4.2.clearError).routed = r4.2.routed := by
    intro r4
    split_ifs <;> rfl
  have s5 : ∀ p4 : KernelPatcher,
      (if host.kernelVersion = KernelVersionTiger then
        p4.routeMultiple ev ["__ZN14AppleHDADriver5startEP9IOService"]
      else p4).routed = p4.routed ++
        (if host.kernelVersion = KernelVersionTiger then
          ["__ZN14AppleHDADriver5startEP9IOService"]
        else []) := by
    intro p4
    split_ifs
    · rfl
    · rw [List.append_nil]
  have s6 : ∀ p5 : KernelPatcher,
      (if host.debugEnabled = true then p5 else eraseRedundantLogs P ev k p5).routed =
        p5.routed := by
    intro p5
    split_ifs
    · rfl
    · rw [routed_eraseRedundantLogs]
  have key : (routeAppleHDA P host ev k st).2.routed =
      st.2.routed ++ [P.symPerformPowerChange] ++
        (if host.kernelVersion ≥ KernelVersionSnowLeopard ∨ ev.solveSymbol
            "__ZN20AppleHDACodecGeneric38initializePinConfigDefaultFromOverrideEP9IOService" ≠ 0
          then
            ["__ZN20AppleHDACodecGeneric38initializePinConfigDefaultFromOverrideEP9IOService"]
          else ["__ZN20AppleHDACodecGeneric38initializePinConfigDefaultFromOverrideEv"]) ++
        (if ev.solveSymbol "__ZN14AppleHDADriver18layoutLoadCallbackEjiPKvjPv" ≠ 0 then
            ["__ZN14AppleHDADriver18layoutLoadCallbackEjiPKvjPv",
             "__ZN14AppleHDADriver20platformLoadCallbackEjiPKvjPv"]
          else []) ++
        (if host.kernelVersion = KernelVersionTiger then
          ["__ZN14AppleHDADriver5startEP9IOService"]
        else []) := by
    unfold routeAppleHDA
    rw [if_pos h]
    exact (s6 _).trans ((s5 _).trans (congrArg (fun l => l ++ _)
      ((s4b _).trans ((s4 _).trans ((s3 _).trans (congrArg (fun l => l ++ _)
        ((s2 _).trans rfl)))))))
  rw [key]
  simp only [appleHDARoutes, List.append_assoc]

theorem routed_routeOnce (P : Params) (ev : KextEvent) (k : Nat)
    (st : AlcEnabler × KernelPatcher) :
    ∃ rest, (routeOnce P ev k st).2.routed = st.2.routed ++ rest := by
  have stage : ∀ (c : Prop) [Decidable c] (a : AlcEnabler) (sym : String)
      (t : AlcEnabler × KernelPatcher),
      ∃ rest, (if c then (a, t.2.routeMultiple ev [sym]) else t).2.routed =
        t.2.routed ++ rest := by
    intro c _ a sym t
    by_cases hc : c
    · rw [if_pos hc]
      exact ⟨[sym], rfl⟩
    · rw [if_neg hc]
      exact ⟨[], (List.append_nil _).symm⟩
  unfold routeOnce
  simp only
  obtain ⟨r1, h1⟩ := stage (st.1.progressState &&& P.PatchHDAFamily = 0 ∧
    k = P.KextIdIOHDAFamily)
    { st.1 with progressState := st.1.progressState ||| P.PatchHDAFamily }
    P.symIOHDACodecDevice_executeVerb st
  generalize (if st.1.progressState &&& P.PatchHDAFamily = 0 ∧ k = P.KextIdIOHDAFamily then
    (({ st.1 with progressState := st.1.progressState ||| P.PatchHDAFamily } : AlcEnabler),
      st.2.routeMultiple ev [P.symIOHDACodecDevice_executeVerb])
    else st) = t1 at h1 ⊢
  obtain ⟨r2, h2⟩ := stage (t1.1.progressState &&& P.PatchHDAController = 0 ∧
    k = P.KextIdAppleHDAController)
    { t1.1 with progressState := t1.1.progressState ||| P.PatchHDAController }
    "__ZN18AppleHDAController5startEP9IOService" t1
  generalize (if t1.1.progressState &&& P.PatchHDAController = 0 ∧
      k = P.KextIdAppleHDAController then
    (({ t1.1 with progressState := t1.1.progressState ||| P.PatchHDAController } : AlcEnabler),
      t1.2.routeMultiple ev ["__ZN18AppleHDAController5startEP9IOService"])
    else t1) = t2 at h2 ⊢
  obtain ⟨r3, h3⟩ := stage (t2.1.progressState &&& P.PatchHDAPlatformDriver = 0 ∧
    k = P.KextIdAppleHDAPlatformDriver)
    { t2.1 with progressState := t2.1.progressState ||| P.PatchHDAPlatformDriver }
    "__ZN22AppleHDAPlatformDriver5startEP9IOService" t2
  exact ⟨r1 ++ r2 ++ r3, by rw [h3, h2, h1]; simp only [List.append_assoc]⟩

/-- An event of `AppleHDA` that arrives while `CallbacksWantRouting` is set passes the
symbols of `appleHDARoutes` to `routeMultiple`. -/
theorem routed_processKext_appleHDA (P : Params) (vendorMod : List VendorModInfo) (host : Host)
    (ev : KextEvent) (st : AlcEnabler × KernelPatcher)
    (htracked : findKextIndex ev.index P.kextList 0 ≠ P.kextList.length)
    (hgfx : findKextIndex ev.index P.kextList 0 ≠ P.KextIdAppleGFXHDA)
    (hhda : findKextIndex ev.index P.kextList 0 = P.KextIdAppleHDA)
    (hbit : st.1.progressState &&& P.CallbacksWantRouting ≠ 0) :
    ∃ rest, (processKext P vendorMod host ev st).2.routed =
      st.2.routed ++ appleHDARoutes P host ev ++ rest := by
  unfold processKext
  simp only
  rw [if_neg htracked, if_neg hgfx]
  generalize findKextIndex ev.index P.kextList 0 = k at hhda
  have hb1 := land_ne_zero_of_bitsKept (discover_bitsKept P vendorMod ev k st.1) hbit
  have hb2 : (controllersBlock P host ev k (discover P vendorMod ev k st.1, st.2)).1.progressState
      &&& P.CallbacksWantRouting ≠ 0 := by
    rw [progressState_controllersBlock]
    exact hb1
  have hb3 := land_ne_zero_of_bitsKept (codecsBlock_bitsKept P vendorMod host ev
    (controllersBlock P host ev k (discover P vendorMod ev k st.1, st.2))) hb2
  obtain ⟨rest, hrest⟩ := routed_routeOnce P ev k (routeAppleHDA P host ev k
    (codecsBlock P vendorMod host ev
      (controllersBlock P host ev k (discover P vendorMod ev k st.1, st.2))))
  refine ⟨rest, ?_⟩
  show (routeOnce P ev k (routeAppleHDA P host ev k (codecsBlock P vendorMod host ev
    (controllersBlock P host ev k (discover P vendorMod ev k st.1, st.2))))).2.routed = _
  rw [hrest, routed_routeAppleHDA P host ev k _ ⟨hb3, hhda⟩, routed_codecsBlock,
    routed_controllersBlock]

/-- C14, counterexample: the module `AppleGFXHDA` arrives twice and its probe symbol is
passed to `routeMultiple` on both events; the module `AppleHDA` arrives three times and
its power-change symbol is passed to `routeMultiple` on the second and on the third
event. -/
theorem processKexts_routes_again_on_reload :
    (processKexts demoParams [] plainHost [gfxKextEvent, gfxKextEvent]
        (initialAlcEnabler [] 3, freshPatcher)).2.routed =
        ["__ZN21AppleGFXHDAController5probeEP9IOServicePi",
         "__ZN21AppleGFXHDAController5probeEP9IOServicePi"] ∧
      (processKexts demoParams twoCodecTable plainHost
        [codecKextEvent, codecKextEvent, codecKextEvent]
        (initialAlcEnabler [] 3, freshPatcher)).2.routed.count
          demoParams.symPerformPowerChange = 2 := by
  decide

/-- C14, amended: the three hooks guarded by their own progress bit (`executeVerb` of
`IOHDAFamily`, `start` of `AppleHDAController`, `start` of `AppleHDAPlatformDriver`) are
passed to `routeMultiple` at most once over every sequence of module-load events and
`updateProperties` calls, and never again once their bit is set; this needs the target
symbols of `processKext` to be pairwise distinct and the three bits to be non-zero.  The
probe hook of `AppleGFXHDA` has no bit: every event of that module routes it.  The hooks
of `AppleHDA` have none either: once `CallbacksWantRouting` is set, every later event of
`AppleHDA` passes the symbols of `appleHDARoutes` to `routeMultiple` again. -/
theorem guarded_hooks_routed_at_most_once (P : Params) (vendorMod : List VendorModInfo)
    (host : Host) (steps : List AlcStep) (st : AlcEnabler × KernelPatcher)
    (hnodup : (routeTargets P).Nodup) (hfam : P.PatchHDAFamily ≠ 0)
    (hctl : P.PatchHDAController ≠ 0) (hplat : P.PatchHDAPlatformDriver ≠ 0) :
    ((alcRun P vendorMod host steps st).2.routed.count P.symIOHDACodecDevice_executeVerb ≤
          st.2.routed.count P.symIOHDACodecDevice_executeVerb + 1 ∧
        (st.1.progressState &&& P.PatchHDAFamily ≠ 0 →
          (alcRun P vendorMod host steps st).2.routed.count P.symIOHDACodecDevice_executeVerb ≤
            st.2.routed.count P.symIOHDACodecDevice_executeVerb)) ∧
      ((alcRun P vendorMod host steps st).2.routed.count
            "__ZN18AppleHDAController5startEP9IOService" ≤
          st.2.routed.count "__ZN18AppleHDAController5startEP9IOService" + 1 ∧
        (st.1.progressState &&& P.PatchHDAController ≠ 0 →
          (alcRun P vendorMod host steps st).2.routed.count
              "__ZN18AppleHDAController5startEP9IOService" ≤
            st.2.routed.count "__ZN18AppleHDAController5startEP9IOService")) ∧
      ((alcRun P vendorMod host steps st).2.routed.count
            "__ZN22AppleHDAPlatformDriver5startEP9IOService" ≤
          st.2.routed.count "__ZN22AppleHDAPlatformDriver5startEP9IOService" + 1 ∧
        (st.1.progressState &&& P.PatchHDAPlatformDriver ≠ 0 →
          (alcRun P vendorMod host steps st).2.routed.count
              "__ZN22AppleHDAPlatformDriver5startEP9IOService" ≤
            st.2.routed.count "__ZN22AppleHDAPlatformDriver5startEP9IOService")) ∧
      (∀ (ev : KextEvent) (st1 : AlcEnabler × KernelPatcher),
        findKextIndex ev.index P.kextList 0 ≠ P.kextList.length →
        findKextIndex ev.index P.kextList 0 = P.KextIdAppleGFXHDA →
        (processKext P vendorMod host ev st1).2.routed =
          st1.2.routed ++ ["__ZN21AppleGFXHDAController5probeEP9IOServicePi"]) ∧
      (st.1.progressState &&& P.CallbacksWantRouting ≠ 0 →
        ∀ ev : KextEvent,
          findKextIndex ev.index P.kextList 0 ≠ P.kextList.length →
          findKextIndex ev.index P.kextList 0 ≠ P.KextIdAppleGFXHDA →
          findKextIndex ev.index P.kextList 0 = P.KextIdAppleHDA →
          ∃ rest,
            (processKext P vendorMod host ev (alcRun P vendorMod host steps st)).2.routed =
              (alcRun P vendorMod host steps st).2.routed ++ appleHDARoutes P host ev ++
                rest) := by
  obtain ⟨g7, g8, g9⟩ := guardedHook_of_nodup P hnodup
  refine ⟨count_alcRun_guarded P vendorMod host steps st _ _ (g7 hfam),
    count_alcRun_guarded P vendorMod host steps st _ _ (g8 hctl),
    count_alcRun_guarded P vendorMod host steps st _ _ (g9 hplat), ?_, ?_⟩
  · intro ev st1 htracked hgfx
    unfold processKext
    simp only
    rw [if_neg htracked, if_pos hgfx]
    rfl
  · intro hbit ev htracked hgfx hhda
    exact routed_processKext_appleHDA P vendorMod host ev _ htracked hgfx hhda
      (land_ne_zero_of_bitsKept (alcRun_bitsKept P vendorMod host steps st) hbit)

/-- C14, witness: after two load events of `AppleHDA` have set `CallbacksWantRouting`,
the module `AppleHDAController` arrives twice and its start hook is routed at most once
more; a further event of `AppleHDA` then routes the hooks of `AppleHDA` again. -/
theorem guarded_hooks_routed_at_most_once_witness :
    (alcRun demoParams twoCodecTable plainHost
        [AlcStep.kext controllerKextEvent, AlcStep.kext controllerKextEvent]
        (alcRun demoParams twoCodecTable plainHost
          [AlcStep.kext codecKextEvent, AlcStep.kext codecKextEvent]
          (initialAlcEnabler [] 3, freshPatcher))).2.routed.count
          "__ZN18AppleHDAController5startEP9IOService" ≤
      (alcRun demoParams twoCodecTable plainHost
        [AlcStep.kext codecKextEvent, AlcStep.kext codecKextEvent]
        (initialAlcEnabler [] 3, freshPatcher)).2.routed.count
        "__ZN18AppleHDAController5startEP9IOService" + 1 ∧
      ∃ rest,
        (processKext demoParams twoCodecTable plainHost codecKextEvent
          (alcRun demoParams twoCodecTable plainHost
            [AlcStep.kext controllerKextEvent, AlcStep.kext controllerKextEvent]
            (alcRun demoParams twoCodecTable plainHost
              [AlcStep.kext codecKextEvent, AlcStep.kext codecKextEvent]
              (initialAlcEnabler [] 3, freshPatcher)))).2.routed =
          (alcRun demoParams twoCodecTable plainHost
            [AlcStep.kext controllerKextEvent, AlcStep.kext controllerKextEvent]
            (alcRun demoParams twoCodecTable plainHost
              [AlcStep.kext codecKextEvent, AlcStep.kext codecKextEvent]
              (initialAlcEnabler [] 3, freshPatcher))).2.routed ++
            appleHDARoutes demoParams plainHost codecKextEvent ++ rest :=
  ⟨(guarded_hooks_routed_at_most_once demoParams twoCodecTable plainHost
      [AlcStep.kext controllerKextEvent, AlcStep.kext controllerKextEvent]
      (alcRun demoParams twoCodecTable plainHost
        [AlcStep.kext codecKextEvent, AlcStep.kext codecKextEvent]
        (initialAlcEnabler [] 3, freshPatcher))
      (by decide) (by decide) (by decide) (by decide)).2.1.1,
    (guarded_hooks_routed_at_most_once demoParams twoCodecTable plainHost
      [AlcStep.kext controllerKextEvent, AlcStep.kext controllerKextEvent]
      (alcRun demoParams twoCodecTable plainHost
        [AlcStep.kext codecKextEvent, AlcStep.kext codecKextEvent]
        (initialAlcEnabler [] 3, freshPatcher))
      (by decide) (by decide) (by decide) (by decide)).2.2.2.2 (by decide) codecKextEvent
      (by decide) (by decide) (by decide)⟩

/-- C15: the error state of the patcher when `processKext` returns from an event of a
tracked module.  On every module slot other than `AppleGFXHDA` it is clear, whatever
failed during the event.  On the `AppleGFXHDA` slot the function returns right after
`routeMultiple`, without `clearError`: an error is pending exactly when one was pending
before or the route request failed. -/
theorem processKext_error_on_return (P : Params) (vendorMod : List VendorModInfo)
    (host : Host) (ev : KextEvent) (st : AlcEnabler × KernelPatcher)
    (htracked : findKextIndex ev.index P.kextList 0 ≠ P.kextList.length) :
    (findKextIndex ev.index P.kextList 0 ≠ P.KextIdAppleGFXHDA →
        (processKext P vendorMod host ev st).2.error = false) ∧
      (findKextIndex ev.index P.kextList 0 = P.KextIdAppleGFXHDA →
        (processKext P vendorMod host ev st).2.error =
          (st.2.error || ev.routeFails "__ZN21AppleGFXHDAController5probeEP9IOServicePi")) := by
  unfold processKext
  simp only
  generalize findKextIndex ev.index P.kextList 0 = k at htracked
  rw [if_neg htracked]
  constructor
  · intro hg
    rw [if_neg hg]
    rfl
  · intro hg
    rw [if_pos hg]
    simp [KernelPatcher.routeMultiple]

/-- C15, failing input: the load event of `AppleGFXHDA` with a failing route request, on
a patcher without a pending error; `processKext` returns with the error pending. -/
theorem processKext_error_on_return_witness :
    (processKext demoParams [] plainHost gfxFailingEvent
        (initialAlcEnabler [] 3, freshPatcher)).2.error = true :=
  (processKext_error_on_return demoParams [] plainHost gfxFailingEvent
    (initialAlcEnabler [] 3, freshPatcher) (by decide)).2 (by decide)

/-- The entry at the index `validateController` returns is the first entry of the table
that satisfies the four-part predicate. -/
theorem validateController_entry (P : Params) (M : Nat) (K : ControllerInfo)
    (T : List ControllerModInfo) (base : Nat) :
    ((validateController P M K T base).bind fun r => T[r - base]?) =
      T.find? fun e => decide (ControllerEntryMatches P M K e) := by
  induction T generalizing base with
  | nil => simp [validateController]
  | cons m ms ih =>
    rw [validateController_step, List.find?_cons]
    by_cases h : ControllerEntryMatches P M K m
    · simp [h]
    · simp only [h, if_false, decide_False]
      rw [← ih (base + 1)]
      cases hv : validateController P M K ms (base + 1) with
      | none => rfl
      | some r =>
        obtain ⟨k, e, hr, -⟩ := (validateController_some P M K ms (base + 1) r).mp hv
        subst hr
        have e1 : base + 1 + k - base = k + 1 := by omega
        have e2 : base + 1 + k - (base + 1) = k := by omega
        simp only [Option.bind, e1, e2, List.getElem?_cons_succ]

theorem find?_swap_disjoint {α : Type} (p : α → Bool) (A B C : List α) (x y : α)
    (hxy : ¬ (p x = true ∧ p y = true))
    (hB : ∀ b ∈ B, ¬ (p b = true ∧ p x = true) ∧ ¬ (p b = true ∧ p y = true)) :
    (A ++ y :: (B ++ x :: C)).find? p = (A ++ x :: (B ++ y :: C)).find? p := by
  simp only [List.find?_append, List.find?_cons]
  cases hpx : p x <;> cases hpy : p y
  · rfl
  · have hBn : B.find? p = none := by
      rw [List.find?_eq_none]
      intro b hb hpb
      exact (hB b hb).2 ⟨hpb, hpy⟩
    simp [hBn]
  · have hBn : B.find? p = none := by
      rw [List.find?_eq_none]
      intro b hb hpb
      exact (hB b hb).1 ⟨hpb, hpx⟩
    simp [hBn]
  · exact absurd ⟨hpx, hpy⟩ hxy

theorem matchedEntry_validate (P : Params) (M : Nat) (T : List ControllerModInfo)
    (K : ControllerInfo) (hK : K.info = none) :
    matchedEntry T
        (match validateController P M K T 0 with
         | some mod => { K with info := some mod }
         | none => K) =
      T.find? fun e => decide (ControllerEntryMatches P M K e) := by
  rw [← validateController_entry P M K T 0]
  cases validateController P M K T 0 with
  | none => simp [matchedEntry, hK]
  | some r => simp [matchedEntry]

theorem matchedEntry_validateControllers (P : Params) (M : Nat) (T : List ControllerModInfo)
    (cs : List ControllerInfo) (hfresh : ∀ c ∈ cs, c.info = none) :
    (validateControllers P T M cs).map (matchedEntry T) =
      cs.map fun K => T.find? fun e => decide (ControllerEntryMatches P M K e) := by
  unfold validateControllers
  rw [List.map_map]
  apply List.map_congr_left
  intro K hK
  exact matchedEntry_validate P M T K (hfresh K hK)

/-- C17, counterexample: the entries `entryRev1` and `entryRev2` cannot both be satisfied
by any key, yet swapping them in the table `[entryRev1, entryAnyRev, entryRev2]` changes
what the controller of revision 2 is matched to: the entry for any revision before the
swap, the entry for revision 2 after it. -/
theorem validateControllers_swap_changes_match :
    (∀ (M : Nat) (K : ControllerInfo),
        ¬ (ControllerEntryMatches demoParams M K entryRev1 ∧
          ControllerEntryMatches demoParams M K entryRev2)) ∧
      (validateControllers demoParams revisionEntries 1 [ich9Rev2]).map
          (matchedEntry revisionEntries) = [some entryAnyRev] ∧
      (validateControllers demoParams revisionEntriesSwapped 1 [ich9Rev2]).map
          (matchedEntry revisionEntriesSwapped) = [some entryRev2] := by
  refine ⟨?_, by decide, by decide⟩
  rintro M K ⟨⟨-, h1, -⟩, ⟨-, h2, -⟩⟩
  simp only [entryRev1, entryRev2, List.mem_singleton] at h1 h2
  rcases h1 with h1 | h1
  · exact absurd h1 (by simp)
  · rcases h2 with h2 | h2
    · exact absurd h2 (by simp)
    · omega

/-- C17, amended: in a table `A ++ x :: (B ++ y :: C)`, swapping `x` and `y` does not
change the entry any instance of a freshly built registry is matched to, provided that
no instance key of the registry satisfies `x` and `y` together, nor `x` or `y` together
with an entry of `B` that lies between them.  For adjacent entries (`B` empty) this is
the condition that no key satisfies both. -/
theorem validateControllers_swap_disjoint (P : Params) (M : Nat)
    (A B C : List ControllerModInfo) (x y : ControllerModInfo) (cs : List ControllerInfo)
    (hfresh : ∀ c ∈ cs, c.info = none)
    (hxy : ∀ K ∈ cs, ¬ (ControllerEntryMatches P M K x ∧ ControllerEntryMatches P M K y))
    (hB : ∀ K ∈ cs, ∀ b ∈ B,
      ¬ (ControllerEntryMatches P M K b ∧ ControllerEntryMatches P M K x) ∧
        ¬ (ControllerEntryMatches P M K b ∧ ControllerEntryMatches P M K y)) :
    (validateControllers P (A ++ y :: (B ++ x :: C)) M cs).map
        (matchedEntry (A ++ y :: (B ++ x :: C))) =
      (validateControllers P (A ++ x :: (B ++ y :: C)) M cs).map
        (matchedEntry (A ++ x :: (B ++ y :: C))) := by
  rw [matchedEntry_validateControllers P M _ cs hfresh,
    matchedEntry_validateControllers P M _ cs hfresh]
  apply List.map_congr_left
  intro K hK
  apply find?_swap_disjoint
  · simpa using hxy K hK
  · intro b hb
    simpa using hB K hK b hb

/-- C17, witness: the adjacent entries `entryRev1` and `entryRev2` in front of the entry
for any revision. -/
theorem validateControllers_swap_disjoint_witness :
    (validateControllers demoParams ([] ++ entryRev2 :: ([] ++ entryRev1 :: [entryAnyRev])) 1
        [ich9Rev2]).map
        (matchedEntry ([] ++ entryRev2 :: ([] ++ entryRev1 :: [entryAnyRev]))) =
      (validateControllers demoParams ([] ++ entryRev1 :: ([] ++ entryRev2 :: [entryAnyRev])) 1
        [ich9Rev2]).map
        (matchedEntry ([] ++ entryRev1 :: ([] ++ entryRev2 :: [entryAnyRev]))) :=
  validateControllers_swap_disjoint demoParams 1 [] [] [entryAnyRev] entryRev1 entryRev2
    [ich9Rev2] (by decide) (by decide) (by decide)

theorem alc_updateDeviceProperties (host : Host) (fw : FirmwareVendor) (r : Nat)
    (ov : LayoutOverride) (n : IORegistryEntry) (g : Option String) :
    (updateDeviceProperties host fw r ov n g true).1.getProperty "alc-layout-id" =
      (refreshAlcLayoutId host fw (fixPlaneName host n true)).getProperty "alc-layout-id" := by
  unfold updateDeviceProperties
  simp only [if_true]
  rw [getProperty_update_tail _ _ _ _ _ _ (by decide) (by decide) (by decide),
    alc_analogProperties]

/-- C18, counterexample: on Apple firmware, without `alcid` and without `use-layout-id`,
an analog node that has a readable legacy `layout-id` and no `alc-layout-id` comes out of
`updateDeviceProperties` without `alc-layout-id`. -/
theorem updateDeviceProperties_apple_ignores_legacy_layout :
    plainHost.bootArg "alcid" = none ∧
      legacyHdef.getProperty "alc-layout-id" = none ∧
      getOSDataValue legacyHdef "layout-id" = some 7 ∧
      (updateDeviceProperties plainHost FirmwareVendor.Apple 3 ⟨false, 0⟩ legacyHdef none
        true).1.getProperty "alc-layout-id" = none := by
  decide

/-- C18, amended: the `alc-layout-id` of the analog node after `updateDeviceProperties`.
With `alcid` it is the boot-argument value.  Without `alcid`: on Apple firmware a readable
pre-existing `alc-layout-id` is kept; when `alc-layout-id` is not readable and the
firmware is not Apple or the node has `use-layout-id`, it is set from a readable legacy
`layout-id`; on Apple firmware without `use-layout-id`, and whenever `layout-id` is not
readable, the property is left as it was. -/
theorem alc_layout_id_priority (host : Host) (fw : FirmwareVendor) (r : Nat)
    (ov : LayoutOverride) (n : IORegistryEntry) (g : Option String) :
    (∀ l, host.bootArg "alcid" = some l →
        (updateDeviceProperties host fw r ov n g true).1.getProperty "alc-layout-id" =
          some (OSObject.data (u32Bytes l))) ∧
      (host.bootArg "alcid" = none → fw = FirmwareVendor.Apple →
        (getOSDataValue n "alc-layout-id").isSome = true →
        (updateDeviceProperties host fw r ov n g true).1.getProperty "alc-layout-id" =
          n.getProperty "alc-layout-id") ∧
      (host.bootArg "alcid" = none → getOSDataValue n "alc-layout-id" = none →
        fw ≠ FirmwareVendor.Apple ∨ (n.getProperty "use-layout-id").isSome = true →
        ∀ v, getOSDataValue n "layout-id" = some v →
        (updateDeviceProperties host fw r ov n g true).1.getProperty "alc-layout-id" =
          some (OSObject.data (u32Bytes v))) ∧
      (host.bootArg "alcid" = none → fw = FirmwareVendor.Apple →
        getOSDataValue n "alc-layout-id" = none → n.getProperty "use-layout-id" = none →
        (updateDeviceProperties host fw r ov n g true).1.getProperty "alc-layout-id" =
          n.getProperty "alc-layout-id") ∧
      (host.bootArg "alcid" = none → getOSDataValue n "layout-id" = none →
        (updateDeviceProperties host fw r ov n g true).1.getProperty "alc-layout-id" =
          n.getProperty "alc-layout-id") := by
  rw [alc_updateDeviceProperties]
  have hp : ∀ k, k ≠ "compatible" →
      (fixPlaneName host n true).getProperty k = n.getProperty k :=
    fun k hk => getProperty_fixPlaneName host n true k hk
  have halc : getOSDataValue (fixPlaneName host n true) "alc-layout-id" =
      getOSDataValue n "alc-layout-id" := getOSDataValue_congr _ _ _ (hp _ (by decide))
  have hlay : getOSDataValue (fixPlaneName host n true) "layout-id" =
      getOSDataValue n "layout-id" := getOSDataValue_congr _ _ _ (hp _ (by decide))
  have huse := hp "use-layout-id" (by decide)
  have ha := hp "alc-layout-id" (by decide)
  unfold refreshAlcLayoutId
  rw [halc, hlay, huse]
  refine ⟨?_, ?_, ?_, ?_, ?_⟩
  · intro l hl
    simp only [hl]
    rw [getProperty_setProperty, if_pos rfl]
  · intro h0 hfw hread
    simp only [h0]
    rw [if_pos ⟨hfw, hread⟩, ha]
  · intro h0 hun hor v hv
    simp only [h0, hun, hv]
    rw [if_neg (by simp), if_pos hor]
    rw [getProperty_setProperty, if_pos rfl]
  · intro h0 hfw hun huse0
    simp only [h0, hun, huse0]
    rw [if_neg (by simp), if_neg (by simp [hfw]), ha]
  · intro h0 hlay0
    simp only [h0, hlay0]
    split_ifs <;> exact ha

/-- C18, witness: on other firmware the legacy `layout-id` 7 becomes `alc-layout-id`. -/
theorem alc_layout_id_priority_witness :
    (updateDeviceProperties plainHost FirmwareVendor.Other 3 ⟨false, 0⟩ legacyHdef none
        true).1.getProperty "alc-layout-id" = some (OSObject.data (u32Bytes 7)) :=
  (alc_layout_id_priority plainHost FirmwareVendor.Other 3 ⟨false, 0⟩ legacyHdef none).2.2.1
    (by decide) (by decide) (by decide) 7 (by decide)

theorem land_lor_eq_zero {a c f : Nat} (h1 : a &&& f = 0) (h2 : c &&& f = 0) :
    (a ||| c) &&& f = 0 := by
  apply Nat.eq_of_testBit_eq
  intro i
  have t1 := congrArg (fun x => x.testBit i) h1
  have t2 := congrArg (fun x => x.testBit i) h2
  simp only [Nat.testBit_and, Nat.zero_testBit] at t1 t2
  simp only [Nat.testBit_and, Nat.testBit_or, Nat.zero_testBit]
  cases ha : a.testBit i <;> cases hc : c.testBit i <;> cases hf : f.testBit i <;> simp_all

theorem validateCodecs_info (vendorMod : List VendorModInfo) (codecs : List CodecInfo) :
    ∀ c ∈ (validateCodecs vendorMod codecs).1, c.info ≠ none := by
  rw [validateCodecs_eq_filterMap]
  intro c hc
  rw [List.mem_filterMap] at hc
  obtain ⟨c0, -, h0⟩ := hc
  cases hv : validateCodec vendorMod c0 with
  | none => simp [hv] at h0
  | some ref =>
    simp only [hv, Option.map_some', Option.some.injEq] at h0
    subst h0
    simp

theorem validateCodecs_nonempty (vendorMod : List VendorModInfo) (codecs : List CodecInfo)
    (h : (validateCodecs vendorMod codecs).2 = true) : (validateCodecs vendorMod codecs).1 ≠ [] := by
  unfold validateCodecs at h ⊢
  simp only [decide_eq_true_eq] at h ⊢
  intro e
  rw [e] at h
  simp at h

theorem grabCodecs_validated (P : Params) (vendorMod : List VendorModInfo) (ev : KextEvent)
    (s : AlcEnabler) (h : (grabCodecs P vendorMod ev s).2 = true) :
    (grabCodecs P vendorMod ev s).1.codecs ≠ [] ∧
      ∀ c ∈ (grabCodecs P vendorMod ev s).1.codecs, c.info ≠ none :=
  ⟨validateCodecs_nonempty vendorMod _ h, validateCodecs_info vendorMod _⟩

theorem routeOnce_codecsLoaded_unset (P : Params) (ev : KextEvent) (k : Nat)
    (st : AlcEnabler × KernelPatcher) (hown : CodecsLoadedOwnBit P)
    (h : st.1.progressState &&& P.CodecsLoaded = 0) :
    (routeOnce P ev k st).1.progressState &&& P.CodecsLoaded = 0 := by
  obtain ⟨-, h7, h8, h9⟩ := hown
  unfold routeOnce
  simp only
  split_ifs <;>
    first
    | exact h
    | exact land_lor_eq_zero h h7
    | exact land_lor_eq_zero h h8
    | exact land_lor_eq_zero h h9
    | exact land_lor_eq_zero (land_lor_eq_zero h h7) h8
    | exact land_lor_eq_zero (land_lor_eq_zero h h7) h9
    | exact land_lor_eq_zero (land_lor_eq_zero h h8) h9
    | exact land_lor_eq_zero (land_lor_eq_zero (land_lor_eq_zero h h7) h8) h9

/-- After the discovery step, the rest of `processKext` does not set `CodecsLoaded`. -/
theorem processKext_tail_codecsLoaded_unset (P : Params) (vendorMod : List VendorModInfo)
    (host : Host) (ev : KextEvent) (k : Nat) (st1 : AlcEnabler × KernelPatcher)
    (hown : CodecsLoadedOwnBit P) (h : st1.1.progressState &&& P.CodecsLoaded = 0) :
    (routeOnce P ev k (routeAppleHDA P host ev k (codecsBlock P vendorMod host ev
      (controllersBlock P host ev k st1)))).1.progressState &&& P.CodecsLoaded = 0 := by
  apply routeOnce_codecsLoaded_unset P ev k _ hown
  rw [progressState_routeAppleHDA]
  have h2 : (controllersBlock P host ev k st1).1.progressState &&& P.CodecsLoaded = 0 := by
    rw [progressState_controllersBlock]; exact h
  unfold codecsBlock
  rw [if_neg (by simpa using h2)]
  exact h2

/-- The discovery step sets `CodecsLoaded` only through a `grabCodecs` call that returned
true, and then holds the registry of that call. -/
theorem discover_sets_codecsLoaded (P : Params) (vendorMod : List VendorModInfo)
    (ev : KextEvent) (k : Nat) (s : AlcEnabler) (hown : CodecsLoadedOwnBit P)
    (h0 : s.progressState &&& P.CodecsLoaded = 0)
    (h1 : (discover P vendorMod ev k s).progressState &&& P.CodecsLoaded ≠ 0) :
    s.progressState &&& P.ControllersLoaded ≠ 0 ∧
      (grabCodecs P vendorMod ev s).2 = true ∧
      (discover P vendorMod ev k s).codecs = (grabCodecs P vendorMod ev s).1.codecs := by
  unfold discover at h1 ⊢
  by_cases hc : s.progressState &&& P.ControllersLoaded = 0
  · rw [if_pos hc] at h1
    simp only [progressState_grabControllers] at h1
    exact absurd (land_lor_eq_zero h0 hown.1) h1
  · rw [if_neg hc] at h1 ⊢
    refine ⟨hc, ?_⟩
    by_cases hg : s.progressState &&& P.CodecsLoaded = 0 ∧
        (P.kextList[k]?.map (fun e => e.user0)).getD 0 ≠ 0
    · rw [if_pos hg] at h1 ⊢
      simp only at h1 ⊢
      by_cases hr : (grabCodecs P vendorMod ev s).2 = true
      · rw [if_pos hr]
        exact ⟨hr, rfl⟩
      · rw [if_neg hr] at h1
        exact absurd h0 h1
    · rw [if_neg hg] at h1
      exact absurd h0 h1

theorem discover_validated (P : Params) (vendorMod : List VendorModInfo)
    (ev : KextEvent) (k : Nat) (s : AlcEnabler) (hown : CodecsLoadedOwnBit P)
    (h : CodecsValidated P s) : CodecsValidated P (discover P vendorMod ev k s) := by
  intro h1
  by_cases h0 : s.progressState &&& P.CodecsLoaded = 0
  · obtain ⟨-, hr, hcod⟩ := discover_sets_codecsLoaded P vendorMod ev k s hown h0 h1
    rw [hcod]
    exact grabCodecs_validated P vendorMod ev s hr
  · have hold := h h0
    have hsame : (discover P vendorMod ev k s).codecs = s.codecs := by
      unfold discover
      by_cases hc : s.progressState &&& P.ControllersLoaded = 0
      · rw [if_pos hc]
        exact (grabControllers_codecs P ev s).1
      · rw [if_neg hc, if_neg (fun hg => h0 hg.1)]
    rw [hsame]
    exact hold

theorem processKext_validated (P : Params) (vendorMod : List VendorModInfo) (host : Host)
    (ev : KextEvent) (st : AlcEnabler × KernelPatcher) (hown : CodecsLoadedOwnBit P)
    (h : CodecsValidated P st.1) :
    CodecsValidated P (processKext P vendorMod host ev st).1 := by
  unfold processKext
  simp only
  generalize findKextIndex ev.index P.kextList 0 = k
  split
  · exact h
  · split
    · exact h
    · have hd := discover_validated P vendorMod ev k st.1 hown h
      intro hfin
      rw [(processKext_tail_registries P vendorMod host ev k
        (discover P vendorMod ev k st.1, st.2)).1]
      apply hd
      intro h0
      exact hfin (processKext_tail_codecsLoaded_unset P vendorMod host ev k
        (discover P vendorMod ev k st.1, st.2) hown h0)

theorem processKexts_validated (P : Params) (vendorMod : List VendorModInfo) (host : Host)
    (events : List KextEvent) (st : AlcEnabler × KernelPatcher) (hown : CodecsLoadedOwnBit P)
    (h : CodecsValidated P st.1) :
    CodecsValidated P (processKexts P vendorMod host events st).1 := by
  induction events generalizing st with
  | nil => exact h
  | cons ev rest ih =>
    simp only [processKexts, List.foldl_cons] at ih ⊢
    exact ih _ (processKext_validated P vendorMod host ev st hown h)

theorem processKext_sets_codecsLoaded (P : Params) (vendorMod : List VendorModInfo)
    (host : Host) (ev : KextEvent) (st : AlcEnabler × KernelPatcher)
    (hown : CodecsLoadedOwnBit P) (h0 : st.1.progressState &&& P.CodecsLoaded = 0)
    (h1 : (processKext P vendorMod host ev st).1.progressState &&& P.CodecsLoaded ≠ 0) :
    (grabCodecs P vendorMod ev st.1).2 = true ∧
      (processKext P vendorMod host ev st).1.codecs =
        (grabCodecs P vendorMod ev st.1).1.codecs := by
  unfold processKext at h1 ⊢
  simp only at h1 ⊢
  generalize findKextIndex ev.index P.kextList 0 = k at h1 ⊢
  by_cases ht : k = P.kextList.length
  · rw [if_pos ht] at h1
    exact absurd h0 h1
  · rw [if_neg ht] at h1 ⊢
    by_cases hg : k = P.KextIdAppleGFXHDA
    · rw [if_pos hg] at h1
      exact absurd h0 h1
    · rw [if_neg hg] at h1 ⊢
      have hd : (discover P vendorMod ev k st.1).progressState &&& P.CodecsLoaded ≠ 0 := by
        intro hz
        exact h1 (processKext_tail_codecsLoaded_unset P vendorMod host ev k
          (discover P vendorMod ev k st.1, st.2) hown hz)
      obtain ⟨-, hr, hcod⟩ := discover_sets_codecsLoaded P vendorMod ev k st.1 hown h0 hd
      refine ⟨hr, ?_⟩
      rw [(processKext_tail_registries P vendorMod host ev k
        (discover P vendorMod ev k st.1, st.2)).1]
      exact hcod

/-- C19: in every state reached by a sequence of module-load events from a state in which
`CodecsLoaded` is unset, a set `CodecsLoaded` bit means that the codec registry is
non-empty and that every codec in it has a non-null `info`; and an event sets the bit
only when its `grabCodecs` call returned true, with the validated registry of that call,
which is non-empty.  `CodecsLoaded` is taken to share no bit with the other flags. -/
theorem codecsLoaded_invariant (P : Params) (vendorMod : List VendorModInfo) (host : Host)
    (events : List KextEvent) (st : AlcEnabler × KernelPatcher)
    (hown : CodecsLoadedOwnBit P) (hinit : st.1.progressState &&& P.CodecsLoaded = 0) :
    ((processKexts P vendorMod host events st).1.progressState &&& P.CodecsLoaded ≠ 0 →
        (processKexts P vendorMod host events st).1.codecs ≠ [] ∧
          ∀ c ∈ (processKexts P vendorMod host events st).1.codecs, c.info ≠ none) ∧
      (∀ (ev : KextEvent) (st1 : AlcEnabler × KernelPatcher),
        st1.1.progressState &&& P.CodecsLoaded = 0 →
        (processKext P vendorMod host ev st1).1.progressState &&& P.CodecsLoaded ≠ 0 →
        (grabCodecs P vendorMod ev st1.1).2 = true ∧
          (processKext P vendorMod host ev st1).1.codecs =
            (grabCodecs P vendorMod ev st1.1).1.codecs ∧
          (grabCodecs P vendorMod ev st1.1).1.codecs ≠ []) := by
  refine ⟨processKexts_validated P vendorMod host events st hown (fun h => absurd hinit h), ?_⟩
  intro ev st1 h0 h1
  obtain ⟨hr, hcod⟩ := processKext_sets_codecsLoaded P vendorMod host ev st1 hown h0 h1
  exact ⟨hr, hcod, (grabCodecs_validated P vendorMod ev st1.1 hr).1⟩

/-- C19, witness: two load events of `AppleHDA` in the example set `CodecsLoaded` and
leave one validated codec. -/
theorem codecsLoaded_invariant_witness :
    (processKexts demoParams twoCodecTable plainHost [codecKextEvent, codecKextEvent]
        (initialAlcEnabler [] 3, freshPatcher)).1.progressState &&&
          demoParams.CodecsLoaded ≠ 0 ∧
      (processKexts demoParams twoCodecTable plainHost [codecKextEvent, codecKextEvent]
        (initialAlcEnabler [] 3, freshPatcher)).1.codecs ≠ [] ∧
      ∀ c ∈ (processKexts demoParams twoCodecTable plainHost [codecKextEvent, codecKextEvent]
        (initialAlcEnabler [] 3, freshPatcher)).1.codecs, c.info ≠ none :=
  ⟨by decide,
    (codecsLoaded_invariant demoParams twoCodecTable plainHost [codecKextEvent, codecKextEvent]
      (initialAlcEnabler [] 3, freshPatcher) (by decide) (by decide)).1 (by decide)⟩

theorem chooseNvidiaIds_shape (P : Params) (i : Nat) (patches : List KextPatch) (j : Nat)
    (pool : NvidiaPool) :
    (chooseNvidiaIds P i patches j pool).1.map KextPatch.shape =
      patches.map KextPatch.shape := by
  induction patches generalizing j pool with
  | nil => rfl
  | cons kp rest ih =>
    simp only [chooseNvidiaIds]
    split
    · split
      · simp only [List.map_cons, ih]
        rfl
      · simp only [List.map_cons, ih]
    · simp only [List.map_cons, ih]

theorem patchShapes_set (T : List ControllerModInfo) (mod : Nat) (info : ControllerModInfo)
    (patches : List KextPatch) (hm : T[mod]? = some info)
    (hp : patches.map KextPatch.shape = info.patches.map KextPatch.shape) :
    patchShapes (T.set mod { info with patches := patches }) = patchShapes T := by
  unfold patchShapes
  rw [List.map_set]
  apply set_of_getElem?
  rw [List.getElem?_map, hm]
  simp only [Option.map_some', hp]

theorem policyCalls_cons (S : List (List KextPatch)) (c : ControllerInfo)
    (rest : List ControllerInfo) (i : Nat) :
    policyCalls S (c :: rest) i =
      (match (if c.nopatch = true then none
          else c.info.bind fun mod => S[mod]?.map fun ps => (i, ps)) with
        | none => policyCalls S rest (i + 1)
        | some b => b :: policyCalls S rest (i + 1)) := by
  unfold policyCalls
  rw [List.enumFrom_cons, List.filterMap_cons]
  dsimp only
  generalize (if c.nopatch = true then none
    else c.info.bind fun mod => S[mod]?.map fun ps => (i, ps)) = o
  cases o <;> rfl

/-- The calls of the controller loop are those of the patch policy, up to the `find`
patterns the NVIDIA id substitution rewrites. -/
theorem controllerPatchCalls_policy (P : Params) (host : Host) (ev : KextEvent)
    (S : List (List KextPatch)) (cs : List ControllerInfo) (i : Nat) (st : ControllerPatching)
    (hS : patchShapes st.controllerMod = S) :
    (controllerPatchCalls P host ev cs i st).map
        (fun call => (call.1, call.2.map KextPatch.shape)) = policyCalls S cs i := by
  induction cs generalizing i st with
  | nil => rfl
  | cons c rest ih =>
    rw [policyCalls_cons]
    cases hci : c.info with
    | none =>
      simp only [controllerPatchCalls, hci, Option.bind, ite_self]
      exact ih (i + 1) st hS
    | some mod =>
      have hSm : S[mod]? = (st.controllerMod[mod]?).map fun e => e.patches.map KextPatch.shape := by
        rw [← hS]
        unfold patchShapes
        rw [List.getElem?_map]
      cases hm : st.controllerMod[mod]? with
      | none =>
        rw [hm] at hSm
        simp only [controllerPatchCalls, hci, hm, Option.bind, hSm, Option.map_none', ite_self]
        exact ih (i + 1) st hS
      | some info =>
        rw [hm] at hSm
        have hr : (if info.vendor = VendorIDNVIDIA then
              chooseNvidiaIds P i info.patches 0 st.pool
            else (info.patches, st.pool)).1.map KextPatch.shape =
            info.patches.map KextPatch.shape := by
          split
          · exact chooseNvidiaIds_shape P i info.patches 0 st.pool
          · rfl
        have hT := patchShapes_set st.controllerMod mod info _ hm hr
        simp only [controllerPatchCalls, hci, hm, Option.bind, hSm, Option.map_some']
        cases hn : c.nopatch with
        | true =>
          simp only [if_true]
          exact ih (i + 1) ⟨_, _, _⟩ (hT.trans hS)
        | false =>
          simp only [Bool.false_eq_true, if_false, List.map_cons, hr]
          rw [ih (i + 1) ⟨_, _, _⟩ (hT.trans hS)]

/-- The patcher after the controller loop is the patcher after its `applyPatches` calls. -/
theorem patchControllers_patcher (P : Params) (host : Host) (ev : KextEvent)
    (cs : List ControllerInfo) (i : Nat) (st : ControllerPatching) :
    (patchControllers P host ev cs i st).patcher =
      (controllerPatchCalls P host ev cs i st).foldl
        (fun p call => applyPatches host ev ev.index call.2 p) st.patcher := by
  induction cs generalizing i st with
  | nil => rfl
  | cons c rest ih =>
    cases hci : c.info with
    | none =>
      simp only [patchControllers, controllerPatchCalls, hci]
      exact ih (i + 1) st
    | some mod =>
      cases hm : st.controllerMod[mod]? with
      | none =>
        simp only [patchControllers, controllerPatchCalls, hci, hm]
        exact ih (i + 1) st
      | some info =>
        simp only [patchControllers, controllerPatchCalls, hci, hm]
        cases hn : c.nopatch with
        | true =>
          simp only [if_true]
          exact ih (i + 1) ⟨_, _, _⟩
        | false =>
          simp only [Bool.false_eq_true, if_false, List.foldl_cons]
          exact ih (i + 1) ⟨_, _, _⟩

theorem controllersBlock_patcher (P : Params) (host : Host) (ev : KextEvent) (k : Nat)
    (st1 : AlcEnabler × KernelPatcher)
    (hset : st1.1.progressState &&& P.ControllersLoaded ≠ 0) :
    (controllersBlock P host ev k st1).2 =
      if host.debugEnabled = true then
        (controllerPatchCalls P host ev st1.1.controllers 0
          { controllerMod := st1.1.controllerMod, pool := st1.1.pool, patcher := st1.2 }).foldl
          (fun p call => applyPatches host ev ev.index call.2 p) st1.2
      else
        eraseRedundantLogs P ev k
          ((controllerPatchCalls P host ev st1.1.controllers 0
            { controllerMod := st1.1.controllerMod, pool := st1.1.pool,
              patcher := st1.2 }).foldl
            (fun p call => applyPatches host ev ev.index call.2 p) st1.2) := by
  unfold controllersBlock
  rw [if_pos hset]
  have h := patchControllers_patcher P host ev st1.1.controllers 0
    { controllerMod := st1.1.controllerMod, pool := st1.1.pool, patcher := st1.2 }
  simp only [AlcEnabler.pool] at h ⊢
  rw [h]

/-- C20, counterexample: the load event of the tracked module `AppleGFXHDA` arrives
with `ControllersLoaded` set; the registry holds a matched controller without the
`nopatch` flag, whose patch set has a patch for that module which `applyPatches` would
apply, but the event returns without any patch applied. -/
theorem processKext_gfx_applies_no_controller_patch :
    findKextIndex gfxKextEvent.index demoParams.kextList 0 ≠ demoParams.kextList.length ∧
      gfxPatchState.progressState &&& demoParams.ControllersLoaded ≠ 0 ∧
      (policyCalls (gfxPatchState.controllerMod.map fun e => e.patches)
        gfxPatchState.controllers 0).length = 1 ∧
      (∀ call ∈ policyCalls (gfxPatchState.controllerMod.map fun e => e.patches)
          gfxPatchState.controllers 0,
        (applyPatches plainHost gfxKextEvent gfxKextEvent.index call.2
          freshPatcher).applied.length = 1) ∧
      (processKext demoParams [] plainHost gfxKextEvent
        (gfxPatchState, freshPatcher)).2.applied = [] := by
  decide

/-- C20, amended: on every event of a tracked module other than `AppleGFXHDA`, the
controller loop calls `applyPatches` exactly for the controllers with a non-null `info`
and `nopatch` false, once each in registry order, with the patch set of the matched entry
(in which the NVIDIA id substitution may have rewritten `find` patterns); the patcher
leaves the block as these calls, followed by `eraseRedundantLogs` unless debugging is
enabled, make it; and `processKext` continues from there.  On the `AppleGFXHDA` slot no
patch is applied. -/
theorem processKext_controller_patch_policy (P : Params) (vendorMod : List VendorModInfo)
    (host : Host) (ev : KextEvent) (st : AlcEnabler × KernelPatcher)
    (hflag : P.ControllersLoaded ≠ 0)
    (htracked : findKextIndex ev.index P.kextList 0 ≠ P.kextList.length) :
    (findKextIndex ev.index P.kextList 0 = P.KextIdAppleGFXHDA →
        (processKext P vendorMod host ev st).2.applied = st.2.applied) ∧
      (findKextIndex ev.index P.kextList 0 ≠ P.KextIdAppleGFXHDA →
        (controllerCalls P vendorMod host ev st).map
            (fun call => (call.1, call.2.map KextPatch.shape)) =
          policyCalls (patchShapes (controllersEntry P vendorMod ev st).controllerMod)
            (controllersEntry P vendorMod ev st).controllers 0 ∧
        (controllersBlock P host ev (findKextIndex ev.index P.kextList 0)
            (controllersEntry P vendorMod ev st, st.2)).2 =
          (if host.debugEnabled = true then
            (controllerCalls P vendorMod host ev st).foldl
              (fun p call => applyPatches host ev ev.index call.2 p) st.2
          else
            eraseRedundantLogs P ev (findKextIndex ev.index P.kextList 0)
              ((controllerCalls P vendorMod host ev st).foldl
                (fun p call => applyPatches host ev ev.index call.2 p) st.2)) ∧
        processKext P vendorMod host ev st =
          ((routeOnce P ev (findKextIndex ev.index P.kextList 0)
            (routeAppleHDA P host ev (findKextIndex ev.index P.kextList 0)
              (codecsBlock P vendorMod host ev
                (controllersBlock P host ev (findKextIndex ev.index P.kextList 0)
                  (controllersEntry P vendorMod ev st, st.2))))).1,
           (routeOnce P ev (findKextIndex ev.index P.kextList 0)
            (routeAppleHDA P host ev (findKextIndex ev.index P.kextList 0)
              (codecsBlock P vendorMod host ev
                (controllersBlock P host ev (findKextIndex ev.index P.kextList 0)
                  (controllersEntry P vendorMod ev st, st.2))))).2.clearError)) := by
  constructor
  · intro hg
    unfold processKext
    simp only
    rw [if_neg htracked, if_pos hg]
    rfl
  · intro hg
    refine ⟨controllerPatchCalls_policy P host ev _ _ 0 _ rfl, ?_, ?_⟩
    · exact controllersBlock_patcher P host ev _ (controllersEntry P vendorMod ev st, st.2)
        (discover_sets_controllers P vendorMod ev _ st.1 hflag)
    · unfold processKext
      simp only
      rw [if_neg htracked, if_neg hg]
      rfl

/-- C20, witness: the load event of `AppleHDAController` on a registry of two matched
NVIDIA controllers makes two calls, for the controllers 0 and 1. -/
theorem processKext_controller_patch_policy_witness :
    (controllerCalls demoParams [] plainHost controllerKextEvent
        (twoNvidiaState, freshPatcher)).map
        (fun call => (call.1, call.2.map KextPatch.shape)) =
      policyCalls
        (patchShapes (controllersEntry demoParams [] controllerKextEvent
          (twoNvidiaState, freshPatcher)).controllerMod)
        (controllersEntry demoParams [] controllerKextEvent
          (twoNvidiaState, freshPatcher)).controllers 0 :=
  ((processKext_controller_patch_policy demoParams [] plainHost controllerKextEvent
    (twoNvidiaState, freshPatcher) (by decide) (by decide)).2 (by decide)).1

theorem getD_set_true (usage : List Bool) (idx i : Nat) (h : idx < usage.length) :
    (usage.set idx true).getD i false = (usage.getD i false || decide (i = idx)) := by
  simp only [List.getD_eq_getElem?_getD, List.getElem?_set]
  by_cases e : idx = i
  · subst e; simp [h]
  · have : ¬ i = idx := fun h => e h.symm
    simp [e, this]

theorem nextFreeNvidiaId_skipped (usage : List Bool) (max fuel cur c : Nat) (o : Option Nat)
    (h : nextFreeNvidiaId usage max fuel cur = (c, o)) :
    ∀ i, cur ≤ i → i < c → o ≠ some i → usage.getD i false = true := by
  induction fuel generalizing cur with
  | zero =>
    simp only [nextFreeNvidiaId, Prod.mk.injEq] at h
    intro i h1 h2
    omega
  | succ fuel ih =>
    simp only [nextFreeNvidiaId] at h
    split at h
    · split at h
      · simp only [Prod.mk.injEq] at h
        obtain ⟨h1, h2⟩ := h
        intro i hi1 hi2 hne
        have : i = cur := by omega
        subst this
        exact absurd h2.symm hne
      · rename_i hused
        intro i hi1 hi2 hne
        by_cases e : i = cur
        · subst e
          simpa using hused
        · exact ih (cur + 1) h i (by omega) hi2 hne
    · simp only [Prod.mk.injEq] at h
      intro i h1 h2
      omega

theorem nextFreeNvidiaId_le_max (usage : List Bool) (max fuel cur c : Nat) (o : Option Nat)
    (h : nextFreeNvidiaId usage max fuel cur = (c, o)) (hcur : cur ≤ max) : c ≤ max := by
  induction fuel generalizing cur with
  | zero =>
    simp only [nextFreeNvidiaId, Prod.mk.injEq] at h
    omega
  | succ fuel ih =>
    simp only [nextFreeNvidiaId] at h
    split at h
    · split at h
      · simp only [Prod.mk.injEq] at h
        omega
      · exact ih (cur + 1) h (by omega)
    · simp only [Prod.mk.injEq] at h
      omega

theorem filter_range'_used (usage : List Bool) (a n : Nat)
    (h : ∀ i, a ≤ i → i < a + n → usage.getD i false = true) :
    (List.range' a n).filter (fun i => !usage.getD i false) = [] := by
  rw [List.filter_eq_nil_iff]
  intro i hi
  rw [List.mem_range'_1] at hi
  rw [h i hi.1 hi.2]
  decide

theorem firstUnusedWins_refl (max : Nat) (p : NvidiaPool) : FirstUnusedWins max p p := by
  refine ⟨Nat.le_refl _, fun h => h, rfl, fun i => ?_, [], by simp, by simp⟩
  have : ¬ (p.current ≤ i ∧ i < p.current) := by omega
  simp [this]

theorem firstUnusedWins_trans (max : Nat) (p p' p'' : NvidiaPool)
    (h1 : FirstUnusedWins max p p') (h2 : FirstUnusedWins max p' p'') :
    FirstUnusedWins max p p'' := by
  obtain ⟨a1, b1, c1, d1, new1, e1, f1⟩ := h1
  obtain ⟨a2, b2, c2, d2, new2, e2, f2⟩ := h2
  refine ⟨by omega, fun h => b2 (b1 h), by rw [c2, c1], fun i => ?_, new1 ++ new2, ?_, ?_⟩
  · rw [d2, d1, Bool.or_assoc]
    congr 1
    rw [Bool.eq_iff_iff]
    simp only [Bool.or_eq_true, decide_eq_true_eq]
    omega
  · rw [e2, e1, List.append_assoc]
  · have hsplit : List.range' p.current (p''.current - p.current) =
        List.range' p.current (p'.current - p.current) ++
          List.range' p'.current (p''.current - p'.current) := by
      have := List.range'_append_1 p.current (p'.current - p.current)
        (p''.current - p'.current)
      rw [show p.current + (p'.current - p.current) = p'.current by omega] at this
      rw [this]
      congr 1
      omega
    rw [List.map_append, f1, f2, hsplit, List.filter_append]
    congr 1
    apply List.filter_congr
    intro i hi
    rw [List.mem_range'_1] at hi
    rw [d1]
    have : ¬ (p.current ≤ i ∧ i < p'.current) := by omega
    simp [this]

theorem firstUnusedWins_assign (max : Nat) (pool : NvidiaPool) (fuel c idx : Nat)
    (a : NvidiaAssignment) (ha : a.poolIndex = idx)
    (h : nextFreeNvidiaId pool.usage max fuel pool.current = (c, some idx))
    (hlen : max ≤ pool.usage.length) :
    FirstUnusedWins max pool
      { usage := pool.usage.set idx true, current := c, assigned := pool.assigned ++ [a] } := by
  obtain ⟨h1, h2, h3, h4⟩ := nextFreeNvidiaId_some _ _ _ _ _ _ h
  have hskip := nextFreeNvidiaId_skipped _ _ _ _ _ _ h
  subst h3
  refine ⟨by simp only; omega, fun _ => by simp only; omega, List.length_set _ _ _,
    fun i => ?_, [a], rfl, ?_⟩
  · simp only
    rw [getD_set_true _ _ _ (by omega), Bool.eq_iff_iff]
    simp only [Bool.or_eq_true, decide_eq_true_eq]
    constructor
    · rintro (hu | hi)
      · exact Or.inl hu
      · exact Or.inr (by omega)
    · rintro (hu | hi)
      · exact Or.inl hu
      · by_cases e : i = idx
        · exact Or.inr e
        · exact Or.inl (hskip i hi.1 hi.2 (by simpa using fun x => e x.symm))
  · have hn : idx + 1 - pool.current = (idx - pool.current) + 1 := by omega
    have hs : pool.current + (idx - pool.current) = idx := by omega
    simp only [List.map_cons, List.map_nil, ha]
    rw [hn, List.range'_1_concat, hs, List.filter_append,
      filter_range'_used pool.usage pool.current (idx - pool.current)
        (fun i hi1 hi2 => hskip i hi1 (by omega) (by simp; omega))]
    rw [List.nil_append, List.filter_cons, h4]
    rfl

theorem firstUnusedWins_skip (max : Nat) (pool : NvidiaPool) (fuel c : Nat)
    (h : nextFreeNvidiaId pool.usage max fuel pool.current = (c, none)) :
    FirstUnusedWins max pool { pool with current := c } := by
  have h1 := nextFreeNvidiaId_none _ _ _ _ _ h
  have hskip := nextFreeNvidiaId_skipped _ _ _ _ _ _ h
  refine ⟨h1, fun hc => nextFreeNvidiaId_le_max _ _ _ _ _ _ h hc, rfl, fun i => ?_, [],
    by simp, ?_⟩
  · simp only
    rw [Bool.eq_iff_iff]
    simp only [Bool.or_eq_true, decide_eq_true_eq]
    constructor
    · exact fun hu => Or.inl hu
    · rintro (hu | hi)
      · exact hu
      · exact hskip i hi.1 hi.2 (by simp)
  · simp only [List.map_nil]
    rw [filter_range'_used pool.usage pool.current (c - pool.current)
      (fun i hi1 hi2 => hskip i hi1 (by omega) (by simp))]

theorem chooseNvidiaIds_firstUnused (P : Params) (i : Nat) (patches : List KextPatch) (j : Nat)
    (pool : NvidiaPool) (hlen : P.MaxNvidiaDeviceIds ≤ pool.usage.length) :
    FirstUnusedWins P.MaxNvidiaDeviceIds pool (chooseNvidiaIds P i patches j pool).2 := by
  induction patches generalizing j pool with
  | nil => exact firstUnusedWins_refl _ _
  | cons kp rest ih =>
    simp only [chooseNvidiaIds]
    split
    · split
      · rename_i current idx hnext
        have hstep := firstUnusedWins_assign P.MaxNvidiaDeviceIds pool _ current idx
          { controller := i, patch := j, poolIndex := idx } rfl hnext hlen
        refine firstUnusedWins_trans _ _ _ _ hstep (ih (j + 1) _ ?_)
        simp only [List.length_set]
        exact hlen
      · rename_i current hnext
        have hstep := firstUnusedWins_skip P.MaxNvidiaDeviceIds pool _ current hnext
        exact firstUnusedWins_trans _ _ _ _ hstep (ih (j + 1) _ hlen)
    · exact ih (j + 1) pool hlen

theorem patchControllers_firstUnused (P : Params) (host : Host) (ev : KextEvent)
    (cs : List ControllerInfo) (i : Nat) (st : ControllerPatching)
    (hlen : P.MaxNvidiaDeviceIds ≤ st.pool.usage.length) :
    FirstUnusedWins P.MaxNvidiaDeviceIds st.pool (patchControllers P host ev cs i st).pool := by
  induction cs generalizing i st with
  | nil => exact firstUnusedWins_refl _ _
  | cons c rest ih =>
    cases hci : c.info with
    | none =>
      rw [patchControllers_cons_none P host ev c rest i st hci]
      exact ih (i + 1) st hlen
    | some mod =>
      cases hm : st.controllerMod[mod]? with
      | none =>
        rw [patchControllers_cons_dangling P host ev c rest i st mod hci hm]
        exact ih (i + 1) st hlen
      | some info =>
        rw [patchControllers_cons_some P host ev c rest i st mod info hci hm]
        have hstep : FirstUnusedWins P.MaxNvidiaDeviceIds st.pool
            (if info.vendor = VendorIDNVIDIA then chooseNvidiaIds P i info.patches 0 st.pool
             else (info.patches, st.pool)).2 := by
          split
          · exact chooseNvidiaIds_firstUnused P i info.patches 0 st.pool hlen
          · exact firstUnusedWins_refl _ _
        refine firstUnusedWins_trans _ _ _ _ hstep (ih (i + 1) ⟨_, _, _⟩ ?_)
        simp only
        rw [hstep.2.2.1]
        exact hlen

theorem marksKept_refl (u : List Bool) : MarksKept u u := ⟨rfl, fun _ h => h⟩

theorem marksKept_trans {u u' u'' : List Bool} (h1 : MarksKept u u') (h2 : MarksKept u' u'') :
    MarksKept u u'' :=
  ⟨by rw [h2.1, h1.1], fun i h => h2.2 i (h1.2 i h)⟩

theorem marksKept_set (u : List Bool) (idx : Nat) : MarksKept u (u.set idx true) := by
  refine ⟨List.length_set _ _ _, fun i h => ?_⟩
  simp only [List.getD_eq_getElem?_getD, List.getElem?_set] at h ⊢
  by_cases e : idx = i
  · subst e
    by_cases hl : idx < u.length
    · simp [hl]
    · have : u[idx]? = none := List.getElem?_eq_none (by omega)
      rw [this] at h
      simp at h
  · simp [e, h]

theorem markNvidiaDeviceId_marksKept (device : Nat) (ids : List Nat) (i : Nat)
    (usage : List Bool) : MarksKept usage (markNvidiaDeviceId device ids i usage) := by
  induction ids generalizing i usage with
  | nil => exact marksKept_refl _
  | cons id rest ih =>
    simp only [markNvidiaDeviceId]
    split
    · exact marksKept_trans (marksKept_set usage i) (ih _ _)
    · exact ih _ _

theorem discoveryStep_refl (s : AlcEnabler) : DiscoveryStep s s :=
  ⟨rfl, rfl, rfl, Nat.le_refl _, marksKept_refl _⟩

theorem discoveryStep_trans {s s' s'' : AlcEnabler} (h1 : DiscoveryStep s s')
    (h2 : DiscoveryStep s' s'') : DiscoveryStep s s'' :=
  ⟨by rw [h2.1, h1.1], by rw [h2.2.1, h1.2.1], by rw [h2.2.2.1, h1.2.2.1],
    Nat.le_trans h1.2.2.2.1 h2.2.2.2.1, marksKept_trans h1.2.2.2.2 h2.2.2.2.2⟩

theorem discoveryStep_insertController (s : AlcEnabler) (ven dev rev : Nat) (np : Bool)
    (pl lid : Nat) (det : Option Nat) :
    DiscoveryStep s (insertController s ven dev rev np pl lid det) :=
  ⟨rfl, rfl, rfl, by simp [insertController], marksKept_refl _⟩

theorem discoveryStep_updateBuiltinDigital (host : Host) (has : Bool) (s : AlcEnabler)
    (d : DeviceInfo) : DiscoveryStep s (updateBuiltinDigital host has s d).1 := by
  unfold updateBuiltinDigital
  split
  · exact discoveryStep_refl _
  · split
    · split
      · simp only
        split
        · refine discoveryStep_trans ?_ (discoveryStep_insertController _ _ _ _ _ _ _ _)
          exact ⟨rfl, rfl, rfl, Nat.le_refl _, marksKept_refl _⟩
        · exact ⟨rfl, rfl, rfl, Nat.le_refl _, marksKept_refl _⟩
      · exact discoveryStep_refl _
    · exact discoveryStep_refl _

theorem discoveryStep_updateBuiltinAnalog (host : Host) (has : Bool) (s : AlcEnabler)
    (d : DeviceInfo) : DiscoveryStep s (updateBuiltinAnalog host has s d).1 := by
  unfold updateBuiltinAnalog
  split
  · exact discoveryStep_refl _
  · split
    · exact ⟨rfl, rfl, rfl, Nat.le_refl _, marksKept_refl _⟩
    · exact discoveryStep_refl _

theorem discoveryStep_updateBuiltinVideo (has : Bool) (s : AlcEnabler) (d : DeviceInfo) :
    DiscoveryStep s (updateBuiltinVideo has s d).1 := by
  unfold updateBuiltinVideo
  split
  · exact discoveryStep_refl _
  · split
    · simp only
      split
      · split
        · exact discoveryStep_insertController _ _ _ _ _ _ _ _
        · exact discoveryStep_refl _
      · exact discoveryStep_refl _
    · exact discoveryStep_refl _

theorem discoveryStep_updateExternalGpu (P : Params) (host : Host) (d : DeviceInfo)
    (before after : List ExternalVideo) (ev : ExternalVideo) (st : GpuLoop) :
    DiscoveryStep st.alc (updateExternalGpu P host d before after ev st).1.alc := by
  unfold updateExternalGpu
  split
  · exact discoveryStep_refl _
  · split
    · simp only
      refine ⟨?_, ?_, ?_, ?_, ?_⟩ <;>
        split_ifs <;> (try split) <;>
        first
        | rfl
        | exact Nat.le_refl _
        | exact marksKept_refl _
        | exact markNvidiaDeviceId_marksKept _ _ _ _
        | simp [insertController]
    · exact discoveryStep_refl _

theorem discoveryStep_updateExternalGpus (P : Params) (host : Host) (d : DeviceInfo)
    (done todo : List ExternalVideo) (st : GpuLoop) :
    DiscoveryStep st.alc (updateExternalGpus P host d done todo st).1.alc := by
  induction todo generalizing done st with
  | nil => exact discoveryStep_refl _
  | cons ev rest ih =>
    simp only [updateExternalGpus]
    exact discoveryStep_trans (discoveryStep_updateExternalGpu P host d done rest ev st)
      (ih _ _)

theorem discoveryStep_updateProperties (P : Params) (host : Host)
    (devInfo : Option DeviceInfo) (s : AlcEnabler) :
    DiscoveryStep s (updateProperties P host devInfo s).1 := by
  unfold updateProperties
  cases devInfo with
  | none => exact discoveryStep_refl _
  | some d0 =>
    simp only
    refine discoveryStep_trans ?_ (discoveryStep_updateExternalGpus P host _ _ _ _)
    exact discoveryStep_trans (discoveryStep_updateBuiltinDigital host _ s d0)
      (discoveryStep_trans (discoveryStep_updateBuiltinAnalog host _ _ _)
        (discoveryStep_updateBuiltinVideo _ _ _))

theorem controllersBlock_firstUnused (P : Params) (host : Host) (ev : KextEvent) (k : Nat)
    (st : AlcEnabler × KernelPatcher)
    (hlen : P.MaxNvidiaDeviceIds ≤ st.1.nvidiaDeviceIdUsage.length) :
    FirstUnusedWins P.MaxNvidiaDeviceIds st.1.pool
      (controllersBlock P host ev k st).1.pool := by
  unfold controllersBlock
  split
  · exact patchControllers_firstUnused P host ev st.1.controllers 0 ⟨_, _, _⟩ hlen
  · exact firstUnusedWins_refl _ _

theorem processKext_firstUnused (P : Params) (vendorMod : List VendorModInfo) (host : Host)
    (ev : KextEvent) (st : AlcEnabler × KernelPatcher)
    (hlen : P.MaxNvidiaDeviceIds ≤ st.1.nvidiaDeviceIdUsage.length) :
    FirstUnusedWins P.MaxNvidiaDeviceIds st.1.pool
      (processKext P vendorMod host ev st).1.pool := by
  unfold processKext
  simp only
  generalize findKextIndex ev.index P.kextList 0 = k
  split
  · exact firstUnusedWins_refl _ _
  · split
    · exact firstUnusedWins_refl _ _
    · rw [(processKext_tail_frame P vendorMod host ev k _).1]
      have hd := (discover_frame P vendorMod ev k st.1).1
      have h := controllersBlock_firstUnused P host ev k (discover P vendorMod ev k st.1, st.2)
        (by
          have := congrArg NvidiaPool.usage hd
          simp only [AlcEnabler.pool] at this
          simp only [this]
          exact hlen)
      rw [hd] at h
      exact h

theorem poolOrdered_of_firstUnused (P : Params) (p p' : NvidiaPool) (hord : PoolOrdered P p)
    (h : FirstUnusedWins P.MaxNvidiaDeviceIds p p') : PoolOrdered P p' := by
  obtain ⟨h1, h2, h3⟩ := hord
  obtain ⟨a, b, c, d, -⟩ := h
  refine ⟨by rw [c, h1], b h2, fun i hi => ?_⟩
  rw [d]
  by_cases e : i < p.current
  · rw [h3 i e]
    rfl
  · have : p.current ≤ i ∧ i < p'.current := ⟨by omega, hi⟩
    rw [decide_eq_true this, Bool.or_true]

theorem poolOrdered_of_discoveryStep (P : Params) (s s' : AlcEnabler)
    (hord : PoolOrdered P s.pool) (h : DiscoveryStep s s') : PoolOrdered P s'.pool := by
  obtain ⟨h1, h2, h3⟩ := hord
  obtain ⟨a, -, -, -, m1, m2⟩ := h
  simp only [AlcEnabler.pool] at h1 h2 h3 ⊢
  exact ⟨by rw [m1, h1], by rw [a]; exact h2, fun i hi => m2 i (h3 i (by rw [← a]; exact hi))⟩

theorem marksKept_of_firstUnused (max : Nat) (p p' : NvidiaPool)
    (h : FirstUnusedWins max p p') : MarksKept p.usage p'.usage := by
  obtain ⟨-, -, c, d, -⟩ := h
  refine ⟨c, fun i hi => ?_⟩
  rw [d, hi]
  rfl

/-- From the pool invariant, every substitution of a first-unused-wins run took the
lowest index that was unused at that moment. -/
theorem firstUnusedWins_lowest (P : Params) (p p' : NvidiaPool) (hord : PoolOrdered P p)
    (h : FirstUnusedWins P.MaxNvidiaDeviceIds p p') :
    ∃ new, p'.assigned = p.assigned ++ new ∧
      (new.map fun a => a.poolIndex).Pairwise (fun x y => x < y) ∧
      ∀ a ∈ new, p.usage.getD a.poolIndex false = false ∧
        a.poolIndex < P.MaxNvidiaDeviceIds ∧
        ∀ i, i < a.poolIndex →
          p.usage.getD i false = true ∨ i ∈ new.map fun b => b.poolIndex := by
  obtain ⟨-, h2, h3⟩ := hord
  obtain ⟨a1, b1, -, -, new, e1, f1⟩ := h
  refine ⟨new, e1, ?_, ?_⟩
  · rw [f1]
    exact List.Pairwise.filter _ (List.pairwise_lt_range' _ _)
  · intro a ha
    have hmem : a.poolIndex ∈ new.map fun b => b.poolIndex := List.mem_map.mpr ⟨a, ha, rfl⟩
    rw [f1, List.mem_filter, List.mem_range'_1] at hmem
    obtain ⟨⟨r1, r2⟩, r3⟩ := hmem
    have hmax := b1 h2
    refine ⟨by simpa using r3, by omega, fun i hi => ?_⟩
    by_cases e : i < p.current
    · exact Or.inl (h3 i e)
    · by_cases hu : p.usage.getD i false = true
      · exact Or.inl hu
      · right
        rw [f1, List.mem_filter, List.mem_range'_1]
        exact ⟨⟨by omega, by omega⟩, by simpa using hu⟩

theorem alcStep_pool (P : Params) (vendorMod : List VendorModInfo) (host : Host)
    (st : AlcEnabler × KernelPatcher) (step : AlcStep) (hord : PoolOrdered P st.1.pool) :
    PoolOrdered P (alcStep P vendorMod host st step).1.pool ∧
      st.1.currentFreeNvidiaDeviceId ≤
        (alcStep P vendorMod host st step).1.currentFreeNvidiaDeviceId ∧
      MarksKept st.1.nvidiaDeviceIdUsage
        (alcStep P vendorMod host st step).1.nvidiaDeviceIdUsage := by
  cases step with
  | update devInfo =>
    have h := discoveryStep_updateProperties P host devInfo st.1
    exact ⟨poolOrdered_of_discoveryStep P _ _ hord h, Nat.le_of_eq h.1.symm, h.2.2.2.2⟩
  | kext ev =>
    have hlen : P.MaxNvidiaDeviceIds ≤ st.1.nvidiaDeviceIdUsage.length :=
      Nat.le_of_eq hord.1.symm
    have h := processKext_firstUnused P vendorMod host ev st hlen
    exact ⟨poolOrdered_of_firstUnused P _ _ hord h, h.1, marksKept_of_firstUnused _ _ _ h⟩

theorem alcRun_pool (P : Params) (vendorMod : List VendorModInfo) (host : Host)
    (steps : List AlcStep) (st : AlcEnabler × KernelPatcher)
    (hord : PoolOrdered P st.1.pool) :
    PoolOrdered P (alcRun P vendorMod host steps st).1.pool ∧
      st.1.currentFreeNvidiaDeviceId ≤
        (alcRun P vendorMod host steps st).1.currentFreeNvidiaDeviceId ∧
      MarksKept st.1.nvidiaDeviceIdUsage
        (alcRun P vendorMod host steps st).1.nvidiaDeviceIdUsage := by
  induction steps generalizing st with
  | nil => exact ⟨hord, Nat.le_refl _, marksKept_refl _⟩
  | cons step rest ih =>
    simp only [alcRun, List.foldl_cons] at ih ⊢
    obtain ⟨a1, a2, a3⟩ := alcStep_pool P vendorMod host st step hord
    obtain ⟨b1, b2, b3⟩ := ih _ a1
    exact ⟨b1, Nat.le_trans a2 b2, marksKept_trans a3 b3⟩

/-- C21: in every state reached by module-load events and `updateProperties` calls from
a state that satisfies the pool invariant (array of the declared size, cursor at most
`MaxNvidiaDeviceIds`, every index below the cursor marked used; the initial state with
cursor 0 does), the invariant holds again, the cursor has not moved back and no usage mark
was cleared.  An event processed in such a state takes pool ids first-unused-wins: the
indices it assigns are exactly the indices from the cursor on that were unused, in
increasing order up to the new cursor; each was unmarked when taken (an id marked before,
such as one a physical controller carries, is not assigned) and every lower index was
marked used or had been assigned earlier in the event. -/
theorem nvidia_pool_first_unused (P : Params) (vendorMod : List VendorModInfo) (host : Host)
    (steps : List AlcStep) (st : AlcEnabler × KernelPatcher)
    (hord : PoolOrdered P st.1.pool) :
    PoolOrdered P (alcRun P vendorMod host steps st).1.pool ∧
      st.1.currentFreeNvidiaDeviceId ≤
        (alcRun P vendorMod host steps st).1.currentFreeNvidiaDeviceId ∧
      MarksKept st.1.nvidiaDeviceIdUsage
        (alcRun P vendorMod host steps st).1.nvidiaDeviceIdUsage ∧
      ∀ ev : KextEvent,
        FirstUnusedWins P.MaxNvidiaDeviceIds (alcRun P vendorMod host steps st).1.pool
            (processKext P vendorMod host ev (alcRun P vendorMod host steps st)).1.pool ∧
          ∃ new,
            (processKext P vendorMod host ev
                (alcRun P vendorMod host steps st)).1.nvidiaAssigned =
              (alcRun P vendorMod host steps st).1.nvidiaAssigned ++ new ∧
            (new.map fun a => a.poolIndex).Pairwise (fun x y => x < y) ∧
            ∀ a ∈ new,
              (alcRun P vendorMod host steps st).1.nvidiaDeviceIdUsage.getD a.poolIndex false =
                  false ∧
                a.poolIndex < P.MaxNvidiaDeviceIds ∧
                ∀ i, i < a.poolIndex →
                  (alcRun P vendorMod host steps st).1.nvidiaDeviceIdUsage.getD i false = true ∨
                    i ∈ new.map fun b => b.poolIndex := by
  obtain ⟨h1, h2, h3⟩ := alcRun_pool P vendorMod host steps st hord
  refine ⟨h1, h2, h3, fun ev => ?_⟩
  have hf := processKext_firstUnused P vendorMod host ev (alcRun P vendorMod host steps st)
    (Nat.le_of_eq h1.1.symm)
  exact ⟨hf, firstUnusedWins_lowest P _ _ h1 hf⟩

/-- C21, witness: from the state with two NVIDIA controllers and an untouched pool, one
load event of `AppleHDAController` leaves a pool that satisfies the invariant. -/
theorem nvidia_pool_first_unused_witness :
    PoolOrdered demoParams
      (alcRun demoParams [] plainHost [AlcStep.kext controllerKextEvent]
        (twoNvidiaState, freshPatcher)).1.pool :=
  (nvidia_pool_first_unused demoParams [] plainHost [AlcStep.kext controllerKextEvent]
    (twoNvidiaState, freshPatcher)
    ⟨by decide, by decide, fun i hi => absurd hi (Nat.not_lt_zero i)⟩).1

theorem appendCodec_result (P : Params) (c : Nat) (codecs : List CodecInfo)
    (e : IORegistryEntry) :
    ((appendCodec P c codecs e).1 = false → (appendCodec P c codecs e).2 = codecs) ∧
      ((appendCodec P c codecs e).2 = codecs ∨
        ∃ ven rev, (appendCodec P c codecs e).2 = codecs ++ [CodecInfo.create P c ven rev]) := by
  unfold appendCodec
  split
  · split
    · exact ⟨fun h => by simp at h, Or.inr ⟨_, _, rfl⟩⟩
    · exact ⟨fun _ => rfl, Or.inl rfl⟩
  · exact ⟨fun _ => rfl, Or.inl rfl⟩

theorem enumerateCodecs_result (P : Params) (ev : KextEvent) (c brute : Nat)
    (codecs : List CodecInfo) :
    ((enumerateCodecs P ev c brute codecs).1 = false →
        (enumerateCodecs P ev c brute codecs).2 = codecs) ∧
      ((enumerateCodecs P ev c brute codecs).2 = codecs ∨
        ∃ ven rev, (enumerateCodecs P ev c brute codecs).2 =
          codecs ++ [CodecInfo.create P c ven rev]) := by
  unfold enumerateCodecs
  split
  · exact ⟨fun _ => rfl, Or.inl rfl⟩
  · split
    · exact appendCodec_result P c codecs _
    · exact ⟨fun _ => rfl, Or.inl rfl⟩

theorem bruteAttempts_length (P : Params) (ev : KextEvent) (c remaining brute : Nat)
    (codecs : List CodecInfo) : (bruteAttempts P ev c remaining brute codecs).length ≤ remaining := by
  induction remaining generalizing brute codecs with
  | zero => simp [bruteAttempts]
  | succ n ih =>
    simp only [bruteAttempts]
    split
    · simp
    · simp only [List.length_cons]
      have := ih (brute + 1) (enumerateCodecs P ev c brute codecs).2
      omega

theorem bruteCodecs_first_success (P : Params) (ev : KextEvent) (c remaining brute k : Nat)
    (codecs : List CodecInfo) (hk1 : brute ≤ k) (hk2 : k < brute + remaining)
    (hfail : ∀ j, brute ≤ j → j < k → (enumerateCodecs P ev c j codecs).1 = false)
    (hsucc : (enumerateCodecs P ev c k codecs).1 = true) :
    bruteCodecs P ev c remaining brute codecs = (enumerateCodecs P ev c k codecs).2 ∧
      bruteAttempts P ev c remaining brute codecs = List.range' brute (k + 1 - brute) := by
  induction remaining generalizing brute with
  | zero => omega
  | succ n ih =>
    simp only [bruteCodecs, bruteAttempts]
    by_cases e : brute = k
    · subst e
      rw [if_pos hsucc, if_pos hsucc]
      have : brute + 1 - brute = 1 := by omega
      rw [this]
      exact ⟨rfl, rfl⟩
    · have hf := hfail brute (Nat.le_refl _) (by omega)
      have hsame := (enumerateCodecs_result P ev c brute codecs).1 hf
      rw [if_neg (by simp [hf]), if_neg (by simp [hf]), hsame]
      obtain ⟨i1, i2⟩ := ih (brute + 1) (by omega) (by omega)
        (fun j hj1 hj2 => hfail j (by omega) hj2)
      refine ⟨i1, ?_⟩
      rw [i2]
      have : k + 1 - brute = (k + 1 - (brute + 1)) + 1 := by omega
      rw [this, List.range'_succ]

theorem bruteCodecs_no_success (P : Params) (ev : KextEvent) (c remaining brute : Nat)
    (codecs : List CodecInfo)
    (hfail : ∀ j, brute ≤ j → j < brute + remaining →
      (enumerateCodecs P ev c j codecs).1 = false) :
    bruteCodecs P ev c remaining brute codecs = codecs ∧
      bruteAttempts P ev c remaining brute codecs = List.range' brute remaining := by
  induction remaining generalizing brute with
  | zero => exact ⟨rfl, rfl⟩
  | succ n ih =>
    simp only [bruteCodecs, bruteAttempts]
    have hf := hfail brute (Nat.le_refl _) (by omega)
    have hsame := (enumerateCodecs_result P ev c brute codecs).1 hf
    rw [if_neg (by simp [hf]), if_neg (by simp [hf]), hsame]
    obtain ⟨i1, i2⟩ := ih (brute + 1) (fun j hj1 hj2 => hfail j (by omega) (by omega))
    exact ⟨i1, by rw [i2, List.range'_succ]⟩

theorem grabCodecsLoop_eq_foldl (P : Params) (ev : KextEvent) (cs : List ControllerInfo)
    (i : Nat) (codecs : List CodecInfo) :
    grabCodecsLoop P ev cs i codecs =
      (cs.enumFrom i).foldl
        (fun acc jc =>
          if jc.2.detect.isSome = true then bruteCodecs P ev jc.1 P.bruteMax 0 acc else acc)
        codecs := by
  induction cs generalizing i codecs with
  | nil => rfl
  | cons c rest ih =>
    rw [List.enumFrom_cons, List.foldl_cons]
    cases hd : c.detect with
    | none =>
      simp only [grabCodecsLoop, hd, Option.isSome_none, Bool.false_eq_true, if_false]
      exact ih (i + 1) codecs
    | some a =>
      simp only [grabCodecsLoop, hd, Option.isSome_some, if_true]
      exact ih (i + 1) _

/-- C22: the retry loop of `grabCodecs` for one controller with a detect anchor.  It makes
at most `bruteMax` enumeration attempts, for `brute = 0, 1, ...` in order.  When attempt
`k < bruteMax` is the first in which a codec node is found and accepted, the attempts made
are exactly `0 .. k` and the registry is what attempt `k` leaves: the registry as it was,
with at most one codec of this controller appended.  When no attempt succeeds, all
`bruteMax` attempts are made and the registry is as it was.  `grabCodecs` runs this loop
for the controllers with a detect anchor, in registry order, and validates the result. -/
theorem bruteCodecs_bounded_first_success (P : Params) (vendorMod : List VendorModInfo)
    (ev : KextEvent) (c : Nat) (codecs : List CodecInfo) (s : AlcEnabler) :
    (bruteAttempts P ev c P.bruteMax 0 codecs).length ≤ P.bruteMax ∧
      (∀ k, k < P.bruteMax →
        (∀ j, j < k → (enumerateCodecs P ev c j codecs).1 = false) →
        (enumerateCodecs P ev c k codecs).1 = true →
        bruteCodecs P ev c P.bruteMax 0 codecs = (enumerateCodecs P ev c k codecs).2 ∧
          bruteAttempts P ev c P.bruteMax 0 codecs = List.range (k + 1) ∧
          ((enumerateCodecs P ev c k codecs).2 = codecs ∨
            ∃ ven rev, (enumerateCodecs P ev c k codecs).2 =
              codecs ++ [CodecInfo.create P c ven rev])) ∧
      ((∀ j, j < P.bruteMax → (enumerateCodecs P ev c j codecs).1 = false) →
        bruteCodecs P ev c P.bruteMax 0 codecs = codecs ∧
          bruteAttempts P ev c P.bruteMax 0 codecs = List.range P.bruteMax) ∧
      (grabCodecs P vendorMod ev s).1.codecs =
        (validateCodecs vendorMod
          ((s.controllers.enumFrom 0).foldl
            (fun acc jc =>
              if jc.2.detect.isSome = true then bruteCodecs P ev jc.1 P.bruteMax 0 acc
              else acc)
            s.codecs)).1 := by
  refine ⟨bruteAttempts_length P ev c P.bruteMax 0 codecs, ?_, ?_, ?_⟩
  · intro k hk hfail hsucc
    obtain ⟨h1, h2⟩ := bruteCodecs_first_success P ev c P.bruteMax 0 k codecs (Nat.zero_le _)
      (by omega) (fun j _ hj => hfail j hj) hsucc
    refine ⟨h1, ?_, (enumerateCodecs_result P ev c k codecs).2⟩
    rw [h2, List.range_eq_range']
    rfl
  · intro hfail
    obtain ⟨h1, h2⟩ := bruteCodecs_no_success P ev c P.bruteMax 0 codecs
      (fun j _ hj => hfail j (by omega))
    exact ⟨h1, by rw [h2, List.range_eq_range']⟩
  · unfold grabCodecs
    simp only
    rw [grabCodecsLoop_eq_foldl]

/-- C22, witness: no codec node at the attempts 0 to 2, the ALC269 node at attempt 3:
four attempts are made and the registry holds the codec found by the last one. -/
theorem bruteCodecs_bounded_first_success_witness :
    (bruteCodecs demoParams lateCodecEvent 0 demoParams.bruteMax 0 [] =
        (enumerateCodecs demoParams lateCodecEvent 0 3 []).2 ∧
      bruteAttempts demoParams lateCodecEvent 0 demoParams.bruteMax 0 [] = List.range (3 + 1) ∧
      ((enumerateCodecs demoParams lateCodecEvent 0 3 []).2 = [] ∨
        ∃ ven rev, (enumerateCodecs demoParams lateCodecEvent 0 3 []).2 =
          [] ++ [CodecInfo.create demoParams 0 ven rev])) ∧
      (enumerateCodecs demoParams lateCodecEvent 0 3 []).2 =
        [CodecInfo.create demoParams 0 0x10EC0269 0x100100] :=
  ⟨(bruteCodecs_bounded_first_success demoParams [] lateCodecEvent 0 []
      (initialAlcEnabler [] 3)).2.1 3 (by decide) (by decide) (by decide),
    by decide⟩

theorem fixConnectorTypes_keeps (gpu : IORegistryEntry) (remaining i : Nat) (key : String)
    (v : OSObject) (h : gpu.getProperty key = some v) :
    (fixConnectorTypes gpu remaining i).getProperty key = some v := by
  induction remaining generalizing gpu i with
  | zero => exact h
  | succ remaining ih =>
    simp only [fixConnectorTypes]
    split
    · rename_i hnone
      apply ih
      rw [getProperty_setProperty]
      have hne : key ≠ connectorTypeKey i := by
        intro e
        rw [e] at h
        rw [h] at hnone
        simp at hnone
      rw [if_neg hne]
      exact h
    · exact h

theorem fixConnectorTypes_first (gpu : IORegistryEntry) (remaining i : Nat)
    (h : gpu.getProperty (connectorTypeKey i) = none) :
    (fixConnectorTypes gpu (remaining + 1) i).getProperty (connectorTypeKey i) =
      some (OSObject.data [0x00, 0x08, 0x00, 0x00]) := by
  simp only [fixConnectorTypes]
  rw [if_pos (by rw [h]; rfl)]
  apply fixConnectorTypes_keeps
  rw [getProperty_setProperty, if_pos rfl]

theorem video_updateExternalGpu (P : Params) (host : Host) (d : DeviceInfo)
    (before after : List ExternalVideo) (ev : ExternalVideo) (st : GpuLoop)
    (hda : IORegistryEntry) (ha : ev.audio = some hda) (hv : validateInjection hda = true) :
    (updateExternalGpu P host d before after ev st).2.video =
      if ev.vendor = VendorIDNVIDIA ∧
          ((ev.video.setProperty "hda-gfx"
            (cString (onboardName st.hdaGfxCounter))).getProperty "no-audio-fixconn").isNone =
            true then
        fixConnectorTypes
          (ev.video.setProperty "hda-gfx" (cString (onboardName st.hdaGfxCounter)))
          P.MaxConnectorCount 0
      else ev.video.setProperty "hda-gfx" (cString (onboardName st.hdaGfxCounter)) := by
  unfold updateExternalGpu
  simp only [ha, hv, if_true]

/-- C23: the connector types of the video function of a counted external NVIDIA GPU
without `no-audio-fixconn`, after its iteration of the loop of `updateProperties`.  A
connector-type property that existed keeps its value.  But the loop injects defaults from
connector 0 upwards until it meets an existing property: when `@0,connector-type` is
missing it is added, whatever other connector types the node already has. -/
theorem updateExternalGpu_connector_types (P : Params) (host : Host) (d : DeviceInfo)
    (before after : List ExternalVideo) (ev : ExternalVideo) (st : GpuLoop)
    (hda : IORegistryEntry) (ha : ev.audio = some hda) (hv : validateInjection hda = true)
    (hven : ev.vendor = VendorIDNVIDIA)
    (hfix : ev.video.getProperty "no-audio-fixconn" = none) :
    (∀ i v, ev.video.getProperty (connectorTypeKey i) = some v →
        (updateExternalGpu P host d before after ev st).2.video.getProperty
          (connectorTypeKey i) = some v) ∧
      (0 < P.MaxConnectorCount → ev.video.getProperty (connectorTypeKey 0) = none →
        (updateExternalGpu P host d before after ev st).2.video.getProperty
          (connectorTypeKey 0) = some (OSObject.data [0x00, 0x08, 0x00, 0x00])) := by
  rw [video_updateExternalGpu P host d before after ev st hda ha hv]
  have hk : ∀ i, (ev.video.setProperty "hda-gfx"
      (cString (onboardName st.hdaGfxCounter))).getProperty (connectorTypeKey i) =
      ev.video.getProperty (connectorTypeKey i) := by
    intro i
    rw [getProperty_setProperty, if_neg (fun e => connectorTypeKey_ne_hdaGfx i e.symm)]
  have hn : ((ev.video.setProperty "hda-gfx"
      (cString (onboardName st.hdaGfxCounter))).getProperty "no-audio-fixconn").isNone =
      true := by
    rw [getProperty_setProperty, if_neg (by decide), hfix]
    rfl
  rw [if_pos ⟨hven, hn⟩]
  constructor
  · intro i v h
    exact fixConnectorTypes_keeps _ _ _ _ _ (by rw [hk]; exact h)
  · intro hpos h0
    obtain ⟨n, hn1⟩ : ∃ n, P.MaxConnectorCount = n + 1 := ⟨P.MaxConnectorCount - 1, by omega⟩
    rw [hn1]
    exact fixConnectorTypes_first _ _ _ (by rw [hk]; exact h0)

/-- C23, failing input: the video function has `@2,connector-type` and no other
connector type; `updateProperties` adds `@0,connector-type` and `@1,connector-type` and
stops at the existing one. -/
theorem updateExternalGpu_connector_types_witness :
    (updateExternalGpu demoParams plainHost gappedGpuInfo [] [] gappedGpu
        ⟨initialAlcEnabler [] 3, 1⟩).2.video.getProperty (connectorTypeKey 0) =
        some (OSObject.data [0x00, 0x08, 0x00, 0x00]) ∧
      gappedNvidiaGfx.getProperty "@2,connector-type" =
        some (OSObject.data [0x00, 0x04, 0x00, 0x00]) ∧
      videoProperty (updateProperties demoParams plainHost (some gappedGpuInfo)
        (initialAlcEnabler [] 3)).2.1 0 "@0,connector-type" =
        some (OSObject.data [0x00, 0x08, 0x00, 0x00]) ∧
      videoProperty (updateProperties demoParams plainHost (some gappedGpuInfo)
        (initialAlcEnabler [] 3)).2.1 0 "@1,connector-type" =
        some (OSObject.data [0x00, 0x08, 0x00, 0x00]) ∧
      videoProperty (updateProperties demoParams plainHost (some gappedGpuInfo)
        (initialAlcEnabler [] 3)).2.1 0 "@2,connector-type" =
        some (OSObject.data [0x00, 0x04, 0x00, 0x00]) ∧
      videoProperty (updateProperties demoParams plainHost (some gappedGpuInfo)
        (initialAlcEnabler [] 3)).2.1 0 "@3,connector-type" = none :=
  ⟨(updateExternalGpu_connector_types demoParams plainHost gappedGpuInfo [] [] gappedGpu
      ⟨initialAlcEnabler [] 3, 1⟩ (nvidiaHdau 11) rfl (by decide) (by decide)
      (by decide)).2 (by decide) (by decide),
    by decide, by decide, by decide, by decide, by decide⟩

theorem bruteCodecs_mem (P : Params) (ev : KextEvent) (cur remaining brute : Nat)
    (codecs : List CodecInfo) :
    ∀ x ∈ bruteCodecs P ev cur remaining brute codecs, x ∈ codecs ∨ x.controller = cur := by
  induction remaining generalizing brute codecs with
  | zero => exact fun x hx => Or.inl hx
  | succ n ih =>
    have hstep : ∀ x ∈ (enumerateCodecs P ev cur brute codecs).2,
        x ∈ codecs ∨ x.controller = cur := by
      intro x hx
      rcases (enumerateCodecs_result P ev cur brute codecs).2 with h | ⟨ven, rev, h⟩
      · rw [h] at hx
        exact Or.inl hx
      · rw [h, List.mem_append, List.mem_singleton] at hx
        rcases hx with hx | hx
        · exact Or.inl hx
        · right
          rw [hx]
          rfl
    simp only [bruteCodecs]
    split
    · exact hstep
    · intro x hx
      rcases ih (brute + 1) _ x hx with h | h
      · exact hstep x h
      · exact Or.inr h

theorem grabCodecsLoop_controller (P : Params) (ev : KextEvent) (cs : List ControllerInfo)
    (i : Nat) (codecs : List CodecInfo) (bound : Nat)
    (h : ∀ c ∈ codecs, c.controller < bound) (hb : i + cs.length ≤ bound) :
    ∀ c ∈ grabCodecsLoop P ev cs i codecs, c.controller < bound := by
  induction cs generalizing i codecs with
  | nil => exact h
  | cons ctlr rest ih =>
    simp only [List.length_cons] at hb
    simp only [grabCodecsLoop]
    split
    · exact ih (i + 1) codecs h (by omega)
    · refine ih (i + 1) _ ?_ (by omega)
      intro c hc
      rcases bruteCodecs_mem P ev i P.bruteMax 0 codecs c hc with h1 | h1
      · exact h c h1
      · omega

theorem validateCodec_valid (vendorMod : List VendorModInfo) (c : CodecInfo) (ref : Nat × Nat)
    (h : validateCodec vendorMod c = some ref) :
    (codecModInfoAt vendorMod ref).isSome = true := by
  obtain ⟨v, k⟩ := ref
  obtain ⟨ve, m, h1, -, -, h2, -⟩ := (validateCodec_iff vendorMod c v k).mp h
  simp [codecModInfoAt, h1, h2]

theorem validateCodecs_mem (vendorMod : List VendorModInfo) (codecs : List CodecInfo) :
    ∀ x ∈ (validateCodecs vendorMod codecs).1,
      ∃ c0 ∈ codecs, ∃ ref, validateCodec vendorMod c0 = some ref ∧
        x = { c0 with info := some ref } := by
  rw [validateCodecs_eq_filterMap]
  intro x hx
  rw [List.mem_filterMap] at hx
  obtain ⟨c0, hc0, h0⟩ := hx
  cases hv : validateCodec vendorMod c0 with
  | none => simp [hv] at h0
  | some ref =>
    simp only [hv, Option.map_some', Option.some.injEq] at h0
    exact ⟨c0, hc0, ref, hv, h0.symm⟩

theorem grabCodecs_wf (P : Params) (vendorMod : List VendorModInfo) (ev : KextEvent)
    (s : AlcEnabler) (h : ∀ c ∈ s.codecs, c.controller < s.controllers.length) :
    RegistryWF vendorMod (grabCodecs P vendorMod ev s).1.controllers
      (grabCodecs P vendorMod ev s).1.codecs := by
  intro x hx
  obtain ⟨c0, hc0, ref, hv, hx0⟩ := validateCodecs_mem vendorMod _ x hx
  have hc := grabCodecsLoop_controller P ev s.controllers 0 s.codecs s.controllers.length h
    (by omega) c0 hc0
  subst hx0
  refine ⟨hc, fun r hr => ?_⟩
  simp only [Option.some.injEq] at hr
  subst hr
  exact validateCodec_valid vendorMod c0 _ hv

theorem registryWF_mono (vendorMod : List VendorModInfo) (cs cs' : List ControllerInfo)
    (codecs : List CodecInfo) (h : RegistryWF vendorMod cs codecs)
    (hl : cs.length ≤ cs'.length) : RegistryWF vendorMod cs' codecs :=
  fun c hc => ⟨Nat.lt_of_lt_of_le (h c hc).1 hl, (h c hc).2⟩

theorem grabControllers_length (P : Params) (ev : KextEvent) (s : AlcEnabler) :
    s.controllers.length ≤ (grabControllers P ev s).controllers.length := by
  unfold grabControllers
  simp only
  split <;> (repeat' split) <;> simp [validateControllers, insertController]

theorem discover_wf (P : Params) (vendorMod : List VendorModInfo) (ev : KextEvent) (k : Nat)
    (s : AlcEnabler) (h : RegistryWF vendorMod s.controllers s.codecs) :
    RegistryWF vendorMod (discover P vendorMod ev k s).controllers
      (discover P vendorMod ev k s).codecs := by
  unfold discover
  split
  · show RegistryWF vendorMod (grabControllers P ev s).controllers
      (grabControllers P ev s).codecs
    rw [(grabControllers_codecs P ev s).1]
    exact registryWF_mono vendorMod _ _ _ h (grabControllers_length P ev s)
  · split
    · simp only
      have hw := grabCodecs_wf P vendorMod ev s (fun c hc => (h c hc).1)
      split
      · exact hw
      · exact hw
    · exact h

theorem processKext_wf (P : Params) (vendorMod : List VendorModInfo) (host : Host)
    (ev : KextEvent) (st : AlcEnabler × KernelPatcher)
    (h : RegistryWF vendorMod st.1.controllers st.1.codecs) :
    RegistryWF vendorMod (processKext P vendorMod host ev st).1.controllers
      (processKext P vendorMod host ev st).1.codecs := by
  unfold processKext
  simp only
  generalize findKextIndex ev.index P.kextList 0 = k
  split
  · exact h
  · split
    · exact h
    · obtain ⟨t1, t2, -⟩ := processKext_tail_registries P vendorMod host ev k
        (discover P vendorMod ev k st.1, st.2)
      rw [t1, t2]
      exact discover_wf P vendorMod ev k st.1 h

theorem alcRun_wf (P : Params) (vendorMod : List VendorModInfo) (host : Host)
    (steps : List AlcStep) (st : AlcEnabler × KernelPatcher)
    (h : RegistryWF vendorMod st.1.controllers st.1.codecs) :
    RegistryWF vendorMod (alcRun P vendorMod host steps st).1.controllers
      (alcRun P vendorMod host steps st).1.codecs := by
  induction steps generalizing st with
  | nil => exact h
  | cons step rest ih =>
    simp only [alcRun, List.foldl_cons] at ih ⊢
    apply ih
    cases step with
    | update devInfo =>
      have hd := discoveryStep_updateProperties P host devInfo st.1
      show RegistryWF vendorMod (updateProperties P host devInfo st.1).1.controllers
        (updateProperties P host devInfo st.1).1.codecs
      rw [hd.2.2.1]
      exact registryWF_mono vendorMod _ _ _ h hd.2.2.2.1
    | kext ev => exact processKext_wf P vendorMod host ev st h

/-- C24: in every state reached by module-load events (and `updateProperties` calls) from
a state with well-formed registries, such as any state with an empty codec registry,
every codec of the codec registry has a controller index strictly below the size of the
controller registry (and an `info` that is null or points into the codec table), so the
lookup `controllers[codecs[i]->controller]` of `updateResource` stays in bounds: the
model of `updateResource` returns a result for every request. -/
theorem registry_index_safety (P : Params) (vendorMod : List VendorModInfo) (host : Host)
    (steps : List AlcStep) (st : AlcEnabler × KernelPatcher)
    (h : RegistryWF vendorMod st.1.controllers st.1.codecs) :
    (∀ c ∈ (alcRun P vendorMod host steps st).1.codecs,
        c.controller < (alcRun P vendorMod host steps st).1.controllers.length) ∧
      ∀ (compat : Nat → Nat → Bool)
        (decompress : Nat → List Nat → Nat → Option (List Nat × Nat)) (zlib : Bool)
        (type : Resource) (r : ResourceReply),
        ∃ r', updateResource vendorMod compat decompress zlib
          (alcRun P vendorMod host steps st).1.controllers type
          (alcRun P vendorMod host steps st).1.codecs r = some r' := by
  have hw := alcRun_wf P vendorMod host steps st h
  exact ⟨fun c hc => (hw c hc).1,
    fun compat decompress zlib type r =>
      updateResource_wf vendorMod compat decompress zlib _ type _ r hw⟩

/-- C24, witness: after two load events of `AppleHDA` the registry holds one codec, owned
by controller 0 of a registry of one controller. -/
theorem registry_index_safety_witness :
    (processKexts demoParams twoCodecTable plainHost [codecKextEvent, codecKextEvent]
        (initialAlcEnabler [] 3, freshPatcher)).1.codecs.length = 1 ∧
      ∀ c ∈ (alcRun demoParams twoCodecTable plainHost
          [AlcStep.kext codecKextEvent, AlcStep.kext codecKextEvent]
          (initialAlcEnabler [] 3, freshPatcher)).1.codecs,
        c.controller < (alcRun demoParams twoCodecTable plainHost
          [AlcStep.kext codecKextEvent, AlcStep.kext codecKextEvent]
          (initialAlcEnabler [] 3, freshPatcher)).1.controllers.length :=
  ⟨by decide,
    (registry_index_safety demoParams twoCodecTable plainHost
      [AlcStep.kext codecKextEvent, AlcStep.kext codecKextEvent]
      (initialAlcEnabler [] 3, freshPatcher) (fun c hc => by cases hc)).1⟩

theorem getOSBoolean_setObject (e : IORegistryEntry) (key : String) (b : Bool) :
    getOSBoolean (e.setObject key (OSObject.boolean b)) key = some b := by
  simp [getOSBoolean, IORegistryEntry.setObject, IORegistryEntry.getProperty]

theorem getProperty_setObject_of_ne (e : IORegistryEntry) (key k : String) (v : OSObject)
    (h : k ≠ key) : (e.setObject key v).getProperty k = e.getProperty k := by
  simp [IORegistryEntry.setObject, IORegistryEntry.getProperty, h]

/-- The outcome of `performPowerChange` once a codec node with both status properties
has been obtained. -/
theorem performPowerChange_of_status (S : PowerStates)
    (org : Option IORegistryEntry → Nat → Nat → Nat → Nat)
    (parentService : IORegistryEntry → Option IORegistryEntry)
    (hdaDriver : Option IORegistryEntry) (fromState toState timer : Nat)
    (codec : IORegistryEntry) (pin sleep : Bool)
    (hb : hdaDriver.bind parentService = some codec)
    (hp : getOSBoolean codec "alc-pinconfig-status" = some pin)
    (hs : getOSBoolean codec "alc-sleep-status" = some sleep) :
    performPowerChange S org parentService hdaDriver fromState toState timer =
      if pin = true then
        if toState = S.ALCAudioDeviceSleep then
          { hdaCodec := some (codec.setObject "alc-sleep-status" (OSObject.boolean true))
            reinitialised := false, ret := org hdaDriver fromState toState timer }
        else if sleep = true ∧
            (toState = S.ALCAudioDeviceIdle ∨ toState = S.ALCAudioDeviceActive) then
          { hdaCodec := some (codec.setObject "alc-sleep-status" (OSObject.boolean false))
            reinitialised := true, ret := org hdaDriver fromState toState timer }
        else { hdaCodec := some codec, reinitialised := false,
               ret := org hdaDriver fromState toState timer }
      else { hdaCodec := some codec, reinitialised := false,
             ret := org hdaDriver fromState toState timer } := by
  unfold performPowerChange
  simp only [hb, hp, hs]

/-- The outcome of `performPowerChange` when a status property is missing or is not an
`OSBoolean`. -/
theorem performPowerChange_of_no_status (S : PowerStates)
    (org : Option IORegistryEntry → Nat → Nat → Nat → Nat)
    (parentService : IORegistryEntry → Option IORegistryEntry)
    (hdaDriver : Option IORegistryEntry) (fromState toState timer : Nat)
    (codec : IORegistryEntry)
    (hb : hdaDriver.bind parentService = some codec)
    (hn : getOSBoolean codec "alc-pinconfig-status" = none ∨
      getOSBoolean codec "alc-sleep-status" = none) :
    performPowerChange S org parentService hdaDriver fromState toState timer =
      { hdaCodec := some codec, reinitialised := false,
        ret := org hdaDriver fromState toState timer } := by
  unfold performPowerChange
  simp only [hb]
  rcases hn with hn | hn
  · simp only [hn]
  · cases hp : getOSBoolean codec "alc-pinconfig-status" <;> simp only [hn]

theorem performPowerChange_of_no_codec (S : PowerStates)
    (org : Option IORegistryEntry → Nat → Nat → Nat → Nat)
    (parentService : IORegistryEntry → Option IORegistryEntry)
    (hdaDriver : Option IORegistryEntry) (fromState toState timer : Nat)
    (hb : hdaDriver.bind parentService = none) :
    performPowerChange S org parentService hdaDriver fromState toState timer =
      { hdaCodec := none, reinitialised := false,
        ret := org hdaDriver fromState toState timer } := by
  unfold performPowerChange
  simp only [hb]

/-- C25: `performPowerChange` returns the result of the original routine for every
transition.  The pin configuration is initialised again exactly when a codec node is
obtained whose `alc-pinconfig-status` and `alc-sleep-status` are both true and the target
state is idle or active (and is not the sleep state); `alc-sleep-status` is false
afterwards.  `alc-sleep-status` turns true only on a transition to the sleep state with
`alc-pinconfig-status` true.  With `alc-pinconfig-status` false the node is left as it is
and nothing is initialised again; `alc-pinconfig-status` is never changed. -/
theorem performPowerChange_sleep_wake (S : PowerStates)
    (org : Option IORegistryEntry → Nat → Nat → Nat → Nat)
    (parentService : IORegistryEntry → Option IORegistryEntry)
    (hdaDriver : Option IORegistryEntry) (fromState toState timer : Nat) :
    (performPowerChange S org parentService hdaDriver fromState toState timer).ret =
        org hdaDriver fromState toState timer ∧
      ((performPowerChange S org parentService hdaDriver fromState toState
          timer).reinitialised = true ↔
        ∃ codec, hdaDriver.bind parentService = some codec ∧
          getOSBoolean codec "alc-pinconfig-status" = some true ∧
          getOSBoolean codec "alc-sleep-status" = some true ∧
          toState ≠ S.ALCAudioDeviceSleep ∧
          (toState = S.ALCAudioDeviceIdle ∨ toState = S.ALCAudioDeviceActive)) ∧
      ((performPowerChange S org parentService hdaDriver fromState toState
          timer).reinitialised = true →
        ∃ after, (performPowerChange S org parentService hdaDriver fromState toState
            timer).hdaCodec = some after ∧
          getOSBoolean after "alc-sleep-status" = some false) ∧
      (∀ codec after, hdaDriver.bind parentService = some codec →
        (performPowerChange S org parentService hdaDriver fromState toState
          timer).hdaCodec = some after →
        (after.getProperty "alc-pinconfig-status" =
            codec.getProperty "alc-pinconfig-status") ∧
          (getOSBoolean after "alc-sleep-status" = some true →
            getOSBoolean codec "alc-sleep-status" ≠ some true →
            toState = S.ALCAudioDeviceSleep ∧
              getOSBoolean codec "alc-pinconfig-status" = some true) ∧
          (getOSBoolean codec "alc-pinconfig-status" = some false →
            after = codec ∧
              (performPowerChange S org parentService hdaDriver fromState toState
                timer).reinitialised = false)) := by
  cases hb : hdaDriver.bind parentService with
  | none =>
    rw [performPowerChange_of_no_codec S org parentService hdaDriver fromState toState timer hb]
    simp
  | some codec =>
    cases hp : getOSBoolean codec "alc-pinconfig-status" with
    | none =>
      rw [performPowerChange_of_no_status S org parentService hdaDriver fromState toState timer
        codec hb (Or.inl hp)]
      refine ⟨rfl, by simp [hp], by simp, ?_⟩
      intro c after hc ha
      simp only [Option.some.injEq] at hc ha
      subst hc
      subst ha
      rw [hp]
      simp
    | some pin =>
      cases hs : getOSBoolean codec "alc-sleep-status" with
      | none =>
        rw [performPowerChange_of_no_status S org parentService hdaDriver fromState toState
          timer codec hb (Or.inr hs)]
        refine ⟨rfl, by simp [hs], by simp, ?_⟩
        intro c after hc ha
        simp only [Option.some.injEq] at hc ha
        subst hc
        subst ha
        rw [hs]
        simp
      | some sleep =>
        rw [performPowerChange_of_status S org parentService hdaDriver fromState toState timer
          codec pin sleep hb hp hs]
        cases pin with
        | false =>
          rw [if_neg (by decide)]
          refine ⟨rfl, by simp [hp], by simp, ?_⟩
          intro c after hc ha
          simp only [Option.some.injEq] at hc ha
          subst hc
          subst ha
          rw [hp, hs]
          simp
        | true =>
          rw [if_pos rfl]
          by_cases ht : toState = S.ALCAudioDeviceSleep
          · rw [if_pos ht]
            refine ⟨rfl, by simp [ht], by simp, ?_⟩
            intro c after hc ha
            simp only [Option.some.injEq] at hc ha
            subst hc
            subst ha
            refine ⟨getProperty_setObject_of_ne _ _ _ _ (by decide), fun _ _ => ⟨ht, hp⟩, ?_⟩
            rw [hp]
            simp
          · rw [if_neg ht]
            by_cases hw : sleep = true ∧
                (toState = S.ALCAudioDeviceIdle ∨ toState = S.ALCAudioDeviceActive)
            · rw [if_pos hw]
              refine ⟨rfl, ?_, ?_, ?_⟩
              · simp only [true_iff]
                exact ⟨codec, rfl, hp, by rw [hs, hw.1], ht, hw.2⟩
              · intro _
                exact ⟨_, rfl, getOSBoolean_setObject _ _ _⟩
              · intro c after hc ha
                simp only [Option.some.injEq] at hc ha
                subst hc
                subst ha
                refine ⟨getProperty_setObject_of_ne _ _ _ _ (by decide), ?_, ?_⟩
                · rw [getOSBoolean_setObject]
                  intro h
                  simp at h
                · rw [hp]
                  simp
            · rw [if_neg hw]
              refine ⟨rfl, ?_, by simp, ?_⟩
              · simp only [Bool.false_eq_true, false_iff]
                rintro ⟨c, hc, -, h2, -, h4⟩
                simp only [Option.some.injEq] at hc
                subst hc
                rw [hs] at h2
                simp only [Option.some.injEq] at h2
                exact hw ⟨h2, h4⟩
              · intro c after hc ha
                simp only [Option.some.injEq] at hc ha
                subst hc
                subst ha
                refine ⟨rfl, fun h1 h2 => absurd h1 h2, ?_⟩
                rw [hp]
                simp

/-- C25, witness: waking the sleeping codec (transition to the active state) initialises
the pin configuration again and clears `alc-sleep-status`. -/
theorem performPowerChange_sleep_wake_witness :
    (performPowerChange demoPowerStates (fun _ _ _ _ => 0)
        (fun _ => some sleepingCodec) (some hdaDriverNode) 0 2 0).reinitialised = true ∧
      ∃ after, (performPowerChange demoPowerStates (fun _ _ _ _ => 0)
          (fun _ => some sleepingCodec) (some hdaDriverNode) 0 2 0).hdaCodec = some after ∧
        getOSBoolean after "alc-sleep-status" = some false :=
  ⟨by decide,
    (performPowerChange_sleep_wake demoPowerStates (fun _ _ _ _ => 0)
      (fun _ => some sleepingCodec) (some hdaDriverNode) 0 2 0).2.2.1 (by decide)⟩

end AppleALC
